import Mathlib

/-!
RiotWave: health, damage and weapon fire

A shallow embedding of the gameplay code of the RiotWave repository
(`Enemy.cpp`, `PlayerCharacter.cpp`, `WeaponHandlingComponent.cpp`,
`WeaponBase.cpp`, `ItemBase.cpp`, `PlayerCharacterController.cpp`).

Modelling conventions

* In the state models of the actors C++ `float` quantities (health, damage,
  vector components) are rationals: these models carry the properties that
  are about the comparisons, the control flow and the calls made. The `float`
  arithmetic of the health update itself, with rounding, infinities and NaN,
  is modelled by `Binary32`, `AEnemy.TakeDamage32` and
  `APlayerCharacter.TakeDamage32`; the properties of `Health` over arbitrary
  amounts and over repeated hits are stated on that model.
* A nullable pointer (`TObjectPtr<T>`, `T*`, `TSubclassOf<T>`) is an `Option`.
  Pointers handed out by the engine itself (`GetWorld()`, `GetMesh()`,
  `GetAnimInstance()`, `GetSocketByName()`, `GetBlackboardComponent()`) are
  treated as valid; pointers the game code assigns or tests (`Player`,
  `WeaponMeshComponent`, `EnemyController`, asset references) keep their
  nullability, and dereferencing a null one makes the operation return `none`.
  A failed `checkf` assertion makes the operation return `none` as well.
* A member function is a function from the receiver's state (and arguments)
  to the new state together with the list of calls it makes, in program
  order, into the engine or into other actors (`Event`).
-/

namespace RiotWave

/-! ## Engine value types -/

/-- Engine vector `FVector`. -/
structure FVector where
  X : ℚ
  Y : ℚ
  Z : ℚ
  deriving DecidableEq, Repr

/-- Component-wise sum, `FVector::operator+`. -/
def FVector.add (a b : FVector) : FVector := ⟨a.X + b.X, a.Y + b.Y, a.Z + b.Z⟩

/-- Scaling by a scalar, `FVector::operator*(float)`. -/
def FVector.scale (a : FVector) (k : ℚ) : FVector := ⟨a.X * k, a.Y * k, a.Z * k⟩

/-- Engine rotator `FRotator`. -/
structure FRotator where
  Pitch : ℚ
  Yaw : ℚ
  Roll : ℚ
  deriving DecidableEq, Repr

/-- Engine transform `FTransform(Rotation, Translation, Scale3D)`. -/
structure FTransform where
  Rotation : FRotator
  Translation : FVector
  Scale3D : FVector
  deriving DecidableEq, Repr

/-- Handle of an engine asset (sound, particle system, montage, mesh, class). -/
abbrev Asset := Nat

/-- Engine name `FName`. -/
abbrev FName := String

/-! ## Actors as seen through `Cast<>` -/

/-- The dynamic class of an actor, as far as the casts of the game code can
tell: `APlayerCharacter`, `AEnemy` (which implements `IDamageInterface`), or
any other actor class, which may or may not implement `IDamageInterface` and
`IWeaponDetectionInterface`. -/
inductive ActorClass where
  | PlayerCharacter
  | Enemy
  | Other (damageInterface : Bool) (weaponDetectionInterface : Bool)
  deriving DecidableEq, Repr

/-- A non-null `AActor*`: the identity of the actor and its dynamic class. -/
structure AActor where
  id : Nat
  cls : ActorClass
  deriving DecidableEq, Repr

/-- The test `Cast<APlayerCharacter>(Actor) != nullptr`. -/
def CastPlayerCharacter : Option AActor → Option AActor
  | some a => if a.cls = ActorClass.PlayerCharacter then some a else none
  | none => none

/-- The test `Cast<AEnemy>(Actor) != nullptr`. -/
def CastEnemy : Option AActor → Option AActor
  | some a => if a.cls = ActorClass.Enemy then some a else none
  | none => none

/-- The test `Cast<IDamageInterface>(Actor) != nullptr`: `AEnemy` is declared
`public IDamageInterface`, `APlayerCharacter` is not. -/
def CastDamageInterface : Option AActor → Option AActor
  | some a =>
    match a.cls with
    | ActorClass.Enemy => some a
    | ActorClass.PlayerCharacter => none
    | ActorClass.Other d _ => if d then some a else none
  | none => none

/-- Engine hit record `FHitResult`, the fields the game code reads. -/
structure FHitResult where
  bBlockingHit : Bool
  ImpactPoint : FVector
  ImpactNormal : FVector
  Actor : Option AActor
  deriving DecidableEq, Repr

/-- The default-constructed `FHitResult`: no hit, no actor. -/
def FHitResult.init : FHitResult := ⟨false, ⟨0, 0, 0⟩, ⟨0, 0, 0⟩, none⟩

/-! ## Weapon configuration record and input trigger kinds -/

/-- The record `FInitWeaponProperties` (`WeaponHandlingComponent.h`), fields in
declaration order. -/
structure FInitWeaponProperties where
  WeaponSocketName : FName
  MuzzleFlash : Option Asset
  ImpactParticle : Option Asset
  BeamTraceParticle : Option Asset
  FireSound : Option Asset
  Damage : ℚ
  HSMultiplier : ℚ
  WeaponFire : Option Asset
  deriving DecidableEq, Repr

/-- The eight-argument constructor `FInitWeaponProperties(MFlash, IParticle,
BTParticle, FSound, SocketName, WDamage, HMultiplier, WFIre)` with its member
initialiser list. -/
def FInitWeaponProperties.make (MFlash IParticle BTParticle FSound : Option Asset)
    (SocketName : FName) (WDamage HMultiplier : ℚ) (WFIre : Option Asset) :
    FInitWeaponProperties :=
  { WeaponSocketName := SocketName, MuzzleFlash := MFlash, ImpactParticle := IParticle,
    BeamTraceParticle := BTParticle, FireSound := FSound, Damage := WDamage,
    HSMultiplier := HMultiplier, WeaponFire := WFIre }

/-- The trigger kinds `ETriggerEvent` used by the controller's bindings. -/
inductive ETriggerEvent where
  | Triggered
  | Started
  | Completed
  deriving DecidableEq, Repr

/-! ## Observable calls -/

/-- A call made by the game code into the engine or into another actor. The
constructor `Death` marks entry into a `Death()` member function,
`PlayWeaponEffects` entry into `UWeaponHandlingComponent::PlayWeaponEffects`,
`InitializeWeaponProperties` entry into the member function of that name,
`ControllerOnWeaponPicked` the interface call `OnWeaponPicked` on the player's
controller, `BlueprintOnWeaponPicked` the Blueprint event `OnWeaponPicked` of
the pickup, and `ItemPicked` the Blueprint event of an item. -/
inductive Event where
  | Death
  | SuperTakeDamage (DamageAmount : ℚ)
  | PlaySoundAtLocation (Sound : Option Asset) (Location : FVector)
  | SpawnEmitterAtLocation (Template : Asset) (Location : FVector) (RotationOf : FVector)
  | SpawnEmitterAtTransform (Template : Asset) (Transform : FTransform)
  | SetVectorParameter (Name : FName) (Value : FVector)
  | SpawnActor (Class : Asset) (Transform : FTransform)
  | Destroy
  | ApplyDamage (DamagedActor : AActor) (BaseDamage : ℚ)
  | BulletHit (Target : AActor) (HitResult : FHitResult)
  | PlayWeaponEffects (HitResult : FHitResult) (EndEffectLocation : FVector) (SocketEffectName : FName)
  | MontagePlay (Montage : Option Asset)
  | LineTraceSingleByChannel (Start : FVector) (End : FVector)
  | DisableInput
  | SetBlackboardObject (Key : FName) (Value : AActor)
  | SetBlackboardBool (Key : FName) (Value : Bool)
  | NewObject (Name : FName)
  | RegisterComponent (Name : FName)
  | SetSkeletalMesh (Mesh : Option Asset)
  | AttachToComponent (SocketName : FName)
  | ControllerOnWeaponPicked (OwningActor : AActor)
  | BlueprintOnWeaponPicked (OwningActor : AActor)
  | InitializeWeaponProperties (Effects : FInitWeaponProperties)
  | SuperOnPossess (aPawn : Option AActor)
  | AddMappingContext (Context : Option Asset) (Priority : Nat)
  | BindAction (Action : Option Asset) (TriggerEvent : ETriggerEvent) (Handler : FName)
  | ItemPicked
  | SuperNotifyHit (Hit : FHitResult)
  | SetTimer (Callback : FName) (Rate : ℚ) (bLoop : Bool)
  deriving DecidableEq, Repr

/-- The outcome of running a member function: the receiver's new state, the
calls it made, and its return value. -/
structure Run (σ : Type) (α : Type) where
  state : σ
  events : List Event
  ret : α

/-! ## Enemy -/

/-- Collision setting `ECollisionEnabled` of a primitive component. -/
inductive ECollisionEnabled where
  | NoCollision
  | QueryOnly
  deriving DecidableEq, Repr

/-- The blackboard keys written by the enemy (`AEnemyController`'s
`BlackboardComponent`). -/
structure UBlackboardComponent where
  Target : Option AActor
  IsInCombatRange : Bool
  deriving DecidableEq, Repr

/-- State of `AEnemy` (`Enemy.h`), with the actor's location and rotation and
the pending-destruction flag of the engine's `AActor`. `EnemyController` is
null (`none`) or points to an `AEnemyController`, which is represented by its
blackboard. -/
structure AEnemy where
  ImpactParticle : Option Asset
  ImpactSound : Option Asset
  MaxHealth : ℚ
  Health : ℚ
  AttackSound : Option Asset
  EnemyController : Option UBlackboardComponent
  bIsInAttackRange : Bool
  DamageCollision : ECollisionEnabled
  ItemToSpawnOnDeath : Option Asset
  ActorLocation : FVector
  ActorRotation : FRotator
  bActorIsBeingDestroyed : Bool
  deriving DecidableEq, Repr

/-- The constructor `AEnemy::AEnemy() : MaxHealth(500), Health(MaxHealth)`; the
asset references and the placement come from the level. -/
def AEnemy.new (ImpactParticle ImpactSound AttackSound ItemToSpawnOnDeath : Option Asset)
    (loc : FVector) (rot : FRotator) : AEnemy :=
  { ImpactParticle := ImpactParticle, ImpactSound := ImpactSound, MaxHealth := 500,
    Health := 500, AttackSound := AttackSound, EnemyController := none,
    bIsInAttackRange := false, DamageCollision := ECollisionEnabled.NoCollision,
    ItemToSpawnOnDeath := ItemToSpawnOnDeath, ActorLocation := loc, ActorRotation := rot,
    bActorIsBeingDestroyed := false }

/-- `AEnemy::Death` (Enemy.cpp:98-110). -/
def AEnemy.Death (e : AEnemy) : Run AEnemy Unit :=
  let spawn : List Event :=
    match e.ItemToSpawnOnDeath with
    | some cls => [Event.SpawnActor cls ⟨e.ActorRotation, e.ActorLocation, ⟨1, 1, 1⟩⟩]
    | none => []
  { state := { e with bActorIsBeingDestroyed := true },
    events := Event.Death :: (spawn ++ [Event.Destroy]),
    ret := () }

/-- `AEnemy::TakeDamage` (Enemy.cpp:86-95), with the `float` arithmetic read as
exact; `AEnemy.TakeDamage32` is the health update in binary32. -/
def AEnemy.TakeDamage (e : AEnemy) (DamageAmount : ℚ) : Run AEnemy ℚ :=
  if e.Health - DamageAmount ≤ 0 then
    let r := AEnemy.Death { e with Health := 0 }
    { state := r.state, events := Event.SuperTakeDamage DamageAmount :: r.events,
      ret := DamageAmount }
  else
    { state := { e with Health := e.Health - DamageAmount },
      events := [Event.SuperTakeDamage DamageAmount], ret := DamageAmount }

/-! ## Weapon handling component: state -/

/-- The weapon mesh component created by `AttachComponentMeshToActor`. -/
structure USkeletalMeshComponent where
  SkeletalMesh : Option Asset
  Visible : Bool
  deriving DecidableEq, Repr

/-- State of `UWeaponHandlingComponent` (`WeaponHandlingComponent.h`), with the
owner (`GetOwner()`) of the engine's `UActorComponent`. -/
structure UWeaponHandlingComponent where
  Owner : Option AActor
  WeaponMeshComponent : Option USkeletalMeshComponent
  Player : Option AActor
  MuzzleFlash : Option Asset
  ImpactParticle : Option Asset
  BeamTraceParticle : Option Asset
  WeaponFireSound : Option Asset
  EffectSocketName : FName
  BaseDamage : ℚ
  HeadshotMultiplier : ℚ
  WeaponFireMontage : Option Asset
  deriving DecidableEq, Repr

/-! ## Player character -/

/-- State of `APlayerCharacter` (`PlayerCharacter.h`), with the engine state
its `Death` writes: the two flags of `GetMesh()`, the visibility of
`PlayerMesh`, and whether the possessing controller is an `APlayerController`
together with its input-enabled flag. -/
structure APlayerCharacter where
  MaxHealth : ℚ
  Health : ℚ
  ImpactSound : Option Asset
  DeathSound : Option Asset
  bPauseAnims : Bool
  bNoSkeletonUpdate : Bool
  PlayerMeshVisible : Bool
  PlayerController : Option Bool
  ActorLocation : FVector
  WeaponHandlingComponent : Option UWeaponHandlingComponent
  deriving DecidableEq, Repr

/-- The constructed player: the in-class initialisers `MaxHealth = 25000;
Health = MaxHealth`, no weapon handling component yet. -/
def APlayerCharacter.new (ImpactSound DeathSound : Option Asset) (ctrl : Option Bool)
    (loc : FVector) : APlayerCharacter :=
  { MaxHealth := 25000, Health := 25000, ImpactSound := ImpactSound, DeathSound := DeathSound,
    bPauseAnims := false, bNoSkeletonUpdate := false, PlayerMeshVisible := true,
    PlayerController := ctrl, ActorLocation := loc, WeaponHandlingComponent := none }

/-- `APlayerCharacter::Death` (PlayerCharacter.cpp:83-92). -/
def APlayerCharacter.Death (p : APlayerCharacter) : Run APlayerCharacter Unit :=
  let input : List Event :=
    match p.PlayerController with
    | some _ => [Event.DisableInput]
    | none => []
  { state := { p with bPauseAnims := true, bNoSkeletonUpdate := true,
                      PlayerController := p.PlayerController.map (fun _ => false),
                      PlayerMeshVisible := false },
    events := Event.Death :: (input ++ [Event.PlaySoundAtLocation p.DeathSound p.ActorLocation]),
    ret := () }

/-- `APlayerCharacter::TakeDamage` (PlayerCharacter.cpp:94-106), with the `float`
arithmetic read as exact; `APlayerCharacter.TakeDamage32` is the health update
in binary32. -/
def APlayerCharacter.TakeDamage (p : APlayerCharacter) (DamageAmount : ℚ) :
    Run APlayerCharacter ℚ :=
  if p.Health - DamageAmount ≤ 0 then
    let r := APlayerCharacter.Death { p with Health := 0 }
    { state := r.state, events := r.events, ret := DamageAmount }
  else
    let sound : List Event :=
      match p.ImpactSound with
      | some s => [Event.PlaySoundAtLocation (some s) p.ActorLocation]
      | none => []
    { state := { p with Health := p.Health - DamageAmount }, events := sound,
      ret := DamageAmount }

/-! ## Enemy: hit feedback, overlap handlers, melee damage -/

/-- `AEnemy::BulletHit` (Enemy.cpp:74-83). -/
def AEnemy.BulletHit (e : AEnemy) (HitResult : FHitResult) : Run AEnemy Unit :=
  let sound : List Event :=
    match e.ImpactSound with
    | some s => [Event.PlaySoundAtLocation (some s) HitResult.ImpactPoint]
    | none => []
  let particle : List Event :=
    match e.ImpactParticle with
    | some t => [Event.SpawnEmitterAtLocation t HitResult.ImpactPoint HitResult.ImpactNormal]
    | none => []
  { state := e, events := sound ++ particle, ret := () }

/-- `AEnemy::AgroSphereOnOverlapBegin` (Enemy.cpp:124-129); `none` when the
null `EnemyController` is dereferenced. -/
def AEnemy.AgroSphereOnOverlapBegin (e : AEnemy) (OtherActor : Option AActor) :
    Option (Run AEnemy Unit) :=
  match CastPlayerCharacter OtherActor with
  | none => some { state := e, events := [], ret := () }
  | some Character =>
    match e.EnemyController with
    | none => none
    | some bb =>
      some { state := { e with EnemyController := some { bb with Target := some Character } },
             events := [Event.SetBlackboardObject "Target" Character], ret := () }

/-- `AEnemy::AgroSphereOnOverlapEnd` (Enemy.cpp:131): empty body. -/
def AEnemy.AgroSphereOnOverlapEnd (e : AEnemy) (_OtherActor : Option AActor) :
    Option (Run AEnemy Unit) :=
  some { state := e, events := [], ret := () }

/-- `AEnemy::CombatRangeSphereOnOverlapBegin` (Enemy.cpp:134-140). -/
def AEnemy.CombatRangeSphereOnOverlapBegin (e : AEnemy) (OtherActor : Option AActor) :
    Option (Run AEnemy Unit) :=
  match CastPlayerCharacter OtherActor with
  | none => some { state := e, events := [], ret := () }
  | some _ =>
    match e.EnemyController with
    | none => none
    | some bb =>
      some { state := { e with EnemyController := some { bb with IsInCombatRange := true },
                               bIsInAttackRange := true },
             events := [Event.SetBlackboardBool "IsInCombatRange" true], ret := () }

/-- `AEnemy::CombatRangeSphereOnOverlapEnd` (Enemy.cpp:143-151). -/
def AEnemy.CombatRangeSphereOnOverlapEnd (e : AEnemy) (OtherActor : Option AActor) :
    Option (Run AEnemy Unit) :=
  match CastPlayerCharacter OtherActor with
  | none => some { state := e, events := [], ret := () }
  | some _ =>
    match e.EnemyController with
    | none => none
    | some bb =>
      some { state := { e with EnemyController := some { bb with IsInCombatRange := false },
                               bIsInAttackRange := false },
             events := [Event.SetBlackboardBool "IsInCombatRange" false], ret := () }

/-- `AEnemy::DoDamage` (Enemy.cpp:174-182): the damage goes to the other
actor, through the engine's `UGameplayStatics::ApplyDamage`. -/
def AEnemy.DoDamage (e : AEnemy) (OtherActor : Option AActor) : Run AEnemy Unit :=
  match CastPlayerCharacter OtherActor with
  | none => { state := e, events := [], ret := () }
  | some Character =>
    let sound : List Event :=
      match e.AttackSound with
      | some s => [Event.PlaySoundAtLocation (some s) e.ActorLocation]
      | none => []
    { state := e, events := Event.ApplyDamage Character 1500 :: sound, ret := () }

/-- `AEnemy::DamageCollisionOnOverlapBegin` (Enemy.cpp:157-159). -/
def AEnemy.DamageCollisionOnOverlapBegin (e : AEnemy) (OtherActor : Option AActor) :
    Run AEnemy Unit :=
  AEnemy.DoDamage e OtherActor

/-- `AEnemy::DamageCollisionOnOverlapEnd` (Enemy.cpp:161-163): empty body. -/
def AEnemy.DamageCollisionOnOverlapEnd (e : AEnemy) (_OtherActor : Option AActor) :
    Run AEnemy Unit :=
  { state := e, events := [], ret := () }

/-- `AEnemy::ActivateWeaponCollision` (Enemy.cpp:165-167). -/
def AEnemy.ActivateWeaponCollision (e : AEnemy) : Run AEnemy Unit :=
  { state := { e with DamageCollision := ECollisionEnabled.QueryOnly }, events := [], ret := () }

/-- `AEnemy::DeactivateWeaponCollision` (Enemy.cpp:170-172). -/
def AEnemy.DeactivateWeaponCollision (e : AEnemy) : Run AEnemy Unit :=
  { state := { e with DamageCollision := ECollisionEnabled.NoCollision }, events := [], ret := () }

/-! ## Sequences of damage calls -/

/-- The enemy's state after the calls `TakeDamage(d)` for `d` in `ds`, in order. -/
def AEnemy.TakeDamages (e : AEnemy) (ds : List ℚ) : AEnemy :=
  ds.foldl (fun s d => (AEnemy.TakeDamage s d).state) e

/-- The player's state after the calls `TakeDamage(d)` for `d` in `ds`, in order. -/
def APlayerCharacter.TakeDamages (p : APlayerCharacter) (ds : List ℚ) : APlayerCharacter :=
  ds.foldl (fun s d => (APlayerCharacter.TakeDamage s d).state) p

/-! ## Weapon handling component: operations -/

/-- What the engine answers to the queries made while firing: the
deprojection of the viewport centre (`none` when it fails, otherwise
`WorldLocation` and `WorldDirection`), the visibility-channel line trace, the
owner's location, the transform of a socket of the weapon mesh, and whether
spawning the beam emitter yields a component. -/
structure UWorld where
  DeprojectScreenToWorld : Option (FVector × FVector)
  LineTrace : FVector → FVector → FHitResult
  OwnerLocation : FVector
  SocketTransform : FName → FTransform
  BeamSpawned : Bool

/-- `UWeaponHandlingComponent::PerformWorldTrace` (WeaponHandlingComponent.cpp:66-93).
The state is the pair of reference parameters `(EndTrace, OutHitResult)`. -/
def PerformWorldTrace (w : UWorld) (EndTrace : FVector) (OutHitResult : FHitResult) :
    Run (FVector × FHitResult) Bool :=
  match w.DeprojectScreenToWorld with
  | some (WorldLocation, WorldDirection) =>
    let StartTrace := WorldLocation
    let EndTrace1 := StartTrace.add (WorldDirection.scale 10000)
    let Hit := w.LineTrace StartTrace EndTrace1
    if Hit.bBlockingHit then
      { state := (Hit.ImpactPoint, Hit),
        events := [Event.LineTraceSingleByChannel StartTrace EndTrace1], ret := true }
    else
      { state := (EndTrace1, Hit),
        events := [Event.LineTraceSingleByChannel StartTrace EndTrace1], ret := false }
  | none => { state := (EndTrace, OutHitResult), events := [], ret := false }

/-- `UWeaponHandlingComponent::PlayWeaponEffects` (WeaponHandlingComponent.cpp:162-180). -/
def UWeaponHandlingComponent.PlayWeaponEffects (c : UWeaponHandlingComponent) (w : UWorld)
    (HitResult : FHitResult) (EndEffectLocation : FVector) (SocketEffectName : FName) :
    List Event :=
  Event.PlayWeaponEffects HitResult EndEffectLocation SocketEffectName ::
  match c.WeaponMeshComponent with
  | none => []
  | some _ =>
    let SocketLocationTransform := w.SocketTransform SocketEffectName
    let muzzle : List Event :=
      match c.MuzzleFlash with
      | some t => [Event.SpawnEmitterAtTransform t SocketLocationTransform]
      | none => []
    let impact : List Event :=
      match c.ImpactParticle with
      | some t =>
        if HitResult.bBlockingHit then
          [Event.SpawnEmitterAtLocation t HitResult.ImpactPoint HitResult.ImpactNormal]
        else []
      | none => []
    let beam : List Event :=
      match c.BeamTraceParticle with
      | some t =>
        Event.SpawnEmitterAtTransform t SocketLocationTransform ::
          (if w.BeamSpawned then [Event.SetVectorParameter "Target" EndEffectLocation] else [])
      | none => []
    muzzle ++ impact ++ beam

/-- `UWeaponHandlingComponent::FIreWeapon` (WeaponHandlingComponent.cpp:130-153).
`TraceEndLocation` is the value of the uninitialised local of that name;
the result is `none` when the null `Player` is dereferenced. -/
def UWeaponHandlingComponent.FIreWeapon (c : UWeaponHandlingComponent) (w : UWorld)
    (TraceEndLocation : FVector) : Option (Run UWeaponHandlingComponent Unit) :=
  match c.Player with
  | none => none
  | some _ =>
    let t := PerformWorldTrace w TraceEndLocation FHitResult.init
    let TraceEnd := t.state.1
    let TraceHitResult := t.state.2
    let head : List Event :=
      Event.PlaySoundAtLocation c.WeaponFireSound w.OwnerLocation ::
      Event.MontagePlay c.WeaponFireMontage :: t.events
    let tail : List Event :=
      match CastDamageInterface TraceHitResult.Actor with
      | some DamageInterface =>
        Event.BulletHit DamageInterface TraceHitResult ::
        (c.PlayWeaponEffects w TraceHitResult TraceEnd c.EffectSocketName ++
          match CastEnemy TraceHitResult.Actor with
          | some Enemy => [Event.ApplyDamage Enemy c.BaseDamage]
          | none => [])
      | none => c.PlayWeaponEffects w TraceHitResult TraceEnd c.EffectSocketName
    some { state := c, events := head ++ tail, ret := () }

/-- Whether an event is a call of `UGameplayStatics::ApplyDamage`. -/
def Event.isApplyDamage : Event → Bool
  | Event.ApplyDamage _ _ => true
  | _ => false

/-- Whether an event is a call of `IDamageInterface::BulletHit`. -/
def Event.isBulletHit : Event → Bool
  | Event.BulletHit _ _ => true
  | _ => false

/-- Whether an event is an entry into `PlayWeaponEffects`. -/
def Event.isPlayWeaponEffects : Event → Bool
  | Event.PlayWeaponEffects _ _ _ => true
  | _ => false

/-- Whether an event is a line trace. -/
def Event.isLineTrace : Event → Bool
  | Event.LineTraceSingleByChannel _ _ => true
  | _ => false

/-! ## Player controller -/

/-- The dynamic class of the controller's `InputComponent`: a plain
`UInputComponent` or a `UEnhancedInputComponent`. -/
inductive UInputComponent where
  | Plain
  | Enhanced
  deriving DecidableEq, Repr

/-- State of `APlayerCharacterController` (`PlayerCharacterController.h`), with
the engine state it reads and writes: the input component, whether the local
player has an enhanced-input subsystem, the mapping contexts added to that
subsystem and the actions bound on the input component. -/
structure APlayerCharacterController where
  FPSCharacter : Option AActor
  TraversalMappingContext : Option Asset
  WeaponHandlingMappingContext : Option Asset
  MoveAction : Option Asset
  LookAction : Option Asset
  JumpAction : Option Asset
  WeaponFireAction : Option Asset
  InputComponent : Option UInputComponent
  InputSubsystem : Bool
  MappingContexts : List (Option Asset × Nat)
  Bindings : List (Option Asset × ETriggerEvent × FName)
  deriving DecidableEq, Repr

/-- The test `Cast<UEnhancedInputComponent>(InputComponent) != nullptr`. -/
def CastEnhancedInputComponent : Option UInputComponent → Bool
  | some UInputComponent.Enhanced => true
  | _ => false

/-- `APlayerCharacterController::OnPossess` (PlayerCharacterController.cpp:10-34);
`none` when the `checkf` assertion fails. -/
def APlayerCharacterController.OnPossess (ctl : APlayerCharacterController)
    (aPawn : Option AActor) : Option (Run APlayerCharacterController Unit) :=
  let ctl1 := { ctl with FPSCharacter := CastPlayerCharacter aPawn }
  match CastPlayerCharacter aPawn with
  | none => some { state := ctl1, events := [Event.SuperOnPossess aPawn], ret := () }
  | some _ =>
    if CastEnhancedInputComponent ctl.InputComponent then
      let ctx : List (Option Asset × Nat) :=
        if ctl.InputSubsystem then [(ctl.TraversalMappingContext, 0)] else []
      let binds : List (Option Asset × ETriggerEvent × FName) :=
        [(ctl.MoveAction, ETriggerEvent.Triggered, "HandleMoveAction"),
         (ctl.LookAction, ETriggerEvent.Triggered, "HandleLookAction"),
         (ctl.JumpAction, ETriggerEvent.Started, "HandleJumpAction"),
         (ctl.JumpAction, ETriggerEvent.Completed, "HandleStopJumpAction")]
      some { state := { ctl1 with MappingContexts := ctl.MappingContexts ++ ctx,
                                  Bindings := ctl.Bindings ++ binds },
             events := Event.SuperOnPossess aPawn ::
               (ctx.map (fun x => Event.AddMappingContext x.1 x.2) ++
                binds.map (fun b => Event.BindAction b.1 b.2.1 b.2.2)),
             ret := () }
    else none

/-- `APlayerCharacterController::OnWeaponPicked` (PlayerCharacterController.cpp:71-89);
`none` when the `checkf` assertion fails. -/
def APlayerCharacterController.OnWeaponPicked (ctl : APlayerCharacterController)
    (OwningActor : Option AActor) : Option (Run APlayerCharacterController Unit) :=
  if ctl.FPSCharacter = CastPlayerCharacter OwningActor then
    match ctl.FPSCharacter with
    | none => some { state := ctl, events := [], ret := () }
    | some _ =>
      if CastEnhancedInputComponent ctl.InputComponent then
        let ctx : List (Option Asset × Nat) :=
          if ctl.InputSubsystem then [(ctl.WeaponHandlingMappingContext, 0)] else []
        let binds : List (Option Asset × ETriggerEvent × FName) :=
          [(ctl.WeaponFireAction, ETriggerEvent.Triggered, "HandleWeapWeaponFireAction")]
        some { state := { ctl with MappingContexts := ctl.MappingContexts ++ ctx,
                                   Bindings := ctl.Bindings ++ binds },
               events := ctx.map (fun x => Event.AddMappingContext x.1 x.2) ++
                 binds.map (fun b => Event.BindAction b.1 b.2.1 b.2.2),
               ret := () }
      else none
  else some { state := ctl, events := [], ret := () }

/-- The controller possessing a player character (`Player->GetController()`
when non-null): an `APlayerCharacterController`, or a controller of another
class, which may implement `IWeaponDetectionInterface` with the interface's
empty default `OnWeaponPicked`. -/
inductive PossessingController where
  | PlayerCharacterController (c : APlayerCharacterController)
  | Other (weaponDetectionInterface : Bool)
  deriving DecidableEq, Repr

/-! ## Weapon handling component: creation, attachment, configuration -/

/-- The component built by `NewObject<UWeaponHandlingComponent>(Owner, ...)`: the
constructor sets `BaseDamage(0)`, `HeadshotMultiplier(0)`; the object
references are null and the socket name is `NAME_None`. -/
def UWeaponHandlingComponent.new (Owner : AActor) : UWeaponHandlingComponent :=
  { Owner := some Owner, WeaponMeshComponent := none, Player := none, MuzzleFlash := none,
    ImpactParticle := none, BeamTraceParticle := none, WeaponFireSound := none,
    EffectSocketName := "None", BaseDamage := 0, HeadshotMultiplier := 0,
    WeaponFireMontage := none }

/-- `APlayerCharacter::GetWeaponHandlingComponent` (PlayerCharacter.cpp:51-68);
`Self` is the character itself, the owner given to `NewObject`. -/
def APlayerCharacter.GetWeaponHandlingComponent (p : APlayerCharacter) (Self : AActor) :
    Run APlayerCharacter (Option UWeaponHandlingComponent) :=
  match p.WeaponHandlingComponent with
  | none =>
    { state := { p with WeaponHandlingComponent := some (UWeaponHandlingComponent.new Self) },
      events := [Event.NewObject "Weapon Handling Component",
                 Event.RegisterComponent "Weapon Handling Component"],
      ret := some (UWeaponHandlingComponent.new Self) }
  | some c => { state := p, events := [], ret := some c }

/-- `UWeaponHandlingComponent::InitializeWeaponProperties`
(WeaponHandlingComponent.cpp:101-110). -/
def UWeaponHandlingComponent.InitializeWeaponProperties (c : UWeaponHandlingComponent)
    (Effects : FInitWeaponProperties) : Run UWeaponHandlingComponent Unit :=
  { state := { c with MuzzleFlash := Effects.MuzzleFlash,
                      ImpactParticle := Effects.ImpactParticle,
                      BeamTraceParticle := Effects.BeamTraceParticle,
                      EffectSocketName := Effects.WeaponSocketName,
                      WeaponFireSound := Effects.FireSound,
                      BaseDamage := Effects.Damage,
                      HeadshotMultiplier := Effects.HSMultiplier,
                      WeaponFireMontage := Effects.WeaponFire },
    events := [Event.InitializeWeaponProperties Effects], ret := () }

/-- `UWeaponHandlingComponent::AttachComponentMeshToActor`
(WeaponHandlingComponent.cpp:40-58). `Controller` is the controller of the
owning player, consulted only when a mesh component is created; the state is
the component together with that controller; `none` when the controller's
`OnWeaponPicked` fails its assertion. -/
def UWeaponHandlingComponent.AttachComponentMeshToActor (c : UWeaponHandlingComponent)
    (Controller : Option PossessingController) (Mesh : Option Asset) :
    Option (Run (UWeaponHandlingComponent × Option PossessingController) Unit) :=
  let c1 := { c with Player := CastPlayerCharacter c.Owner }
  match c.WeaponMeshComponent, CastPlayerCharacter c.Owner with
  | none, some Player =>
    let c2 := { c1 with WeaponMeshComponent := some ⟨Mesh, true⟩ }
    let evs : List Event :=
      [Event.NewObject "Weapon Mesh", Event.RegisterComponent "Weapon Mesh",
       Event.SetSkeletalMesh Mesh, Event.AttachToComponent "GripPoint"]
    match Controller with
    | some (PossessingController.PlayerCharacterController pc) =>
      match pc.OnWeaponPicked (some Player) with
      | none => none
      | some r =>
        some { state := (c2, some (PossessingController.PlayerCharacterController r.state)),
               events := evs ++ Event.ControllerOnWeaponPicked Player :: r.events, ret := () }
    | some (PossessingController.Other true) =>
      some { state := (c2, Controller),
             events := evs ++ [Event.ControllerOnWeaponPicked Player], ret := () }
    | _ => some { state := (c2, Controller), events := evs, ret := () }
  | _, _ => some { state := (c1, Controller), events := [], ret := () }

/-! ## Weapon pickup -/

/-- State of `AWeaponBase` (`WeaponBase.h`): the skeletal mesh asset of
`PickupWeaponMesh`, the configuration, and the actor's location and
pending-destruction flag. -/
structure AWeaponBase where
  PickupWeaponMesh : Option Asset
  PickupSound : Option Asset
  MuzzleFlash : Option Asset
  ImpactParticle : Option Asset
  BeamTraceParticle : Option Asset
  FireSound : Option Asset
  WeaponSocketName : FName
  BaseDamage : ℚ
  HeadshotMultiplier : ℚ
  WeaponFIreMontage : Option Asset
  ActorLocation : FVector
  bActorIsBeingDestroyed : Bool
  deriving DecidableEq, Repr

/-- The object behind the `OtherActor` pointer of an overlap with a pickup: a
player character with its state and its controller; an enemy; or an actor of
another class, with what its `GetWeaponHandlingComponent` returns when the
class implements `IWeaponDetectionInterface` (`none`, as the interface default
does, or a component) and the controller of the component's owner. -/
inductive OverlappedBy where
  | PlayerCharacter (id : Nat) (Character : APlayerCharacter)
      (Controller : Option PossessingController)
  | Enemy (id : Nat)
  | Other (id : Nat) (damageInterface : Bool) (weaponDetectionInterface : Bool)
      (WHComponent : Option UWeaponHandlingComponent)
      (OwnerController : Option PossessingController)
  deriving DecidableEq, Repr

/-- The `AActor*` value of an overlapping object. -/
def OverlappedBy.actor : OverlappedBy → AActor
  | OverlappedBy.PlayerCharacter id _ _ => ⟨id, ActorClass.PlayerCharacter⟩
  | OverlappedBy.Enemy id => ⟨id, ActorClass.Enemy⟩
  | OverlappedBy.Other id d w _ _ => ⟨id, ActorClass.Other d w⟩

/-- The weapon handling component held by an overlapping object. -/
def OverlappedBy.component : OverlappedBy → Option UWeaponHandlingComponent
  | OverlappedBy.PlayerCharacter _ p _ => p.WeaponHandlingComponent
  | OverlappedBy.Enemy _ => none
  | OverlappedBy.Other _ _ _ c _ => c

/-- The controller carried by an overlapping object. -/
def OverlappedBy.controller : OverlappedBy → Option PossessingController
  | OverlappedBy.PlayerCharacter _ _ ctl => ctl
  | OverlappedBy.Enemy _ => none
  | OverlappedBy.Other _ _ _ _ ctl => ctl

/-- Whether the object implements `IWeaponDetectionInterface` and its
`GetWeaponHandlingComponent` returns a non-null component: a player character
always does (it creates the component on demand). -/
def OverlappedBy.capable : OverlappedBy → Bool
  | OverlappedBy.PlayerCharacter _ _ _ => true
  | OverlappedBy.Enemy _ => false
  | OverlappedBy.Other _ _ w c _ => w && c.isSome

/-- The body of `if ( WHComponent ) { ... }` in
`AWeaponBase::OnWeaponCollisionBeginOverlap` (WeaponBase.cpp:64-82), for the
component `WHComponent` of the actor `OtherActor`: the new states of the
pickup, the component and the controller, and the calls made. -/
def AWeaponBase.transfer (wpn : AWeaponBase) (OtherActor : AActor)
    (WHComponent : UWeaponHandlingComponent) (Controller : Option PossessingController) :
    Option (Run (AWeaponBase × UWeaponHandlingComponent × Option PossessingController) Unit) :=
  match WHComponent.AttachComponentMeshToActor Controller wpn.PickupWeaponMesh with
  | none => none
  | some a =>
    let Effects := FInitWeaponProperties.make wpn.MuzzleFlash wpn.ImpactParticle
      wpn.BeamTraceParticle wpn.FireSound wpn.WeaponSocketName wpn.BaseDamage
      wpn.HeadshotMultiplier wpn.WeaponFIreMontage
    let i := a.state.1.InitializeWeaponProperties Effects
    let sound : List Event :=
      match wpn.PickupSound with
      | some s => [Event.PlaySoundAtLocation (some s) wpn.ActorLocation]
      | none => []
    some { state := ({ wpn with bActorIsBeingDestroyed := true }, i.state, a.state.2),
           events := a.events ++ Event.BlueprintOnWeaponPicked OtherActor ::
             (i.events ++ sound ++ [Event.Destroy]),
           ret := () }

/-- `AWeaponBase::OnWeaponCollisionBeginOverlap` (WeaponBase.cpp:50-84). The state
is the pickup together with the overlapping object; `none` when an assertion
fails on the way. -/
def AWeaponBase.OnWeaponCollisionBeginOverlap (wpn : AWeaponBase)
    (OtherActor : Option OverlappedBy) :
    Option (Run (AWeaponBase × Option OverlappedBy) Unit) :=
  match OtherActor with
  | some (OverlappedBy.PlayerCharacter id p ctl) =>
    let g := p.GetWeaponHandlingComponent ⟨id, ActorClass.PlayerCharacter⟩
    match g.ret with
    | some WHComponent =>
      match wpn.transfer ⟨id, ActorClass.PlayerCharacter⟩ WHComponent ctl with
      | none => none
      | some t =>
        some { state := (t.state.1,
                 some (OverlappedBy.PlayerCharacter id
                   { g.state with WeaponHandlingComponent := some t.state.2.1 } t.state.2.2)),
               events := g.events ++ t.events, ret := () }
    | none => some { state := (wpn, some (OverlappedBy.PlayerCharacter id g.state ctl)),
                     events := g.events, ret := () }
  | some (OverlappedBy.Other id d true (some WHComponent) ctl) =>
    match wpn.transfer ⟨id, ActorClass.Other d true⟩ WHComponent ctl with
    | none => none
    | some t =>
      some { state := (t.state.1,
               some (OverlappedBy.Other id d true (some t.state.2.1) t.state.2.2)),
             events := t.events, ret := () }
  | _ => some { state := (wpn, OtherActor), events := [], ret := () }

/-- Delivery of a begin-overlap event by the engine: an actor on which
`Destroy()` has been called is out of the world and receives no overlap
event; otherwise the bound handler runs. -/
def AWeaponBase.deliverBeginOverlap (wpn : AWeaponBase) (OtherActor : Option OverlappedBy) :
    Option (Run (AWeaponBase × Option OverlappedBy) Unit) :=
  if wpn.bActorIsBeingDestroyed then some { state := (wpn, OtherActor), events := [], ret := () }
  else wpn.OnWeaponCollisionBeginOverlap OtherActor

/-- The pickup and the calls made along a sequence of begin-overlap events
delivered to it; a failed assertion ends the run. -/
def AWeaponBase.overlaps : AWeaponBase → List (Option OverlappedBy) → AWeaponBase × List Event
  | wpn, [] => (wpn, [])
  | wpn, o :: os =>
    match wpn.deliverBeginOverlap o with
    | none => (wpn, [])
    | some r => ((AWeaponBase.overlaps r.state.1 os).1,
                 r.events ++ (AWeaponBase.overlaps r.state.1 os).2)

/-- Whether an event is an entry into `InitializeWeaponProperties`. -/
def Event.isInitializeWeaponProperties : Event → Bool
  | Event.InitializeWeaponProperties _ => true
  | _ => false

/-- Whether an event is a `BindAction` call. -/
def Event.isBindAction : Event → Bool
  | Event.BindAction _ _ _ => true
  | _ => false

/-- Whether an event is a write of a blackboard key. -/
def Event.isBlackboardWrite : Event → Bool
  | Event.SetBlackboardObject _ _ => true
  | Event.SetBlackboardBool _ _ => true
  | _ => false

/-! ## Item pickup -/

/-- State of `AItemBase` (`ItemBase.h`), with the physics flag of its mesh and
the actor's location and pending-destruction flag. -/
structure AItemBase where
  DropSound : Option Asset
  PickupSound : Option Asset
  bSimulatePhysics : Bool
  ActorLocation : FVector
  bActorIsBeingDestroyed : Bool
  deriving DecidableEq, Repr

/-- `AItemBase::OnOverlapBegin` (ItemBase.cpp:52-65). The statement
`void ItemPicked();` in its body is a block-scope function declaration, not a
call, so it contributes no event. -/
def AItemBase.OnOverlapBegin (item : AItemBase) (OtherActor : Option AActor) :
    Run AItemBase Unit :=
  match CastPlayerCharacter OtherActor with
  | some _ =>
    let sound : List Event :=
      match item.PickupSound with
      | some s => [Event.PlaySoundAtLocation (some s) item.ActorLocation]
      | none => []
    { state := { item with bActorIsBeingDestroyed := true },
      events := sound ++ [Event.Destroy], ret := () }
  | none => { state := item, events := [], ret := () }

/-! ## Sequences of combat-range events -/

/-- The enemy after a sequence of inner-volume events caused by the actor
`Player`, `true` for a begin-overlap and `false` for an end-overlap; `none` when
a handler dereferences a null `EnemyController`. -/
def AEnemy.combatRangeOverlaps (Player : AActor) : AEnemy → List Bool → Option AEnemy
  | e, [] => some e
  | e, b :: bs =>
    match (if b then e.CombatRangeSphereOnOverlapBegin (some Player)
           else e.CombatRangeSphereOnOverlapEnd (some Player)) with
    | none => none
    | some r => AEnemy.combatRangeOverlaps Player r.state bs

/-! ## Item: physical impacts -/

/-- `AItemBase::NotifyHit` (ItemBase.cpp:86-91): the timer handle is a local of
the call, so `SetTimer` always registers a new timer. -/
def AItemBase.NotifyHit (item : AItemBase) (Hit : FHitResult) : Run AItemBase Unit :=
  { state := item,
    events := [Event.SuperNotifyHit Hit, Event.SetTimer "DIsablePhysics" 4 false],
    ret := () }

/-- `AItemBase::DIsablePhysics` (ItemBase.cpp:93-95). -/
def AItemBase.DIsablePhysics (item : AItemBase) : Run AItemBase Unit :=
  { state := { item with bSimulatePhysics := false }, events := [], ret := () }

/-- The item and the calls made along a sequence of `NotifyHit` calls. -/
def AItemBase.NotifyHits : AItemBase → List FHitResult → AItemBase × List Event
  | item, [] => (item, [])
  | item, h :: hs =>
    ((AItemBase.NotifyHits (item.NotifyHit h).state hs).1,
     (item.NotifyHit h).events ++ (AItemBase.NotifyHits (item.NotifyHit h).state hs).2)

/-- Whether an event schedules a timer. -/
def Event.isSetTimer : Event → Bool
  | Event.SetTimer _ _ _ => true
  | _ => false

/-- Whether an event spawns an actor. -/
def Event.isSpawnActor : Event → Bool
  | Event.SpawnActor _ _ => true
  | _ => false

/-- Whether an event spawns a particle emitter. -/
def Event.isSpawnEmitter : Event → Bool
  | Event.SpawnEmitterAtLocation _ _ _ => true
  | Event.SpawnEmitterAtTransform _ _ => true
  | _ => false

/-- Whether an event is the interface call `OnWeaponPicked` on a controller. -/
def Event.isControllerOnWeaponPicked : Event → Bool
  | Event.ControllerOnWeaponPicked _ => true
  | _ => false

/-! ## Sequences of pickups by one actor -/

/-- The overlapping object, the pickups and the calls made after the pickups
of the list are overlapped, in order, by the object; `none` when an assertion
fails on the way. -/
def pickUpAll : Option OverlappedBy → List AWeaponBase →
    Option (Option OverlappedBy × List AWeaponBase × List Event)
  | o, [] => some (o, [], [])
  | o, wpn :: ws =>
    match wpn.OnWeaponCollisionBeginOverlap o with
    | none => none
    | some r =>
      match pickUpAll r.state.2 ws with
      | none => none
      | some rest => some (rest.1, r.state.1 :: rest.2.1, r.events ++ rest.2.2)

/-- The component holds the configuration of the pickup: each field written by
`InitializeWeaponProperties` equals the pickup's corresponding field. -/
def UWeaponHandlingComponent.hasConfigOf (c : UWeaponHandlingComponent) (wpn : AWeaponBase) :
    Prop :=
  c.MuzzleFlash = wpn.MuzzleFlash ∧ c.ImpactParticle = wpn.ImpactParticle ∧
  c.BeamTraceParticle = wpn.BeamTraceParticle ∧ c.WeaponFireSound = wpn.FireSound ∧
  c.EffectSocketName = wpn.WeaponSocketName ∧ c.BaseDamage = wpn.BaseDamage ∧
  c.HeadshotMultiplier = wpn.HeadshotMultiplier ∧ c.WeaponFireMontage = wpn.WeaponFIreMontage

/-! ## Possession, pickups and firing in one game -/

/-- Whether the controller has bound the weapon-fire handler. -/
def APlayerCharacterController.fireBound (ctl : APlayerCharacterController) : Bool :=
  ctl.Bindings.any (fun b => b.2.2 == "HandleWeapWeaponFireAction")

/-- A game with one `APlayerCharacterController` and player characters named by
their identity; `Possessed` is the pawn whose controller this controller is
(the engine's possession link). -/
structure GameState where
  Controller : APlayerCharacterController
  Characters : Nat → APlayerCharacter
  Possessed : Option AActor

/-- The game after construction of its actors: the controller's cached
character is null and nothing is bound or mapped, no character has a weapon
handling component, and nothing is possessed; the configured assets and the
input component are those of `ctl`, the characters' other fields those
of `chars`. -/
def GameState.init (ctl : APlayerCharacterController) (chars : Nat → APlayerCharacter) :
    GameState :=
  { Controller := { ctl with FPSCharacter := none, MappingContexts := [], Bindings := [] },
    Characters := fun i => { chars i with WeaponHandlingComponent := none },
    Possessed := none }

/-- The events of a game: the controller possesses a pawn, or the player
character `id` overlaps a weapon pickup. -/
inductive GameEvent where
  | Possess (aPawn : Option AActor)
  | Pickup (wpn : AWeaponBase) (id : Nat)

/-- One event of the game. On possession the engine makes the controller the
pawn's controller and `OnPossess` runs. On a pickup overlap
`AWeaponBase::OnWeaponCollisionBeginOverlap` runs with the character, whose
controller is this controller when the character is the possessed pawn and
null otherwise. `none` when an assertion fails. -/
def GameState.step (s : GameState) : GameEvent → Option GameState
  | GameEvent.Possess aPawn =>
    match s.Controller.OnPossess aPawn with
    | none => none
    | some r => some { s with Controller := r.state, Possessed := aPawn }
  | GameEvent.Pickup wpn id =>
    let ctl : Option PossessingController :=
      if s.Possessed = some ⟨id, ActorClass.PlayerCharacter⟩ then
        some (PossessingController.PlayerCharacterController s.Controller)
      else none
    match wpn.OnWeaponCollisionBeginOverlap
        (some (OverlappedBy.PlayerCharacter id (s.Characters id) ctl)) with
    | none => none
    | some r =>
      match r.state.2 with
      | some (OverlappedBy.PlayerCharacter _ p
          (some (PossessingController.PlayerCharacterController c))) =>
        some { s with Controller := c, Characters := Function.update s.Characters id p }
      | some (OverlappedBy.PlayerCharacter _ p _) =>
        some { s with Characters := Function.update s.Characters id p }
      | _ => some s

/-- The game after a sequence of events; `none` when an assertion fails. -/
def GameState.run : GameState → List GameEvent → Option GameState
  | s, [] => some s
  | s, e :: es =>
    match s.step e with
    | none => none
    | some s1 => GameState.run s1 es

/-- `APlayerCharacterController::HandleWeapWeaponFireAction`
(PlayerCharacterController.cpp:66-69), `FPSCharacter->GetWeaponHandlingComponent()->FIreWeapon()`:
the calls made, or `none` when the null `FPSCharacter` or, inside `FIreWeapon`,
the null `Player` is dereferenced. -/
def GameState.HandleWeapWeaponFireAction (s : GameState) (w : UWorld) (t0 : FVector) :
    Option (GameState × List Event) :=
  match s.Controller.FPSCharacter with
  | none => none
  | some ch =>
    let g := (s.Characters ch.id).GetWeaponHandlingComponent ch
    match g.ret with
    | none => none
    | some c =>
      match c.FIreWeapon w t0 with
      | none => none
      | some r =>
        some ({ s with Characters := Function.update s.Characters ch.id g.state },
              g.events ++ r.events)

/-! ## Concrete worlds and components used in the examples -/

/-- A world in which the crosshair trace hits, at `(1, 2, 3)`, the actor 9, whose
class implements `IDamageInterface` without being an `AEnemy`. -/
def worldHittingDamageable : UWorld :=
  { DeprojectScreenToWorld := some (⟨0, 0, 0⟩, ⟨1, 0, 0⟩),
    LineTrace := fun _ _ => ⟨true, ⟨1, 2, 3⟩, ⟨0, 0, 1⟩, some ⟨9, ActorClass.Other true false⟩⟩,
    OwnerLocation := ⟨0, 0, 0⟩,
    SocketTransform := fun _ => ⟨⟨0, 0, 0⟩, ⟨0, 0, 0⟩, ⟨1, 1, 1⟩⟩,
    BeamSpawned := true }

/-- A world in which the crosshair trace hits nothing. -/
def worldHittingNothing : UWorld :=
  { DeprojectScreenToWorld := some (⟨0, 0, 0⟩, ⟨1, 0, 0⟩),
    LineTrace := fun _ _ => FHitResult.init,
    OwnerLocation := ⟨0, 0, 0⟩,
    SocketTransform := fun _ => ⟨⟨0, 0, 0⟩, ⟨0, 0, 0⟩, ⟨1, 1, 1⟩⟩,
    BeamSpawned := true }

/-- A world in which the crosshair trace hits, at `(1, 2, 3)`, the enemy 4. -/
def worldHittingEnemy : UWorld :=
  { DeprojectScreenToWorld := some (⟨0, 0, 0⟩, ⟨1, 0, 0⟩),
    LineTrace := fun _ _ => ⟨true, ⟨1, 2, 3⟩, ⟨0, 0, 1⟩, some ⟨4, ActorClass.Enemy⟩⟩,
    OwnerLocation := ⟨0, 0, 0⟩,
    SocketTransform := fun _ => ⟨⟨0, 0, 0⟩, ⟨0, 0, 0⟩, ⟨1, 1, 1⟩⟩,
    BeamSpawned := true }

/-- An equipped component of player 1 with base damage 25 and no effect assets. -/
def equippedComponent : UWeaponHandlingComponent :=
  { Owner := some ⟨1, ActorClass.PlayerCharacter⟩,
    WeaponMeshComponent := some ⟨some 11, true⟩, Player := some ⟨1, ActorClass.PlayerCharacter⟩,
    MuzzleFlash := none, ImpactParticle := none, BeamTraceParticle := none,
    WeaponFireSound := none, EffectSocketName := "Barrel Socket", BaseDamage := 25,
    HeadshotMultiplier := 2, WeaponFireMontage := none }

/-- A rifle pickup with distinct assets, base damage 40 and headshot multiplier 3. -/
def riflePickup : AWeaponBase :=
  { PickupWeaponMesh := some 20, PickupSound := some 21, MuzzleFlash := some 22,
    ImpactParticle := some 23, BeamTraceParticle := some 24, FireSound := some 25,
    WeaponSocketName := "Barrel Socket", BaseDamage := 40, HeadshotMultiplier := 3,
    WeaponFIreMontage := some 26, ActorLocation := ⟨5, 5, 0⟩, bActorIsBeingDestroyed := false }

/-- A controller that has possessed player 1, with the given input component. -/
def controllerOfPlayer1 (InputComponent : Option UInputComponent) : APlayerCharacterController :=
  { FPSCharacter := some ⟨1, ActorClass.PlayerCharacter⟩, TraversalMappingContext := some 30,
    WeaponHandlingMappingContext := some 31, MoveAction := some 32, LookAction := some 33,
    JumpAction := some 34, WeaponFireAction := some 35, InputComponent := InputComponent,
    InputSubsystem := true, MappingContexts := [(some 30, 0)], Bindings := [] }

/-- The freshly constructed player 1 under its enhanced-input controller, as the
object overlapping a pickup. -/
def player1Overlapping : OverlappedBy :=
  OverlappedBy.PlayerCharacter 1 (APlayerCharacter.new none none (some true) ⟨0, 0, 0⟩)
    (some (PossessingController.PlayerCharacterController
      (controllerOfPlayer1 (some UInputComponent.Enhanced))))

/-- An enemy at health 320 whose controller's blackboard is empty. -/
def enemyWithController : AEnemy :=
  { AEnemy.new none none none none ⟨0, 0, 0⟩ ⟨0, 0, 0⟩ with
    Health := 320, EnemyController := some ⟨none, false⟩ }

/-- An item with pickup sound 41 lying at the origin. -/
def droppedItem : AItemBase :=
  { DropSound := some 40, PickupSound := some 41, bSimulatePhysics := true,
    ActorLocation := ⟨0, 0, 0⟩, bActorIsBeingDestroyed := false }

/-- A second pickup: a pistol with base damage 15 and headshot multiplier 2. -/
def pistolPickup : AWeaponBase :=
  { PickupWeaponMesh := some 50, PickupSound := none, MuzzleFlash := some 52,
    ImpactParticle := none, BeamTraceParticle := none, FireSound := some 55,
    WeaponSocketName := "Muzzle", BaseDamage := 15, HeadshotMultiplier := 2,
    WeaponFIreMontage := some 56, ActorLocation := ⟨9, 9, 0⟩, bActorIsBeingDestroyed := false }

/-- A game after construction: an enhanced-input controller and default
player characters. -/
def newGame : GameState :=
  GameState.init (controllerOfPlayer1 (some UInputComponent.Enhanced))
    (fun _ => APlayerCharacter.new none none none ⟨0, 0, 0⟩)

/-! ## Health arithmetic in binary32 -/

/-- A value of the C++ type `float` (IEEE-754 binary32), the type of `Health`,
`MaxHealth` and `DamageAmount`: NaN, an infinity, or a finite value. Every
finite binary32 value is a whole multiple of the least subnormal `2^-149`, and
`fin n` stands for the value `n * 2^-149`. The sign of a zero is not
represented: subtraction and comparison do not depend on it. -/
inductive Binary32 where
  | nan : Binary32
  | pinf : Binary32
  | ninf : Binary32
  | fin (n : Int) : Binary32
  deriving DecidableEq, Repr

/-- The number of low-order bits of a magnitude `k` beyond its leading 24 bits:
0 when `k < 2^24`, and `⌊log2 k⌋ - 23` otherwise. The first argument bounds
the number of halvings; `k` itself is always enough. -/
def Binary32.excessBits : Nat → Nat → Nat
  | 0, _ => 0
  | fuel + 1, k => if k < 2 ^ 24 then 0 else Binary32.excessBits fuel (k / 2) + 1

/-- Rounding of a magnitude, counted in units of `2^-149`, to the nearest
magnitude with at most 24 significant bits, a tie going to the even
significand (the default rounding mode of binary32 arithmetic). -/
def Binary32.roundNat (k : Nat) : Nat :=
  let s := Binary32.excessBits k k
  let q := k / 2 ^ s
  let r := k % 2 ^ s
  if 2 ^ s < 2 * r ∨ (2 * r = 2 ^ s ∧ q % 2 = 1) then (q + 1) * 2 ^ s else q * 2 ^ s

/-- The binary32 value of an exact result of `k` units of `2^-149`: the rounded
magnitude with the sign of `k`, or an infinity of that sign when the rounded
magnitude reaches `2^128`, that is `2^128 * 2^149` units. -/
def Binary32.round (k : Int) : Binary32 :=
  if 2 ^ 128 * 2 ^ 149 ≤ Binary32.roundNat k.natAbs then
    (if k < 0 then Binary32.ninf else Binary32.pinf)
  else if k < 0 then Binary32.fin (-(Binary32.roundNat k.natAbs : Int))
  else Binary32.fin (Binary32.roundNat k.natAbs : Int)

/-- Whether a value of the model is a binary32 value: a finite one has a
magnitude below `2^128` that rounding leaves unchanged. -/
def Binary32.isValue : Binary32 → Bool
  | Binary32.fin n =>
    decide (Binary32.roundNat n.natAbs = n.natAbs) && decide (n.natAbs < 2 ^ 128 * 2 ^ 149)
  | _ => true

/-- The rational number that a finite binary32 value stands for. -/
def Binary32.toRat : Binary32 → Option ℚ
  | Binary32.fin n => some ((n : ℚ) / 2 ^ 149)
  | _ => none

/-- The binary32 value of a whole number, as in the member initialisers
`MaxHealth(500)` and `MaxHealth = 25000`. -/
def Binary32.ofNat (v : Nat) : Binary32 := Binary32.round ((v : Int) * 2 ^ 149)

/-- Subtraction, `operator-` on `float`. -/
def Binary32.sub : Binary32 → Binary32 → Binary32
  | Binary32.nan, _ => Binary32.nan
  | _, Binary32.nan => Binary32.nan
  | Binary32.pinf, Binary32.pinf => Binary32.nan
  | Binary32.ninf, Binary32.ninf => Binary32.nan
  | Binary32.pinf, _ => Binary32.pinf
  | Binary32.ninf, _ => Binary32.ninf
  | Binary32.fin _, Binary32.pinf => Binary32.ninf
  | Binary32.fin _, Binary32.ninf => Binary32.pinf
  | Binary32.fin a, Binary32.fin b => Binary32.round (a - b)

/-- Comparison `operator<=` on `float`: false as soon as one side is NaN. -/
def Binary32.le : Binary32 → Binary32 → Bool
  | Binary32.nan, _ => false
  | _, Binary32.nan => false
  | Binary32.ninf, _ => true
  | _, Binary32.pinf => true
  | Binary32.pinf, _ => false
  | _, Binary32.ninf => false
  | Binary32.fin a, Binary32.fin b => decide (a ≤ b)

/-- Comparison `operator<` on `float`: false as soon as one side is NaN. -/
def Binary32.lt : Binary32 → Binary32 → Bool
  | Binary32.nan, _ => false
  | _, Binary32.nan => false
  | _, Binary32.ninf => false
  | Binary32.pinf, _ => false
  | Binary32.ninf, _ => true
  | _, Binary32.pinf => true
  | Binary32.fin a, Binary32.fin b => decide (a < b)

/-- The health update of `AEnemy::TakeDamage` (Enemy.cpp:88-94) on `float`
operands: from the current `Health` and the `DamageAmount`, the new `Health`
and whether `Death()` is called. -/
def AEnemy.TakeDamage32 (Health DamageAmount : Binary32) : Binary32 × Bool :=
  if (Health.sub DamageAmount).le (Binary32.fin 0) then (Binary32.fin 0, true)
  else (Health.sub DamageAmount, false)

/-- The health update of `APlayerCharacter::TakeDamage`
(PlayerCharacter.cpp:95-105) on `float` operands: the new `Health` and whether
`Death()` is called. -/
def APlayerCharacter.TakeDamage32 (Health DamageAmount : Binary32) : Binary32 × Bool :=
  if (Health.sub DamageAmount).le (Binary32.fin 0) then (Binary32.fin 0, true)
  else (Health.sub DamageAmount, false)

/-- The `Health` of an enemy after a sequence of `TakeDamage` calls, in binary32. -/
def AEnemy.TakeDamages32 (Health : Binary32) (ds : List Binary32) : Binary32 :=
  ds.foldl (fun h d => (AEnemy.TakeDamage32 h d).1) Health

/-- The `Health` of a player after a sequence of `TakeDamage` calls, in binary32. -/
def APlayerCharacter.TakeDamages32 (Health : Binary32) (ds : List Binary32) : Binary32 :=
  ds.foldl (fun h d => (APlayerCharacter.TakeDamage32 h d).1) Health

/-! ## Lemmas on a single damage call -/

theorem AEnemy_TakeDamage_Health (e : AEnemy) (d : ℚ) :
    (AEnemy.TakeDamage e d).state.Health = if e.Health - d ≤ 0 then 0 else e.Health - d := by
  unfold AEnemy.TakeDamage AEnemy.Death
  split <;> rfl

theorem AEnemy_TakeDamage_MaxHealth (e : AEnemy) (d : ℚ) :
    (AEnemy.TakeDamage e d).state.MaxHealth = e.MaxHealth := by
  unfold AEnemy.TakeDamage AEnemy.Death
  split <;> rfl

theorem APlayerCharacter_TakeDamage_Health (p : APlayerCharacter) (d : ℚ) :
    (APlayerCharacter.TakeDamage p d).state.Health
      = if p.Health - d ≤ 0 then 0 else p.Health - d := by
  unfold APlayerCharacter.TakeDamage APlayerCharacter.Death
  split <;> rfl

theorem APlayerCharacter_TakeDamage_MaxHealth (p : APlayerCharacter) (d : ℚ) :
    (APlayerCharacter.TakeDamage p d).state.MaxHealth = p.MaxHealth := by
  unfold APlayerCharacter.TakeDamage APlayerCharacter.Death
  split <;> rfl

theorem clamp_eq_max (h d : ℚ) : (if h - d ≤ 0 then (0 : ℚ) else h - d) = max 0 (h - d) := by
  split
  · rw [max_eq_left (by assumption)]
  · rw [max_eq_right (le_of_lt (not_le.mp (by assumption)))]

theorem AEnemy_TakeDamages_cons (e : AEnemy) (d : ℚ) (ds : List ℚ) :
    e.TakeDamages (d :: ds) = (AEnemy.TakeDamage e d).state.TakeDamages ds := rfl

theorem APlayerCharacter_TakeDamages_cons (p : APlayerCharacter) (d : ℚ) (ds : List ℚ) :
    p.TakeDamages (d :: ds) = (APlayerCharacter.TakeDamage p d).state.TakeDamages ds := rfl

theorem AEnemy_TakeDamages_MaxHealth (e : AEnemy) (ds : List ℚ) :
    (e.TakeDamages ds).MaxHealth = e.MaxHealth := by
  induction ds generalizing e with
  | nil => rfl
  | cons d ds ih => rw [AEnemy_TakeDamages_cons, ih, AEnemy_TakeDamage_MaxHealth]

theorem APlayerCharacter_TakeDamages_MaxHealth (p : APlayerCharacter) (ds : List ℚ) :
    (p.TakeDamages ds).MaxHealth = p.MaxHealth := by
  induction ds generalizing p with
  | nil => rfl
  | cons d ds ih => rw [APlayerCharacter_TakeDamages_cons, ih, APlayerCharacter_TakeDamage_MaxHealth]

theorem AEnemy_TakeDamages_le (e : AEnemy) (ds : List ℚ) (hd : ∀ d ∈ ds, 0 ≤ d)
    (h0 : 0 ≤ e.MaxHealth) (h : e.Health ≤ e.MaxHealth) :
    (e.TakeDamages ds).Health ≤ e.MaxHealth := by
  induction ds generalizing e with
  | nil => exact h
  | cons d ds ih =>
    rw [AEnemy_TakeDamages_cons]
    have hd0 : 0 ≤ d := hd d (List.mem_cons_self d ds)
    have key := ih (AEnemy.TakeDamage e d).state
      (fun x hx => hd x (List.mem_cons_of_mem d hx))
    rw [AEnemy_TakeDamage_MaxHealth, AEnemy_TakeDamage_Health, clamp_eq_max] at key
    exact key h0 (max_le h0 (by linarith))

theorem APlayerCharacter_TakeDamages_le (p : APlayerCharacter) (ds : List ℚ)
    (hd : ∀ d ∈ ds, 0 ≤ d) (h0 : 0 ≤ p.MaxHealth) (h : p.Health ≤ p.MaxHealth) :
    (p.TakeDamages ds).Health ≤ p.MaxHealth := by
  induction ds generalizing p with
  | nil => exact h
  | cons d ds ih =>
    rw [APlayerCharacter_TakeDamages_cons]
    have hd0 : 0 ≤ d := hd d (List.mem_cons_self d ds)
    have key := ih (APlayerCharacter.TakeDamage p d).state
      (fun x hx => hd x (List.mem_cons_of_mem d hx))
    rw [APlayerCharacter_TakeDamage_MaxHealth, APlayerCharacter_TakeDamage_Health,
      clamp_eq_max] at key
    exact key h0 (max_le h0 (by linarith))

theorem AEnemy_TakeDamages_dead (e : AEnemy) (ds : List ℚ) (hd : ∀ d ∈ ds, 0 ≤ d)
    (h : e.Health = 0) : (e.TakeDamages ds).Health = 0 := by
  induction ds generalizing e with
  | nil => exact h
  | cons d ds ih =>
    rw [AEnemy_TakeDamages_cons]
    have hd0 : 0 ≤ d := hd d (List.mem_cons_self d ds)
    apply ih _ (fun x hx => hd x (List.mem_cons_of_mem d hx))
    rw [AEnemy_TakeDamage_Health, h, if_pos (by linarith)]

theorem APlayerCharacter_TakeDamages_dead (p : APlayerCharacter) (ds : List ℚ)
    (hd : ∀ d ∈ ds, 0 ≤ d) (h : p.Health = 0) : (p.TakeDamages ds).Health = 0 := by
  induction ds generalizing p with
  | nil => exact h
  | cons d ds ih =>
    rw [APlayerCharacter_TakeDamages_cons]
    have hd0 : 0 ≤ d := hd d (List.mem_cons_self d ds)
    apply ih _ (fun x hx => hd x (List.mem_cons_of_mem d hx))
    rw [APlayerCharacter_TakeDamage_Health, h, if_pos (by linarith)]

/-- The number of entries into `Death()` among the calls -/
theorem AEnemy_Death_count (e : AEnemy) : (AEnemy.Death e).events.count Event.Death = 1 := by
  unfold AEnemy.Death
  cases e.ItemToSpawnOnDeath <;> simp

theorem APlayerCharacter_Death_count (p : APlayerCharacter) :
    (APlayerCharacter.Death p).events.count Event.Death = 1 := by
  unfold APlayerCharacter.Death
  cases p.PlayerController <;> simp

/-! ## Single damage call (C1, C2) -/

/-- C2: for every health `h` and damage `d` (in particular `d ≥ 0`), a single
`TakeDamage(d)` call on an enemy and on a player enters `Death()` exactly once
if `h - d ≤ 0` and not at all if `h - d > 0`. -/
theorem TakeDamage_death_count (e : AEnemy) (p : APlayerCharacter) (d : ℚ) :
    (AEnemy.TakeDamage e d).events.count Event.Death = (if e.Health - d ≤ 0 then 1 else 0) ∧
    (APlayerCharacter.TakeDamage p d).events.count Event.Death
      = (if p.Health - d ≤ 0 then 1 else 0) := by
  constructor
  · unfold AEnemy.TakeDamage
    split
    · simp [AEnemy_Death_count]
    · simp
  · unfold APlayerCharacter.TakeDamage
    split
    · simp [APlayerCharacter_Death_count]
    · cases p.ImpactSound <;> simp

/-! ## Health invariants over sequences of calls (C4, C6) -/

/-- Counterexample to C4 as stated: one `TakeDamage(-1)` call on the constructed
enemy gives health 501 above its maximum 500, and on the constructed player
gives 25001 above its maximum 25000. -/
theorem Health_le_MaxHealth_fails :
    ¬ (((AEnemy.new none none none none ⟨0, 0, 0⟩ ⟨0, 0, 0⟩).TakeDamages [-1]).Health
        ≤ ((AEnemy.new none none none none ⟨0, 0, 0⟩ ⟨0, 0, 0⟩).TakeDamages [-1]).MaxHealth) ∧
    ¬ (((APlayerCharacter.new none none none ⟨0, 0, 0⟩).TakeDamages [-1]).Health
        ≤ ((APlayerCharacter.new none none none ⟨0, 0, 0⟩).TakeDamages [-1]).MaxHealth) := by
  constructor
  · rw [AEnemy_TakeDamages_MaxHealth, AEnemy_TakeDamages_cons, AEnemy.TakeDamages,
      List.foldl_nil, AEnemy_TakeDamage_Health]
    norm_num [AEnemy.new]
  · rw [APlayerCharacter_TakeDamages_MaxHealth, APlayerCharacter_TakeDamages_cons,
      APlayerCharacter.TakeDamages, List.foldl_nil, APlayerCharacter_TakeDamage_Health]
    norm_num [APlayerCharacter.new]

/-- C4 (amended): from the constructed state (health 500 of 500 for the enemy,
25000 of 25000 for the player), after every finite sequence of `TakeDamage`
calls whose amounts are all non-negative, `Health ≤ MaxHealth`, and
`MaxHealth` is still 500, respectively 25000. -/
theorem Health_le_MaxHealth (a1 a2 a3 a4 s1 s2 : Option Asset) (ctrl : Option Bool)
    (loc : FVector) (rot : FRotator) (ds : List ℚ) (hd : ∀ d ∈ ds, 0 ≤ d) :
    ((AEnemy.new a1 a2 a3 a4 loc rot).TakeDamages ds).Health
        ≤ ((AEnemy.new a1 a2 a3 a4 loc rot).TakeDamages ds).MaxHealth ∧
    ((AEnemy.new a1 a2 a3 a4 loc rot).TakeDamages ds).MaxHealth = 500 ∧
    ((APlayerCharacter.new s1 s2 ctrl loc).TakeDamages ds).Health
        ≤ ((APlayerCharacter.new s1 s2 ctrl loc).TakeDamages ds).MaxHealth ∧
    ((APlayerCharacter.new s1 s2 ctrl loc).TakeDamages ds).MaxHealth = 25000 := by
  rw [AEnemy_TakeDamages_MaxHealth, APlayerCharacter_TakeDamages_MaxHealth]
  refine ⟨?_, rfl, ?_, rfl⟩
  · exact AEnemy_TakeDamages_le _ ds hd (by norm_num [AEnemy.new]) (le_refl _)
  · exact APlayerCharacter_TakeDamages_le _ ds hd (by norm_num [APlayerCharacter.new]) (le_refl _)

/-- Witness for C4 (amended): the amounts 100, 0, 450. -/
theorem Health_le_MaxHealth_witness :
    ((AEnemy.new none none none none ⟨0, 0, 0⟩ ⟨0, 0, 0⟩).TakeDamages [100, 0, 450]).Health
        ≤ ((AEnemy.new none none none none ⟨0, 0, 0⟩ ⟨0, 0, 0⟩).TakeDamages
            [100, 0, 450]).MaxHealth ∧
    ((AEnemy.new none none none none ⟨0, 0, 0⟩ ⟨0, 0, 0⟩).TakeDamages [100, 0, 450]).MaxHealth
        = 500 ∧
    ((APlayerCharacter.new none none none ⟨0, 0, 0⟩).TakeDamages [100, 0, 450]).Health
        ≤ ((APlayerCharacter.new none none none ⟨0, 0, 0⟩).TakeDamages [100, 0, 450]).MaxHealth ∧
    ((APlayerCharacter.new none none none ⟨0, 0, 0⟩).TakeDamages [100, 0, 450]).MaxHealth
        = 25000 :=
  Health_le_MaxHealth none none none none none none none ⟨0, 0, 0⟩ ⟨0, 0, 0⟩ [100, 0, 450]
    (by intro d hd; simp only [List.mem_cons, List.mem_singleton, List.not_mem_nil, or_false] at hd
        rcases hd with h | h | h <;> rw [h] <;> norm_num)

/-! ## Re-entry into `Death()` (C5) -/

theorem AEnemy_set_Health_self (e : AEnemy) (h : e.Health = 0) : { e with Health := 0 } = e := by
  cases e
  simp only at h
  subst h
  rfl

theorem APlayerCharacter_set_Health_self (p : APlayerCharacter) (h : p.Health = 0) :
    { p with Health := 0 } = p := by
  cases p
  simp only at h
  subst h
  rfl

/-- Counterexample to C5 as stated: an enemy with death-drop class 7 killed by a
hit of 600 is at health 0 and has spawned its item; a further `TakeDamage(0)`
and a direct `Death()` each spawn the item again. A player with death sound 3
killed by a hit of 600 is at health 0; a further `TakeDamage(0)` and a direct
`Death()` each play the death sound again. -/
theorem Death_not_idempotent :
    (AEnemy.TakeDamage (AEnemy.new none none none (some 7) ⟨0, 0, 0⟩ ⟨0, 0, 0⟩) 600).state.Health
      = 0 ∧
    Event.SpawnActor 7 ⟨⟨0, 0, 0⟩, ⟨0, 0, 0⟩, ⟨1, 1, 1⟩⟩ ∈
      (AEnemy.TakeDamage (AEnemy.new none none none (some 7) ⟨0, 0, 0⟩ ⟨0, 0, 0⟩) 600).events ∧
    Event.SpawnActor 7 ⟨⟨0, 0, 0⟩, ⟨0, 0, 0⟩, ⟨1, 1, 1⟩⟩ ∈
      (AEnemy.TakeDamage
        (AEnemy.TakeDamage (AEnemy.new none none none (some 7) ⟨0, 0, 0⟩ ⟨0, 0, 0⟩) 600).state
        0).events ∧
    Event.SpawnActor 7 ⟨⟨0, 0, 0⟩, ⟨0, 0, 0⟩, ⟨1, 1, 1⟩⟩ ∈
      (AEnemy.Death
        (AEnemy.TakeDamage (AEnemy.new none none none (some 7) ⟨0, 0, 0⟩ ⟨0, 0, 0⟩)
          600).state).events ∧
    (APlayerCharacter.TakeDamage
        { APlayerCharacter.new none (some 3) none ⟨0, 0, 0⟩ with Health := 500 } 600).state.Health
      = 0 ∧
    Event.PlaySoundAtLocation (some 3) ⟨0, 0, 0⟩ ∈
      (APlayerCharacter.TakeDamage
        (APlayerCharacter.TakeDamage
          { APlayerCharacter.new none (some 3) none ⟨0, 0, 0⟩ with Health := 500 } 600).state
        0).events ∧
    Event.PlaySoundAtLocation (some 3) ⟨0, 0, 0⟩ ∈
      (APlayerCharacter.Death
        (APlayerCharacter.TakeDamage
          { APlayerCharacter.new none (some 3) none ⟨0, 0, 0⟩ with Health := 500 }
          600).state).events := by
  refine ⟨?_, ?_, ?_, ?_, ?_, ?_, ?_⟩ <;>
    norm_num [AEnemy.TakeDamage, AEnemy.Death, AEnemy.new, APlayerCharacter.TakeDamage,
      APlayerCharacter.Death, APlayerCharacter.new]

/-- C5 (amended): when `Health` is already 0, a further `TakeDamage(d)` with
`d ≥ 0` leaves `Health` at 0 and runs `Death()` again, and every run of
`Death()` repeats the death effects: the enemy spawns its death-drop item
once per run when `ItemToSpawnOnDeath` is set, and the player plays the
death sound once per run. -/
theorem Death_reentry (e : AEnemy) (p : APlayerCharacter) (d : ℚ)
    (he : e.Health = 0) (hp : p.Health = 0) (hd : 0 ≤ d) :
    (AEnemy.TakeDamage e d).state.Health = 0 ∧
    (AEnemy.TakeDamage e d).events = Event.SuperTakeDamage d :: (AEnemy.Death e).events ∧
    (∀ cls, e.ItemToSpawnOnDeath = some cls →
      (AEnemy.Death e).events.count
        (Event.SpawnActor cls ⟨e.ActorRotation, e.ActorLocation, ⟨1, 1, 1⟩⟩) = 1) ∧
    (APlayerCharacter.TakeDamage p d).state.Health = 0 ∧
    (APlayerCharacter.TakeDamage p d).events = (APlayerCharacter.Death p).events ∧
    (APlayerCharacter.Death p).events.count
        (Event.PlaySoundAtLocation p.DeathSound p.ActorLocation) = 1 := by
  have h1 : e.Health - d ≤ 0 := by rw [he]; linarith
  have h2 : p.Health - d ≤ 0 := by rw [hp]; linarith
  refine ⟨?_, ?_, ?_, ?_, ?_, ?_⟩
  · rw [AEnemy_TakeDamage_Health, if_pos h1]
  · unfold AEnemy.TakeDamage
    rw [if_pos h1, AEnemy_set_Health_self e he]
  · intro cls hcls
    unfold AEnemy.Death
    rw [hcls]
    simp
  · rw [APlayerCharacter_TakeDamage_Health, if_pos h2]
  · unfold APlayerCharacter.TakeDamage
    rw [if_pos h2, APlayerCharacter_set_Health_self p hp]
  · unfold APlayerCharacter.Death
    cases p.PlayerController <;> simp

/-- Witness for C5 (amended): a dead enemy with death-drop class 7 and a dead
player, each hit for 1500. -/
theorem Death_reentry_witness :
    (AEnemy.TakeDamage
        { AEnemy.new none none none (some 7) ⟨0, 0, 0⟩ ⟨0, 0, 0⟩ with Health := 0 }
        1500).events.count (Event.SpawnActor 7 ⟨⟨0, 0, 0⟩, ⟨0, 0, 0⟩, ⟨1, 1, 1⟩⟩) = 1 ∧
    (APlayerCharacter.TakeDamage
        { APlayerCharacter.new none (some 3) none ⟨0, 0, 0⟩ with Health := 0 }
        1500).events.count (Event.PlaySoundAtLocation (some 3) ⟨0, 0, 0⟩) = 1 := by
  have h := Death_reentry
    { AEnemy.new none none none (some 7) ⟨0, 0, 0⟩ ⟨0, 0, 0⟩ with Health := 0 }
    { APlayerCharacter.new none (some 3) none ⟨0, 0, 0⟩ with Health := 0 } 1500
    rfl rfl (by norm_num)
  constructor
  · rw [h.2.1, List.count_cons_of_ne (by simp)]
    exact h.2.2.1 7 rfl
  · rw [h.2.2.2.2.1]
    exact h.2.2.2.2.2

/-- Counterexample to C6 as stated: an enemy and a player at health 0 are back
at health 1 after `TakeDamage(-1)`. -/
theorem dead_state_not_terminal :
    (AEnemy.TakeDamage
        { AEnemy.new none none none none ⟨0, 0, 0⟩ ⟨0, 0, 0⟩ with Health := 0 } (-1)).state.Health
      = 1 ∧
    (APlayerCharacter.TakeDamage
        { APlayerCharacter.new none none none ⟨0, 0, 0⟩ with Health := 0 } (-1)).state.Health
      = 1 := by
  rw [AEnemy_TakeDamage_Health, APlayerCharacter_TakeDamage_Health]
  constructor <;> norm_num

/-- C6 (amended): once `Health` is 0 it is still 0 after every subsequent
sequence of `TakeDamage` calls whose amounts are all non-negative. -/
theorem dead_state_terminal (e : AEnemy) (p : APlayerCharacter) (ds : List ℚ)
    (he : e.Health = 0) (hp : p.Health = 0) (hd : ∀ d ∈ ds, 0 ≤ d) :
    (e.TakeDamages ds).Health = 0 ∧ (p.TakeDamages ds).Health = 0 :=
  ⟨AEnemy_TakeDamages_dead e ds hd he, APlayerCharacter_TakeDamages_dead p ds hd hp⟩

/-- Witness for C6 (amended): the states reached by a lethal hit of 600 on health
500, followed by the amounts 0, 1500, 3. -/
theorem dead_state_terminal_witness :
    ((AEnemy.TakeDamage (AEnemy.new none none none none ⟨0, 0, 0⟩ ⟨0, 0, 0⟩) 600).state.TakeDamages
        [0, 1500, 3]).Health = 0 ∧
    ((APlayerCharacter.TakeDamage
        { APlayerCharacter.new none none none ⟨0, 0, 0⟩ with Health := 500 } 600).state.TakeDamages
        [0, 1500, 3]).Health = 0 :=
  dead_state_terminal _ _ [0, 1500, 3]
    (by rw [AEnemy_TakeDamage_Health]; norm_num [AEnemy.new])
    (by rw [APlayerCharacter_TakeDamage_Health]; norm_num)
    (by intro d hd; simp only [List.mem_cons, List.mem_singleton, List.not_mem_nil, or_false] at hd
        rcases hd with h | h | h <;> rw [h] <;> norm_num)

/-! ## Frame: who writes `Health` (C7) -/

/-- C7: `BulletHit`, `Death`, the agro, combat-range and damage-collision overlap
handlers, `DoDamage`, `ActivateWeaponCollision` and `DeactivateWeaponCollision`
of the enemy, and `Death` of the player, leave the receiver's `Health` and
`MaxHealth` unchanged (for the handlers that dereference `EnemyController`:
whenever they return). -/
theorem Health_frame (e : AEnemy) (p : APlayerCharacter) (HitResult : FHitResult)
    (OtherActor : Option AActor) :
    ((AEnemy.BulletHit e HitResult).state.Health = e.Health ∧
      (AEnemy.BulletHit e HitResult).state.MaxHealth = e.MaxHealth) ∧
    ((AEnemy.Death e).state.Health = e.Health ∧ (AEnemy.Death e).state.MaxHealth = e.MaxHealth) ∧
    (∀ r, AEnemy.AgroSphereOnOverlapBegin e OtherActor = some r →
      r.state.Health = e.Health ∧ r.state.MaxHealth = e.MaxHealth) ∧
    (∀ r, AEnemy.AgroSphereOnOverlapEnd e OtherActor = some r →
      r.state.Health = e.Health ∧ r.state.MaxHealth = e.MaxHealth) ∧
    (∀ r, AEnemy.CombatRangeSphereOnOverlapBegin e OtherActor = some r →
      r.state.Health = e.Health ∧ r.state.MaxHealth = e.MaxHealth) ∧
    (∀ r, AEnemy.CombatRangeSphereOnOverlapEnd e OtherActor = some r →
      r.state.Health = e.Health ∧ r.state.MaxHealth = e.MaxHealth) ∧
    ((AEnemy.DamageCollisionOnOverlapBegin e OtherActor).state.Health = e.Health ∧
      (AEnemy.DamageCollisionOnOverlapBegin e OtherActor).state.MaxHealth = e.MaxHealth) ∧
    ((AEnemy.DamageCollisionOnOverlapEnd e OtherActor).state.Health = e.Health ∧
      (AEnemy.DamageCollisionOnOverlapEnd e OtherActor).state.MaxHealth = e.MaxHealth) ∧
    ((AEnemy.DoDamage e OtherActor).state.Health = e.Health ∧
      (AEnemy.DoDamage e OtherActor).state.MaxHealth = e.MaxHealth) ∧
    ((AEnemy.ActivateWeaponCollision e).state.Health = e.Health ∧
      (AEnemy.ActivateWeaponCollision e).state.MaxHealth = e.MaxHealth) ∧
    ((AEnemy.DeactivateWeaponCollision e).state.Health = e.Health ∧
      (AEnemy.DeactivateWeaponCollision e).state.MaxHealth = e.MaxHealth) ∧
    ((APlayerCharacter.Death p).state.Health = p.Health ∧
      (APlayerCharacter.Death p).state.MaxHealth = p.MaxHealth) := by
  refine ⟨⟨rfl, rfl⟩, ⟨rfl, rfl⟩, ?_, ?_, ?_, ?_, ?_, ⟨rfl, rfl⟩, ?_, ⟨rfl, rfl⟩, ⟨rfl, rfl⟩,
    ⟨rfl, rfl⟩⟩
  · intro r hr
    unfold AEnemy.AgroSphereOnOverlapBegin at hr
    split at hr
    · cases hr; exact ⟨rfl, rfl⟩
    · split at hr
      · cases hr
      · cases hr; exact ⟨rfl, rfl⟩
  · intro r hr
    cases hr; exact ⟨rfl, rfl⟩
  · intro r hr
    unfold AEnemy.CombatRangeSphereOnOverlapBegin at hr
    split at hr
    · cases hr; exact ⟨rfl, rfl⟩
    · split at hr
      · cases hr
      · cases hr; exact ⟨rfl, rfl⟩
  · intro r hr
    unfold AEnemy.CombatRangeSphereOnOverlapEnd at hr
    split at hr
    · cases hr; exact ⟨rfl, rfl⟩
    · split at hr
      · cases hr
      · cases hr; exact ⟨rfl, rfl⟩
  · unfold AEnemy.DamageCollisionOnOverlapBegin AEnemy.DoDamage
    split <;> exact ⟨rfl, rfl⟩
  · unfold AEnemy.DoDamage
    split <;> exact ⟨rfl, rfl⟩

/-- Witness for C7: an enemy at health 320 with a controller, overlapped by the
player character 1; the agro handler returns, records the target, and the
health is still 320 of 500. -/
theorem Health_frame_witness :
    ∃ r, AEnemy.AgroSphereOnOverlapBegin
        { AEnemy.new none none none none ⟨0, 0, 0⟩ ⟨0, 0, 0⟩ with
          Health := 320, EnemyController := some ⟨none, false⟩ }
        (some ⟨1, ActorClass.PlayerCharacter⟩) = some r ∧
      r.state.EnemyController = some ⟨some ⟨1, ActorClass.PlayerCharacter⟩, false⟩ ∧
      r.state.Health = 320 ∧ r.state.MaxHealth = 500 :=
  ⟨_, rfl, rfl,
    (Health_frame
      { AEnemy.new none none none none ⟨0, 0, 0⟩ ⟨0, 0, 0⟩ with
        Health := 320, EnemyController := some ⟨none, false⟩ }
      (APlayerCharacter.new none none none ⟨0, 0, 0⟩) FHitResult.init
      (some ⟨1, ActorClass.PlayerCharacter⟩)).2.2.1 _ rfl⟩

/-! ## Hit trace (C10) -/

/-- C10: `PerformWorldTrace` performs at most one line trace; it returns true
exactly when the deprojection succeeded and the trace from the deprojected
location to `location + 10000 * direction` reported a blocking hit; when it
returns true `EndTrace` is the impact point of the returned hit; when the
deprojection succeeded without a blocking hit `EndTrace` is
`location + 10000 * direction`. In detail: when the deprojection succeeded
the calls made are exactly the one line trace from `location` to
`location + 10000 * direction`, the returned hit is the result of that trace,
the return value is its blocking flag and on a blocking hit `EndTrace` is its
impact point; when the deprojection failed no call is made, false is
returned, and `EndTrace` and the hit result are left as passed in. -/
theorem PerformWorldTrace_spec (w : UWorld) (EndTrace : FVector) (OutHitResult : FHitResult) :
    ((PerformWorldTrace w EndTrace OutHitResult).events.filter Event.isLineTrace).length ≤ 1 ∧
    ((PerformWorldTrace w EndTrace OutHitResult).ret = true ↔
      ∃ loc dir, w.DeprojectScreenToWorld = some (loc, dir) ∧
        (w.LineTrace loc (loc.add (dir.scale 10000))).bBlockingHit = true) ∧
    ((PerformWorldTrace w EndTrace OutHitResult).ret = true →
      (PerformWorldTrace w EndTrace OutHitResult).state.2.bBlockingHit = true ∧
      (PerformWorldTrace w EndTrace OutHitResult).state.1
        = (PerformWorldTrace w EndTrace OutHitResult).state.2.ImpactPoint) ∧
    (∀ loc dir, w.DeprojectScreenToWorld = some (loc, dir) →
      (w.LineTrace loc (loc.add (dir.scale 10000))).bBlockingHit = false →
      (PerformWorldTrace w EndTrace OutHitResult).state.1 = loc.add (dir.scale 10000)) ∧
    (∀ loc dir, w.DeprojectScreenToWorld = some (loc, dir) →
      (PerformWorldTrace w EndTrace OutHitResult).events
        = [Event.LineTraceSingleByChannel loc (loc.add (dir.scale 10000))] ∧
      (PerformWorldTrace w EndTrace OutHitResult).state.2
        = w.LineTrace loc (loc.add (dir.scale 10000)) ∧
      (PerformWorldTrace w EndTrace OutHitResult).ret
        = (w.LineTrace loc (loc.add (dir.scale 10000))).bBlockingHit ∧
      ((w.LineTrace loc (loc.add (dir.scale 10000))).bBlockingHit = true →
        (PerformWorldTrace w EndTrace OutHitResult).state.1
          = (w.LineTrace loc (loc.add (dir.scale 10000))).ImpactPoint)) ∧
    (w.DeprojectScreenToWorld = none →
      (PerformWorldTrace w EndTrace OutHitResult).events = [] ∧
      (PerformWorldTrace w EndTrace OutHitResult).ret = false ∧
      (PerformWorldTrace w EndTrace OutHitResult).state = (EndTrace, OutHitResult)) := by
  unfold PerformWorldTrace
  cases hD : w.DeprojectScreenToWorld with
  | none => simp
  | some ld =>
    obtain ⟨loc, dir⟩ := ld
    cases hB : (w.LineTrace loc (loc.add (dir.scale 10000))).bBlockingHit
    · simp [hB, Event.isLineTrace]
    · simp only [hB, if_true]
      refine ⟨by simp [Event.isLineTrace], ⟨fun _ => ⟨loc, dir, rfl, hB⟩, fun _ => by simp⟩,
        fun _ => by simp [hB], ?_, ?_, by simp⟩
      · intro l d hld hf
        cases hld
        rw [hB] at hf
        cases hf
      · intro l d hld
        cases hld
        exact ⟨rfl, rfl, hB.symm, fun _ => rfl⟩

/-- Witness for C10: aiming from `(0, 0, 0)` along `(1, 0, 0)` in a world where
the trace hits enemy 4 at `(1, 2, 3)`, true is returned, the returned hit is
that of the world and `EndTrace` is `(1, 2, 3)`; in a world where nothing is
hit, false is returned and `EndTrace` is the end of the trace. -/
theorem PerformWorldTrace_spec_witness :
    ((PerformWorldTrace worldHittingEnemy ⟨0, 0, 0⟩ FHitResult.init).ret = true ∧
      (PerformWorldTrace worldHittingEnemy ⟨0, 0, 0⟩ FHitResult.init).state.2
        = ⟨true, ⟨1, 2, 3⟩, ⟨0, 0, 1⟩, some ⟨4, ActorClass.Enemy⟩⟩ ∧
      (PerformWorldTrace worldHittingEnemy ⟨0, 0, 0⟩ FHitResult.init).state.1 = ⟨1, 2, 3⟩) ∧
    ((PerformWorldTrace worldHittingNothing ⟨0, 0, 0⟩ FHitResult.init).ret = false ∧
      (PerformWorldTrace worldHittingNothing ⟨0, 0, 0⟩ FHitResult.init).state.1
        = FVector.add ⟨0, 0, 0⟩ (FVector.scale ⟨1, 0, 0⟩ 10000)) := by
  obtain ⟨-, h2, h3, h4⟩ := (PerformWorldTrace_spec worldHittingEnemy ⟨0, 0, 0⟩
    FHitResult.init).2.2.2.2.1 ⟨0, 0, 0⟩ ⟨1, 0, 0⟩ rfl
  obtain ⟨-, -, g3, -⟩ := (PerformWorldTrace_spec worldHittingNothing ⟨0, 0, 0⟩
    FHitResult.init).2.2.2.2.1 ⟨0, 0, 0⟩ ⟨1, 0, 0⟩ rfl
  have g4 := (PerformWorldTrace_spec worldHittingNothing ⟨0, 0, 0⟩
    FHitResult.init).2.2.2.1 ⟨0, 0, 0⟩ ⟨1, 0, 0⟩ rfl rfl
  exact ⟨⟨h3, h2, h4 rfl⟩, ⟨g3, g4⟩⟩

/-! ## Weapon fire (C8, C9) -/

theorem PlayWeaponEffects_no_ApplyDamage (c : UWeaponHandlingComponent) (w : UWorld)
    (h : FHitResult) (l : FVector) (n : FName) :
    (c.PlayWeaponEffects w h l n).filter Event.isApplyDamage = [] := by
  unfold UWeaponHandlingComponent.PlayWeaponEffects
  cases c.WeaponMeshComponent <;> cases c.MuzzleFlash <;> cases c.ImpactParticle <;>
    cases c.BeamTraceParticle <;> cases h.bBlockingHit <;> cases w.BeamSpawned <;>
    simp [Event.isApplyDamage]

theorem PlayWeaponEffects_no_BulletHit (c : UWeaponHandlingComponent) (w : UWorld)
    (h : FHitResult) (l : FVector) (n : FName) :
    (c.PlayWeaponEffects w h l n).filter Event.isBulletHit = [] := by
  unfold UWeaponHandlingComponent.PlayWeaponEffects
  cases c.WeaponMeshComponent <;> cases c.MuzzleFlash <;> cases c.ImpactParticle <;>
    cases c.BeamTraceParticle <;> cases h.bBlockingHit <;> cases w.BeamSpawned <;>
    simp [Event.isBulletHit]

theorem PlayWeaponEffects_once (c : UWeaponHandlingComponent) (w : UWorld)
    (h : FHitResult) (l : FVector) (n : FName) :
    (c.PlayWeaponEffects w h l n).filter Event.isPlayWeaponEffects
      = [Event.PlayWeaponEffects h l n] := by
  unfold UWeaponHandlingComponent.PlayWeaponEffects
  cases c.WeaponMeshComponent <;> cases c.MuzzleFlash <;> cases c.ImpactParticle <;>
    cases c.BeamTraceParticle <;> cases h.bBlockingHit <;> cases w.BeamSpawned <;>
    simp [Event.isPlayWeaponEffects]

theorem PerformWorldTrace_events_filter (w : UWorld) (l : FVector) (h : FHitResult) :
    (PerformWorldTrace w l h).events.filter Event.isApplyDamage = [] ∧
    (PerformWorldTrace w l h).events.filter Event.isBulletHit = [] ∧
    (PerformWorldTrace w l h).events.filter Event.isPlayWeaponEffects = [] := by
  unfold PerformWorldTrace
  cases hD : w.DeprojectScreenToWorld with
  | none => simp
  | some ld =>
    obtain ⟨loc, dir⟩ := ld
    cases hB : (w.LineTrace loc (loc.add (dir.scale 10000))).bBlockingHit <;>
      simp [hB, Event.isApplyDamage, Event.isBulletHit, Event.isPlayWeaponEffects]

theorem CastEnemy_of_cls (a : AActor) (h : a.cls = ActorClass.Enemy) :
    CastEnemy (some a) = some a := by
  simp [CastEnemy, h]

theorem CastEnemy_of_not_cls (a : AActor) (h : a.cls ≠ ActorClass.Enemy) :
    CastEnemy (some a) = none := by
  simp [CastEnemy, h]

theorem CastDamageInterface_some (o : Option AActor) (a : AActor)
    (h : CastDamageInterface o = some a) : o = some a := by
  cases o with
  | none => simp [CastDamageInterface] at h
  | some b =>
    obtain ⟨i, k⟩ := b
    cases k with
    | Enemy => simpa [CastDamageInterface] using h
    | PlayerCharacter => simp [CastDamageInterface] at h
    | Other d x =>
      cases d
      · simp [CastDamageInterface] at h
      · simpa [CastDamageInterface] using h

/-- Counterexample to C8 as stated: the trace hits actor 9, which implements
`IDamageInterface` but is not an `AEnemy`; `FIreWeapon` invokes its
`BulletHit` and applies no damage at all. -/
theorem FIreWeapon_damageable_not_damaged :
    CastDamageInterface
        (PerformWorldTrace worldHittingDamageable ⟨0, 0, 0⟩ FHitResult.init).state.2.Actor
      = some ⟨9, ActorClass.Other true false⟩ ∧
    ∃ r, equippedComponent.FIreWeapon worldHittingDamageable ⟨0, 0, 0⟩ = some r ∧
      r.events.filter Event.isBulletHit
        = [Event.BulletHit ⟨9, ActorClass.Other true false⟩
            ⟨true, ⟨1, 2, 3⟩, ⟨0, 0, 1⟩, some ⟨9, ActorClass.Other true false⟩⟩] ∧
      r.events.filter Event.isApplyDamage = [] := by
  refine ⟨by simp [PerformWorldTrace, worldHittingDamageable, CastDamageInterface], _, rfl, ?_, ?_⟩ <;>
    simp [PerformWorldTrace, worldHittingDamageable, CastDamageInterface, CastEnemy,
      equippedComponent, UWeaponHandlingComponent.PlayWeaponEffects, Event.isBulletHit,
      Event.isApplyDamage]

/-- C8 (amended): on `FIreWeapon` with a non-null `Player`, when the hit actor of
the trace implements `IDamageInterface`, its `BulletHit` is invoked once, with
the hit result; damage of exactly `BaseDamage` is applied to it, by one
`ApplyDamage` call, when it is an `AEnemy`, and no damage is applied when it
is not. -/
theorem FIreWeapon_damage (c : UWeaponHandlingComponent) (w : UWorld) (t0 : FVector)
    (p a : AActor) (hp : c.Player = some p)
    (ha : CastDamageInterface (PerformWorldTrace w t0 FHitResult.init).state.2.Actor = some a) :
    ∃ r, c.FIreWeapon w t0 = some r ∧
      r.events.filter Event.isBulletHit
        = [Event.BulletHit a (PerformWorldTrace w t0 FHitResult.init).state.2] ∧
      (a.cls = ActorClass.Enemy →
        r.events.filter Event.isApplyDamage = [Event.ApplyDamage a c.BaseDamage]) ∧
      (a.cls ≠ ActorClass.Enemy → r.events.filter Event.isApplyDamage = []) := by
  have hact := CastDamageInterface_some _ _ ha
  obtain ⟨t1, t2, -⟩ := PerformWorldTrace_events_filter w t0 FHitResult.init
  refine ⟨_, by unfold UWeaponHandlingComponent.FIreWeapon; rw [hp], ?_, ?_, ?_⟩
  · simp only [ha, List.filter_append, List.filter_cons, Event.isBulletHit, t2,
      PlayWeaponEffects_no_BulletHit]
    rw [hact]
    cases h : CastEnemy (some a) <;> simp [Event.isBulletHit]
  · intro hcls
    simp only [ha, List.filter_append, List.filter_cons, Event.isApplyDamage, t1,
      PlayWeaponEffects_no_ApplyDamage]
    rw [hact, CastEnemy_of_cls a hcls]
    simp [Event.isApplyDamage]
  · intro hcls
    simp only [ha, List.filter_append, List.filter_cons, Event.isApplyDamage, t1,
      PlayWeaponEffects_no_ApplyDamage]
    rw [hact, CastEnemy_of_not_cls a hcls]
    simp

/-- Witness for C8 (amended): the trace hits enemy 4, which takes the base damage 25. -/
theorem FIreWeapon_damage_witness :
    ∃ r, equippedComponent.FIreWeapon worldHittingEnemy ⟨0, 0, 0⟩ = some r ∧
      r.events.filter Event.isApplyDamage = [Event.ApplyDamage ⟨4, ActorClass.Enemy⟩ 25] := by
  obtain ⟨r, h1, -, h3, -⟩ := FIreWeapon_damage equippedComponent worldHittingEnemy ⟨0, 0, 0⟩
    ⟨1, ActorClass.PlayerCharacter⟩ ⟨4, ActorClass.Enemy⟩ rfl
    (by simp [PerformWorldTrace, worldHittingEnemy, CastDamageInterface])
  exact ⟨r, h1, h3 rfl⟩

/-- C9: on `FIreWeapon` with a non-null `Player`, when the trace hits nothing or
hits an actor that does not implement `IDamageInterface`, no damage is
applied, no `BulletHit` is invoked, and `PlayWeaponEffects` is called exactly
once, with the trace's hit result, its end location and the effect socket. -/
theorem FIreWeapon_no_damage (c : UWeaponHandlingComponent) (w : UWorld) (t0 : FVector)
    (p : AActor) (hp : c.Player = some p)
    (ha : (PerformWorldTrace w t0 FHitResult.init).state.2.Actor = none ∨
      ∃ a, (PerformWorldTrace w t0 FHitResult.init).state.2.Actor = some a ∧
        CastDamageInterface (some a) = none) :
    ∃ r, c.FIreWeapon w t0 = some r ∧
      r.events.filter Event.isApplyDamage = [] ∧
      r.events.filter Event.isBulletHit = [] ∧
      r.events.filter Event.isPlayWeaponEffects
        = [Event.PlayWeaponEffects (PerformWorldTrace w t0 FHitResult.init).state.2
            (PerformWorldTrace w t0 FHitResult.init).state.1 c.EffectSocketName] := by
  have hc : CastDamageInterface (PerformWorldTrace w t0 FHitResult.init).state.2.Actor = none := by
    rcases ha with h | ⟨a, h, h'⟩
    · rw [h]; rfl
    · rw [h]; exact h'
  obtain ⟨t1, t2, t3⟩ := PerformWorldTrace_events_filter w t0 FHitResult.init
  refine ⟨_, by unfold UWeaponHandlingComponent.FIreWeapon; rw [hp], ?_, ?_, ?_⟩
  · simp only [hc, List.filter_append, List.filter_cons, Event.isApplyDamage, t1,
      PlayWeaponEffects_no_ApplyDamage]
    simp
  · simp only [hc, List.filter_append, List.filter_cons, Event.isBulletHit, t2,
      PlayWeaponEffects_no_BulletHit]
    simp
  · simp only [hc, List.filter_append, List.filter_cons, Event.isPlayWeaponEffects, t3,
      PlayWeaponEffects_once]
    simp

/-- Witness for C9: the trace hits nothing; the effects are played once, at the
far end of the range, `(10000, 0, 0)`. -/
theorem FIreWeapon_no_damage_witness :
    ∃ r, equippedComponent.FIreWeapon worldHittingNothing ⟨0, 0, 0⟩ = some r ∧
      r.events.filter Event.isApplyDamage = [] ∧
      r.events.filter Event.isPlayWeaponEffects
        = [Event.PlayWeaponEffects FHitResult.init ⟨10000, 0, 0⟩ "Barrel Socket"] := by
  obtain ⟨r, h1, h2, -, h4⟩ := FIreWeapon_no_damage equippedComponent worldHittingNothing
    ⟨0, 0, 0⟩ ⟨1, ActorClass.PlayerCharacter⟩ rfl
    (Or.inl (by simp [PerformWorldTrace, worldHittingNothing, FHitResult.init]))
  refine ⟨r, h1, h2, ?_⟩
  rw [h4]
  simp [PerformWorldTrace, worldHittingNothing, FHitResult.init, equippedComponent,
    FVector.add, FVector.scale]

/-! ## Lazy component creation (C14) -/

/-- C14: `APlayerCharacter::GetWeaponHandlingComponent` never returns null and
returns the component the character then holds; when the character has none
the call creates and registers exactly one; a call on a character that
already holds one returns it without creating anything; so a second call
returns the same component and leaves the state of the first call unchanged. -/
theorem GetWeaponHandlingComponent_single_instance (p : APlayerCharacter) (Self : AActor) :
    (p.GetWeaponHandlingComponent Self).ret ≠ none ∧
    (p.GetWeaponHandlingComponent Self).state.WeaponHandlingComponent
      = (p.GetWeaponHandlingComponent Self).ret ∧
    (p.WeaponHandlingComponent = none →
      (p.GetWeaponHandlingComponent Self).events
        = [Event.NewObject "Weapon Handling Component",
           Event.RegisterComponent "Weapon Handling Component"]) ∧
    (∀ c, p.WeaponHandlingComponent = some c →
      (p.GetWeaponHandlingComponent Self).ret = some c ∧
      (p.GetWeaponHandlingComponent Self).state = p ∧
      (p.GetWeaponHandlingComponent Self).events = []) ∧
    ((p.GetWeaponHandlingComponent Self).state.GetWeaponHandlingComponent Self).ret
      = (p.GetWeaponHandlingComponent Self).ret ∧
    ((p.GetWeaponHandlingComponent Self).state.GetWeaponHandlingComponent Self).state
      = (p.GetWeaponHandlingComponent Self).state ∧
    ((p.GetWeaponHandlingComponent Self).state.GetWeaponHandlingComponent Self).events = [] := by
  unfold APlayerCharacter.GetWeaponHandlingComponent
  cases h : p.WeaponHandlingComponent with
  | none => simp
  | some c => simp [h]

/-- Witness for C14: the freshly constructed player 1 has no component; the
first call creates the default component owned by player 1 and the second
call returns it again with no further creation. -/
theorem GetWeaponHandlingComponent_single_instance_witness :
    ((APlayerCharacter.new none none none ⟨0, 0, 0⟩).GetWeaponHandlingComponent
        ⟨1, ActorClass.PlayerCharacter⟩).ret
      = some (UWeaponHandlingComponent.new ⟨1, ActorClass.PlayerCharacter⟩) ∧
    (((APlayerCharacter.new none none none ⟨0, 0, 0⟩).GetWeaponHandlingComponent
        ⟨1, ActorClass.PlayerCharacter⟩).state.GetWeaponHandlingComponent
        ⟨1, ActorClass.PlayerCharacter⟩).events = [] :=
  ⟨rfl, (GetWeaponHandlingComponent_single_instance (APlayerCharacter.new none none none ⟨0, 0, 0⟩)
    ⟨1, ActorClass.PlayerCharacter⟩).2.2.2.2.2.2⟩

/-! ## Agro volume (C16, C17) -/

/-- C16: when a player character enters the agro volume (of an enemy with a
controller), `AgroSphereOnOverlapBegin` performs exactly one blackboard write,
of the key `Target` with the entering character, and the blackboard then
holds that character as `Target`. -/
theorem AgroSphereOnOverlapBegin_sets_target (e : AEnemy) (bb : UBlackboardComponent)
    (Character : AActor) (hc : e.EnemyController = some bb)
    (hp : Character.cls = ActorClass.PlayerCharacter) :
    ∃ r, e.AgroSphereOnOverlapBegin (some Character) = some r ∧
      r.events = [Event.SetBlackboardObject "Target" Character] ∧
      r.events.filter Event.isBlackboardWrite = [Event.SetBlackboardObject "Target" Character] ∧
      r.state.EnemyController = some { bb with Target := some Character } := by
  simp [AEnemy.AgroSphereOnOverlapBegin, CastPlayerCharacter, hp, hc, Event.isBlackboardWrite]

/-- Witness for C16: player 1 enters the agro volume of an enemy with an empty
blackboard. -/
theorem AgroSphereOnOverlapBegin_sets_target_witness :
    ∃ r, enemyWithController.AgroSphereOnOverlapBegin (some ⟨1, ActorClass.PlayerCharacter⟩)
        = some r ∧
      r.events = [Event.SetBlackboardObject "Target" ⟨1, ActorClass.PlayerCharacter⟩] ∧
      r.state.EnemyController = some ⟨some ⟨1, ActorClass.PlayerCharacter⟩, false⟩ := by
  obtain ⟨r, h1, h2, -, h4⟩ := AgroSphereOnOverlapBegin_sets_target enemyWithController
    ⟨none, false⟩ ⟨1, ActorClass.PlayerCharacter⟩ rfl rfl
  exact ⟨r, h1, h2, h4⟩

/-- Counterexample to C17 as stated: player 1 enters and then exits the agro
volume of an enemy; after the exit the blackboard still holds player 1 as
`Target`. -/
theorem agro_exit_keeps_target :
    ∃ r1 r2,
      enemyWithController.AgroSphereOnOverlapBegin (some ⟨1, ActorClass.PlayerCharacter⟩)
        = some r1 ∧
      r1.state.AgroSphereOnOverlapEnd (some ⟨1, ActorClass.PlayerCharacter⟩) = some r2 ∧
      r2.state.EnemyController = some ⟨some ⟨1, ActorClass.PlayerCharacter⟩, false⟩ :=
  ⟨_, _, rfl, rfl, rfl⟩

/-- C17 (amended): after a player character enters the agro volume the target
is set to that character; `AgroSphereOnOverlapEnd` changes nothing and makes
no call, so after the exit the target is still set. -/
theorem agro_enter_exit (e : AEnemy) (bb : UBlackboardComponent) (Character : AActor)
    (OtherActor : Option AActor) (hc : e.EnemyController = some bb)
    (hp : Character.cls = ActorClass.PlayerCharacter) :
    e.AgroSphereOnOverlapEnd OtherActor = some { state := e, events := [], ret := () } ∧
    ∃ r1 r2, e.AgroSphereOnOverlapBegin (some Character) = some r1 ∧
      (r1.state.EnemyController.map fun b => b.Target) = some (some Character) ∧
      r1.state.AgroSphereOnOverlapEnd (some Character) = some r2 ∧
      r2.events = [] ∧
      (r2.state.EnemyController.map fun b => b.Target) = some (some Character) := by
  refine ⟨rfl, ?_⟩
  simp [AEnemy.AgroSphereOnOverlapBegin, AEnemy.AgroSphereOnOverlapEnd, CastPlayerCharacter, hp, hc]

/-- Witness for C17 (amended): player 1 enters and exits the agro volume of an
enemy with an empty blackboard; the target is player 1 after both events. -/
theorem agro_enter_exit_witness :
    enemyWithController.AgroSphereOnOverlapEnd (some ⟨1, ActorClass.PlayerCharacter⟩)
      = some { state := enemyWithController, events := [], ret := () } ∧
    ∃ r1 r2,
      enemyWithController.AgroSphereOnOverlapBegin (some ⟨1, ActorClass.PlayerCharacter⟩)
        = some r1 ∧
      (r1.state.EnemyController.map fun b => b.Target)
        = some (some ⟨1, ActorClass.PlayerCharacter⟩) ∧
      r1.state.AgroSphereOnOverlapEnd (some ⟨1, ActorClass.PlayerCharacter⟩) = some r2 ∧
      r2.events = [] ∧
      (r2.state.EnemyController.map fun b => b.Target)
        = some (some ⟨1, ActorClass.PlayerCharacter⟩) :=
  agro_enter_exit enemyWithController ⟨none, false⟩ ⟨1, ActorClass.PlayerCharacter⟩
    (some ⟨1, ActorClass.PlayerCharacter⟩) rfl rfl

/-! ## Item pickup (C18) -/

/-- C18 (the code at the failing input): when a player character overlaps an item,
`AItemBase::OnOverlapBegin` plays the pickup sound if set and destroys the
item, and makes no `ItemPicked` call; for a null actor, an enemy or an actor
of another class it does nothing. -/
theorem OnOverlapBegin_never_calls_ItemPicked (item : AItemBase) (id : Nat)
    (OtherActor : Option AActor) :
    (item.OnOverlapBegin (some ⟨id, ActorClass.PlayerCharacter⟩)).events
      = (match item.PickupSound with
         | some s => [Event.PlaySoundAtLocation (some s) item.ActorLocation]
         | none => []) ++ [Event.Destroy] ∧
    (item.OnOverlapBegin (some ⟨id, ActorClass.PlayerCharacter⟩)).state.bActorIsBeingDestroyed
      = true ∧
    Event.ItemPicked ∉ (item.OnOverlapBegin OtherActor).events ∧
    item.OnOverlapBegin none = { state := item, events := [], ret := () } ∧
    item.OnOverlapBegin (some ⟨id, ActorClass.Enemy⟩)
      = { state := item, events := [], ret := () } ∧
    (∀ d w, item.OnOverlapBegin (some ⟨id, ActorClass.Other d w⟩)
      = { state := item, events := [], ret := () }) ∧
    (droppedItem.OnOverlapBegin (some ⟨1, ActorClass.PlayerCharacter⟩)).events
      = [Event.PlaySoundAtLocation (some 41) ⟨0, 0, 0⟩, Event.Destroy] := by
  refine ⟨?_, ?_, ?_, rfl, rfl, fun _ _ => rfl, ?_⟩
  · simp [AItemBase.OnOverlapBegin, CastPlayerCharacter]
  · simp [AItemBase.OnOverlapBegin, CastPlayerCharacter]
  · unfold AItemBase.OnOverlapBegin
    cases CastPlayerCharacter OtherActor <;> cases item.PickupSound <;> simp
  · simp [AItemBase.OnOverlapBegin, CastPlayerCharacter, droppedItem]


/-! ## Controller assertions (C19) -/

/-- C19: `OnPossess` fails its assertion exactly when the pawn is a player
character and the controller's input component is not an enhanced input
component; when the pawn is not a player character it returns, binds no
action and adds no mapping context. `OnWeaponPicked` for the controlled
character fails exactly when the input component is not an enhanced input
component. -/
theorem controller_assertion (ctl : APlayerCharacterController) (aPawn : Option AActor) :
    (ctl.OnPossess aPawn = none ↔
      (CastPlayerCharacter aPawn ≠ none ∧ CastEnhancedInputComponent ctl.InputComponent = false)) ∧
    (CastPlayerCharacter aPawn = none →
      ∃ r, ctl.OnPossess aPawn = some r ∧ r.state.Bindings = ctl.Bindings ∧
        r.state.MappingContexts = ctl.MappingContexts ∧
        r.events = [Event.SuperOnPossess aPawn]) ∧
    (∀ ch, ctl.FPSCharacter = some ch → ch.cls = ActorClass.PlayerCharacter →
      (ctl.OnWeaponPicked (some ch) = none ↔
        CastEnhancedInputComponent ctl.InputComponent = false)) := by
  refine ⟨?_, ?_, ?_⟩
  · unfold APlayerCharacterController.OnPossess
    cases h : CastPlayerCharacter aPawn with
    | none => simp
    | some a => cases h2 : CastEnhancedInputComponent ctl.InputComponent <;> simp
  · intro h
    unfold APlayerCharacterController.OnPossess
    simp [h]
  · intro ch hch hcls
    unfold APlayerCharacterController.OnWeaponPicked
    have hcast : CastPlayerCharacter (some ch) = some ch := by simp [CastPlayerCharacter, hcls]
    rw [hcast, if_pos hch, hch]
    cases h2 : CastEnhancedInputComponent ctl.InputComponent <;> simp

/-- Witness for C19: with a plain input component, possessing an enemy pawn
succeeds without binding, and the pickup notification for the controlled
player 1 fails. -/
theorem controller_assertion_witness :
    (∃ r, (controllerOfPlayer1 (some UInputComponent.Plain)).OnPossess
        (some ⟨4, ActorClass.Enemy⟩) = some r ∧ r.state.Bindings = []) ∧
    (controllerOfPlayer1 (some UInputComponent.Plain)).OnWeaponPicked
        (some ⟨1, ActorClass.PlayerCharacter⟩) = none := by
  have h := controller_assertion (controllerOfPlayer1 (some UInputComponent.Plain))
    (some ⟨4, ActorClass.Enemy⟩)
  refine ⟨?_, (h.2.2 ⟨1, ActorClass.PlayerCharacter⟩ rfl rfl).mpr rfl⟩
  obtain ⟨r, h1, h2, -⟩ := h.2.1 rfl
  exact ⟨r, h1, h2⟩

/-! ## Headshot multiplier (C20) -/

/-- C20: for every component, world and trace, replacing `HeadshotMultiplier` by
any other value leaves the calls made by `FIreWeapon` unchanged, in
particular the `ApplyDamage` calls (their target and their amount
`BaseDamage`); with base damage 25 an enemy hit takes 25 also under the
multiplier 100. -/
theorem FIreWeapon_ignores_HeadshotMultiplier (c : UWeaponHandlingComponent) (w : UWorld)
    (t0 : FVector) (m : ℚ) :
    (({ c with HeadshotMultiplier := m } : UWeaponHandlingComponent).FIreWeapon w t0).map
        (fun r => r.events)
      = (c.FIreWeapon w t0).map (fun r => r.events) ∧
    (({ c with HeadshotMultiplier := m } : UWeaponHandlingComponent).FIreWeapon w t0).map
        (fun r => r.events.filter Event.isApplyDamage)
      = (c.FIreWeapon w t0).map (fun r => r.events.filter Event.isApplyDamage) ∧
    (({ equippedComponent with HeadshotMultiplier := 100 } : UWeaponHandlingComponent).FIreWeapon
        worldHittingEnemy ⟨0, 0, 0⟩).map (fun r => r.events.filter Event.isApplyDamage)
      = some [Event.ApplyDamage ⟨4, ActorClass.Enemy⟩ 25] := by
  refine ⟨?_, ?_, ?_⟩
  · unfold UWeaponHandlingComponent.FIreWeapon
    cases h : c.Player with
    | none => simp [h]
    | some p => simp [h, UWeaponHandlingComponent.PlayWeaponEffects]
  · unfold UWeaponHandlingComponent.FIreWeapon
    cases h : c.Player with
    | none => simp [h]
    | some p => simp [h, UWeaponHandlingComponent.PlayWeaponEffects]
  · simp [UWeaponHandlingComponent.FIreWeapon, equippedComponent, worldHittingEnemy,
      PerformWorldTrace, CastDamageInterface, CastEnemy,
      UWeaponHandlingComponent.PlayWeaponEffects, Event.isApplyDamage]


/-! ## Combat-range flag (C15) -/

theorem combatRange_step (e : AEnemy) (bb : UBlackboardComponent) (Player : AActor) (b : Bool)
    (hc : e.EnemyController = some bb) (hp : Player.cls = ActorClass.PlayerCharacter) :
    ∃ r, (if b then e.CombatRangeSphereOnOverlapBegin (some Player)
          else e.CombatRangeSphereOnOverlapEnd (some Player)) = some r ∧
      r.state.bIsInAttackRange = b ∧
      r.state.EnemyController = some { bb with IsInCombatRange := b } ∧
      r.events = [Event.SetBlackboardBool "IsInCombatRange" b] := by
  cases b <;>
    simp [AEnemy.CombatRangeSphereOnOverlapBegin, AEnemy.CombatRangeSphereOnOverlapEnd,
      CastPlayerCharacter, hp, hc]

theorem combatRangeOverlaps_last (Player : AActor) (hp : Player.cls = ActorClass.PlayerCharacter)
    (evs : List Bool) :
    ∀ (e : AEnemy) (bb : UBlackboardComponent), e.EnemyController = some bb →
    ∀ b, evs.getLast? = some b →
      ∃ e1, AEnemy.combatRangeOverlaps Player e evs = some e1 ∧ e1.bIsInAttackRange = b ∧
        (e1.EnemyController.map fun x => x.IsInCombatRange) = some b := by
  induction evs with
  | nil => intro e bb _ b hb; simp at hb
  | cons x xs ih =>
    intro e bb hc b hb
    obtain ⟨r, h1, h2, h3, -⟩ := combatRange_step e bb Player x hc hp
    unfold AEnemy.combatRangeOverlaps
    rw [h1]
    cases xs with
    | nil =>
      simp only [List.getLast?_singleton, Option.some.injEq] at hb
      subst hb
      exact ⟨r.state, rfl, h2, by rw [h3]; rfl⟩
    | cons y ys =>
      rw [List.getLast?_cons_cons] at hb
      exact ih r.state _ h3 b hb

/-- C15: for an enemy with a controller, `CombatRangeSphereOnOverlapBegin` with a
player character sets `bIsInAttackRange` and the blackboard key
`IsInCombatRange` to true, `CombatRangeSphereOnOverlapEnd` with a player
character sets both to false, and after any non-empty sequence of such
enter and exit events both equal whether the last event was an enter. -/
theorem combat_range_flag (e : AEnemy) (bb : UBlackboardComponent) (Player : AActor)
    (evs : List Bool) (hc : e.EnemyController = some bb)
    (hp : Player.cls = ActorClass.PlayerCharacter) :
    (∃ r, e.CombatRangeSphereOnOverlapBegin (some Player) = some r ∧
      r.state.bIsInAttackRange = true ∧
      r.state.EnemyController = some { bb with IsInCombatRange := true } ∧
      r.events = [Event.SetBlackboardBool "IsInCombatRange" true]) ∧
    (∃ r, e.CombatRangeSphereOnOverlapEnd (some Player) = some r ∧
      r.state.bIsInAttackRange = false ∧
      r.state.EnemyController = some { bb with IsInCombatRange := false } ∧
      r.events = [Event.SetBlackboardBool "IsInCombatRange" false]) ∧
    (∀ b, evs.getLast? = some b →
      ∃ e1, AEnemy.combatRangeOverlaps Player e evs = some e1 ∧ e1.bIsInAttackRange = b ∧
        (e1.EnemyController.map fun x => x.IsInCombatRange) = some b) :=
  ⟨by simpa using combatRange_step e bb Player true hc hp,
   by simpa using combatRange_step e bb Player false hc hp,
   combatRangeOverlaps_last Player hp evs e bb hc⟩

/-- Witness for C15: player 1 enters, exits and enters again; the flag is set. -/
theorem combat_range_flag_witness :
    ∃ e1, AEnemy.combatRangeOverlaps ⟨1, ActorClass.PlayerCharacter⟩ enemyWithController
        [true, false, true] = some e1 ∧ e1.bIsInAttackRange = true ∧
      (e1.EnemyController.map fun x => x.IsInCombatRange) = some true :=
  (combat_range_flag enemyWithController ⟨none, false⟩ ⟨1, ActorClass.PlayerCharacter⟩
    [true, false, true] rfl rfl).2.2 true rfl


/-! ## Weapon pickup (C11, C12, C13) -/

theorem OnWeaponPicked_no_Initialize (ctl : APlayerCharacterController) (a : Option AActor)
    (r : Run APlayerCharacterController Unit) (h : ctl.OnWeaponPicked a = some r) :
    r.events.filter Event.isInitializeWeaponProperties = [] := by
  unfold APlayerCharacterController.OnWeaponPicked at h
  split at h
  · split at h
    · cases h; rfl
    · split at h
      · cases h
        cases ctl.InputSubsystem <;> simp [Event.isInitializeWeaponProperties]
      · cases h
  · cases h; rfl

theorem OnWeaponPicked_none (ctl : APlayerCharacterController) (a : Option AActor)
    (h : ctl.OnWeaponPicked a = none) : CastEnhancedInputComponent ctl.InputComponent = false := by
  unfold APlayerCharacterController.OnWeaponPicked at h
  split at h
  · split at h
    · cases h
    · split at h
      · cases h
      · simpa using ‹¬ CastEnhancedInputComponent ctl.InputComponent = true›
  · cases h

theorem Attach_no_Initialize (c : UWeaponHandlingComponent) (ctl : Option PossessingController)
    (m : Option Asset) (a : Run (UWeaponHandlingComponent × Option PossessingController) Unit)
    (h : c.AttachComponentMeshToActor ctl m = some a) :
    a.events.filter Event.isInitializeWeaponProperties = [] := by
  unfold UWeaponHandlingComponent.AttachComponentMeshToActor at h
  split at h
  · split at h
    · split at h
      · cases h
      · rename_i r hr
        cases h
        simp [Event.isInitializeWeaponProperties, OnWeaponPicked_no_Initialize _ _ _ hr]
    · cases h; simp [Event.isInitializeWeaponProperties]
    · cases h; simp [Event.isInitializeWeaponProperties]
  · cases h; rfl

theorem Attach_none (c : UWeaponHandlingComponent) (ctl : Option PossessingController)
    (m : Option Asset) (h : c.AttachComponentMeshToActor ctl m = none) :
    ∃ pc, ctl = some (PossessingController.PlayerCharacterController pc) ∧
      CastEnhancedInputComponent pc.InputComponent = false := by
  unfold UWeaponHandlingComponent.AttachComponentMeshToActor at h
  split at h
  · split at h
    · split at h
      · rename_i pc hpc
        exact ⟨_, rfl, OnWeaponPicked_none _ _ hpc⟩
      · cases h
    · cases h
    · cases h
  · cases h

theorem transfer_spec (wpn : AWeaponBase) (o : AActor) (c : UWeaponHandlingComponent)
    (ctl : Option PossessingController)
    (r : Run (AWeaponBase × UWeaponHandlingComponent × Option PossessingController) Unit)
    (h : wpn.transfer o c ctl = some r) :
    r.state.1 = { wpn with bActorIsBeingDestroyed := true } ∧
    (r.state.2.1.MuzzleFlash = wpn.MuzzleFlash ∧
      r.state.2.1.ImpactParticle = wpn.ImpactParticle ∧
      r.state.2.1.BeamTraceParticle = wpn.BeamTraceParticle ∧
      r.state.2.1.WeaponFireSound = wpn.FireSound ∧
      r.state.2.1.EffectSocketName = wpn.WeaponSocketName ∧
      r.state.2.1.BaseDamage = wpn.BaseDamage ∧
      r.state.2.1.HeadshotMultiplier = wpn.HeadshotMultiplier ∧
      r.state.2.1.WeaponFireMontage = wpn.WeaponFIreMontage) ∧
    Event.Destroy ∈ r.events ∧
    r.events.filter Event.isInitializeWeaponProperties
      = [Event.InitializeWeaponProperties
          (FInitWeaponProperties.make wpn.MuzzleFlash wpn.ImpactParticle wpn.BeamTraceParticle
            wpn.FireSound wpn.WeaponSocketName wpn.BaseDamage wpn.HeadshotMultiplier
            wpn.WeaponFIreMontage)] := by
  unfold AWeaponBase.transfer at h
  cases ha : c.AttachComponentMeshToActor ctl wpn.PickupWeaponMesh with
  | none => rw [ha] at h; cases h
  | some a =>
    rw [ha] at h
    simp only [Option.some.injEq] at h
    subst h
    have hA := Attach_no_Initialize _ _ _ _ ha
    refine ⟨rfl, ⟨rfl, rfl, rfl, rfl, rfl, rfl, rfl, rfl⟩, by simp, ?_⟩
    cases wpn.PickupSound <;>
      simp [List.filter_append, hA, Event.isInitializeWeaponProperties,
        UWeaponHandlingComponent.InitializeWeaponProperties]

theorem transfer_none (wpn : AWeaponBase) (o : AActor) (c : UWeaponHandlingComponent)
    (ctl : Option PossessingController) (h : wpn.transfer o c ctl = none) :
    ∃ pc, ctl = some (PossessingController.PlayerCharacterController pc) ∧
      CastEnhancedInputComponent pc.InputComponent = false := by
  unfold AWeaponBase.transfer at h
  cases ha : c.AttachComponentMeshToActor ctl wpn.PickupWeaponMesh with
  | none => exact Attach_none _ _ _ ha
  | some a => rw [ha] at h; cases h


theorem OnWeaponCollisionBeginOverlap_player (wpn : AWeaponBase) (id : Nat)
    (p : APlayerCharacter) (ctl : Option PossessingController) :
    wpn.OnWeaponCollisionBeginOverlap (some (OverlappedBy.PlayerCharacter id p ctl))
      = (wpn.transfer ⟨id, ActorClass.PlayerCharacter⟩
          (p.WeaponHandlingComponent.getD
            (UWeaponHandlingComponent.new ⟨id, ActorClass.PlayerCharacter⟩)) ctl).map
        (fun t =>
          { state := (t.state.1,
              some (OverlappedBy.PlayerCharacter id
                { (p.GetWeaponHandlingComponent ⟨id, ActorClass.PlayerCharacter⟩).state with
                  WeaponHandlingComponent := some t.state.2.1 } t.state.2.2)),
            events := (p.GetWeaponHandlingComponent ⟨id, ActorClass.PlayerCharacter⟩).events
              ++ t.events,
            ret := () }) := by
  obtain ⟨f1, f2, f3, f4, f5, f6, f7, f8, f9, whc⟩ := p
  cases whc with
  | none =>
    show _ = Option.map _ (wpn.transfer ⟨id, ActorClass.PlayerCharacter⟩
      (UWeaponHandlingComponent.new ⟨id, ActorClass.PlayerCharacter⟩) ctl)
    unfold AWeaponBase.OnWeaponCollisionBeginOverlap APlayerCharacter.GetWeaponHandlingComponent
    cases ht : wpn.transfer ⟨id, ActorClass.PlayerCharacter⟩
      (UWeaponHandlingComponent.new ⟨id, ActorClass.PlayerCharacter⟩) ctl <;> simp [ht]
  | some c =>
    show _ = Option.map _ (wpn.transfer ⟨id, ActorClass.PlayerCharacter⟩ c ctl)
    unfold AWeaponBase.OnWeaponCollisionBeginOverlap APlayerCharacter.GetWeaponHandlingComponent
    cases ht : wpn.transfer ⟨id, ActorClass.PlayerCharacter⟩ c ctl <;> simp [ht]

theorem OnWeaponCollisionBeginOverlap_other (wpn : AWeaponBase) (id : Nat) (d : Bool)
    (c : UWeaponHandlingComponent) (ctl : Option PossessingController) :
    wpn.OnWeaponCollisionBeginOverlap (some (OverlappedBy.Other id d true (some c) ctl))
      = (wpn.transfer ⟨id, ActorClass.Other d true⟩ c ctl).map
        (fun t =>
          { state := (t.state.1, some (OverlappedBy.Other id d true (some t.state.2.1) t.state.2.2)),
            events := t.events, ret := () }) := by
  unfold AWeaponBase.OnWeaponCollisionBeginOverlap
  cases ht : wpn.transfer ⟨id, ActorClass.Other d true⟩ c ctl <;> simp [ht]

theorem GetWeaponHandlingComponent_no_Initialize (p : APlayerCharacter) (Self : AActor) :
    (p.GetWeaponHandlingComponent Self).events.filter Event.isInitializeWeaponProperties = [] := by
  unfold APlayerCharacter.GetWeaponHandlingComponent
  cases p.WeaponHandlingComponent <;> simp [Event.isInitializeWeaponProperties]

theorem OnWeaponCollisionBeginOverlap_cases (wpn : AWeaponBase) (o : Option OverlappedBy)
    (r : Run (AWeaponBase × Option OverlappedBy) Unit)
    (h : wpn.OnWeaponCollisionBeginOverlap o = some r) :
    (r.events.filter Event.isInitializeWeaponProperties = [] ∧ r.state.1 = wpn) ∨
    (r.events.filter Event.isInitializeWeaponProperties
        = [Event.InitializeWeaponProperties
            (FInitWeaponProperties.make wpn.MuzzleFlash wpn.ImpactParticle wpn.BeamTraceParticle
              wpn.FireSound wpn.WeaponSocketName wpn.BaseDamage wpn.HeadshotMultiplier
              wpn.WeaponFIreMontage)] ∧
      r.state.1 = { wpn with bActorIsBeingDestroyed := true }) := by
  have unchanged : ∀ x : Option OverlappedBy,
      some ({ state := (wpn, x), events := [], ret := () } :
        Run (AWeaponBase × Option OverlappedBy) Unit) = some r →
      r.events.filter Event.isInitializeWeaponProperties = [] ∧ r.state.1 = wpn := by
    intro x hx
    cases hx
    exact ⟨rfl, rfl⟩
  cases o with
  | none => exact Or.inl (unchanged none h)
  | some ob =>
    cases ob with
    | Enemy id => exact Or.inl (unchanged _ h)
    | PlayerCharacter id p ctl =>
      rw [OnWeaponCollisionBeginOverlap_player] at h
      cases ht : wpn.transfer ⟨id, ActorClass.PlayerCharacter⟩
          (p.WeaponHandlingComponent.getD
            (UWeaponHandlingComponent.new ⟨id, ActorClass.PlayerCharacter⟩)) ctl with
      | none => rw [ht] at h; cases h
      | some t =>
        rw [ht] at h
        cases h
        obtain ⟨h1, -, -, h4⟩ := transfer_spec _ _ _ _ _ ht
        refine Or.inr ⟨?_, h1⟩
        simp only [List.filter_append, GetWeaponHandlingComponent_no_Initialize, h4,
          List.nil_append]
    | Other id d w c ctl =>
      cases w with
      | false => exact Or.inl (unchanged _ h)
      | true =>
        cases c with
        | none => exact Or.inl (unchanged _ h)
        | some c0 =>
          rw [OnWeaponCollisionBeginOverlap_other] at h
          cases ht : wpn.transfer ⟨id, ActorClass.Other d true⟩ c0 ctl with
          | none => rw [ht] at h; cases h
          | some t =>
            rw [ht] at h
            cases h
            obtain ⟨h1, -, -, h4⟩ := transfer_spec _ _ _ _ _ ht
            exact Or.inr ⟨h4, h1⟩

theorem deliverBeginOverlap_cases (wpn : AWeaponBase) (o : Option OverlappedBy)
    (r : Run (AWeaponBase × Option OverlappedBy) Unit)
    (h : wpn.deliverBeginOverlap o = some r) :
    (r.events.filter Event.isInitializeWeaponProperties = [] ∧ r.state.1 = wpn) ∨
    (r.events.filter Event.isInitializeWeaponProperties
        = [Event.InitializeWeaponProperties
            (FInitWeaponProperties.make wpn.MuzzleFlash wpn.ImpactParticle wpn.BeamTraceParticle
              wpn.FireSound wpn.WeaponSocketName wpn.BaseDamage wpn.HeadshotMultiplier
              wpn.WeaponFIreMontage)] ∧
      r.state.1 = { wpn with bActorIsBeingDestroyed := true }) := by
  unfold AWeaponBase.deliverBeginOverlap at h
  split at h
  · cases h
    exact Or.inl ⟨rfl, rfl⟩
  · exact OnWeaponCollisionBeginOverlap_cases wpn o r h

theorem overlaps_destroyed (os : List (Option OverlappedBy)) :
    ∀ wpn : AWeaponBase, wpn.bActorIsBeingDestroyed = true → wpn.overlaps os = (wpn, []) := by
  induction os with
  | nil => intro wpn _; rfl
  | cons o os ih =>
    intro wpn hd
    unfold AWeaponBase.overlaps
    simp only [AWeaponBase.deliverBeginOverlap, hd, if_true]
    rw [ih wpn hd]
    rfl

theorem overlaps_inv (os : List (Option OverlappedBy)) :
    ∀ wpn : AWeaponBase,
    ((wpn.overlaps os).2.filter Event.isInitializeWeaponProperties = [] ∨
      (wpn.overlaps os).2.filter Event.isInitializeWeaponProperties
        = [Event.InitializeWeaponProperties
            (FInitWeaponProperties.make wpn.MuzzleFlash wpn.ImpactParticle wpn.BeamTraceParticle
              wpn.FireSound wpn.WeaponSocketName wpn.BaseDamage wpn.HeadshotMultiplier
              wpn.WeaponFIreMontage)]) ∧
    ((wpn.overlaps os).2.filter Event.isInitializeWeaponProperties ≠ [] →
      (wpn.overlaps os).1.bActorIsBeingDestroyed = true ∧
      ∀ os2, wpn.overlaps (os ++ os2) = wpn.overlaps os) := by
  induction os with
  | nil => intro wpn; simp [AWeaponBase.overlaps]
  | cons o os ih =>
    intro wpn
    cases hd : wpn.deliverBeginOverlap o with
    | none => simp [AWeaponBase.overlaps, hd]
    | some r =>
      rcases deliverBeginOverlap_cases wpn o r hd with ⟨hf, hs⟩ | ⟨hf, hs⟩
      · obtain ⟨i1, i2⟩ := ih wpn
        have e1 : wpn.overlaps (o :: os) = ((wpn.overlaps os).1, r.events ++ (wpn.overlaps os).2) := by
          rw [AWeaponBase.overlaps, hd]; simp only [hs]
        have e2 : ∀ os2, wpn.overlaps (o :: os ++ os2)
            = ((wpn.overlaps (os ++ os2)).1, r.events ++ (wpn.overlaps (os ++ os2)).2) := by
          intro os2
          rw [List.cons_append, AWeaponBase.overlaps, hd]; simp only [hs]
        rw [e1]
        simp only [List.filter_append, hf, List.nil_append]
        refine ⟨i1, fun hne => ?_⟩
        obtain ⟨j1, j2⟩ := i2 hne
        refine ⟨j1, fun os2 => ?_⟩
        rw [e2 os2, j2 os2]
      · have hdes : r.state.1.bActorIsBeingDestroyed = true := by rw [hs]
        have e1 : wpn.overlaps (o :: os) = (r.state.1, r.events) := by
          rw [AWeaponBase.overlaps, hd]
          simp only [overlaps_destroyed os _ hdes, List.append_nil]
        have e2 : ∀ os2, wpn.overlaps (o :: os ++ os2) = (r.state.1, r.events) := by
          intro os2
          rw [List.cons_append, AWeaponBase.overlaps, hd]
          simp only [overlaps_destroyed (os ++ os2) _ hdes, List.append_nil]
        rw [e1]
        exact ⟨Or.inr hf, fun _ => ⟨hdes, fun os2 => e2 os2⟩⟩

/-- C11: for every pickup and every overlapping object that implements
`IWeaponDetectionInterface` and returns a non-null weapon handling component,
whenever `OnWeaponCollisionBeginOverlap` returns, the object's component has
the pickup's muzzle flash, impact particle, beam particle, fire sound, socket
name, base damage, headshot multiplier and fire montage, and the pickup has
been destroyed; the handler fails to return only when the controller is an
`APlayerCharacterController` whose input component is not enhanced. -/
theorem pickup_transfer (wpn : AWeaponBase) (o : OverlappedBy) (hc : o.capable = true) :
    (∀ r, wpn.OnWeaponCollisionBeginOverlap (some o) = some r →
      r.state.1.bActorIsBeingDestroyed = true ∧ Event.Destroy ∈ r.events ∧
      ∃ o1 c1, r.state.2 = some o1 ∧ o1.actor = o.actor ∧ o1.component = some c1 ∧
        c1.MuzzleFlash = wpn.MuzzleFlash ∧
        c1.ImpactParticle = wpn.ImpactParticle ∧
        c1.BeamTraceParticle = wpn.BeamTraceParticle ∧
        c1.WeaponFireSound = wpn.FireSound ∧
        c1.EffectSocketName = wpn.WeaponSocketName ∧
        c1.BaseDamage = wpn.BaseDamage ∧
        c1.HeadshotMultiplier = wpn.HeadshotMultiplier ∧
        c1.WeaponFireMontage = wpn.WeaponFIreMontage) ∧
    (wpn.OnWeaponCollisionBeginOverlap (some o) = none →
      ∃ pc, o.controller = some (PossessingController.PlayerCharacterController pc) ∧
        CastEnhancedInputComponent pc.InputComponent = false) := by
  cases o with
  | Enemy id => simp [OverlappedBy.capable] at hc
  | PlayerCharacter id p ctl =>
    rw [OnWeaponCollisionBeginOverlap_player]
    cases ht : wpn.transfer ⟨id, ActorClass.PlayerCharacter⟩
        (p.WeaponHandlingComponent.getD
          (UWeaponHandlingComponent.new ⟨id, ActorClass.PlayerCharacter⟩)) ctl with
    | none => exact ⟨fun r hr => (by cases hr), fun _ => transfer_none _ _ _ _ ht⟩
    | some t =>
      obtain ⟨h1, h2, h3, -⟩ := transfer_spec _ _ _ _ _ ht
      refine ⟨fun r hr => ?_, fun hn => by cases hn⟩
      cases hr
      exact ⟨by simp only [h1], List.mem_append_right _ h3, _, _, rfl, rfl, rfl, h2⟩
  | Other id d w c ctl =>
    simp only [OverlappedBy.capable, Bool.and_eq_true] at hc
    obtain ⟨hw, hcs⟩ := hc
    subst hw
    obtain ⟨c0, rfl⟩ := Option.isSome_iff_exists.mp hcs
    rw [OnWeaponCollisionBeginOverlap_other]
    cases ht : wpn.transfer ⟨id, ActorClass.Other d true⟩ c0 ctl with
    | none => exact ⟨fun r hr => (by cases hr), fun _ => transfer_none _ _ _ _ ht⟩
    | some t =>
      obtain ⟨h1, h2, h3, -⟩ := transfer_spec _ _ _ _ _ ht
      refine ⟨fun r hr => ?_, fun hn => by cases hn⟩
      cases hr
      exact ⟨by simp only [h1], h3, _, _, rfl, rfl, rfl, h2⟩

/-- Witness for C11: the new player 1, under an enhanced-input controller, picks
up the rifle; its component then has base damage 40 and multiplier 3, and
the rifle is destroyed. -/
theorem pickup_transfer_witness :
    ∃ r, riflePickup.OnWeaponCollisionBeginOverlap (some player1Overlapping) = some r ∧
      r.state.1.bActorIsBeingDestroyed = true ∧
      ∃ o1 c1, r.state.2 = some o1 ∧ o1.component = some c1 ∧
        c1.BaseDamage = 40 ∧ c1.HeadshotMultiplier = 3 ∧ c1.MuzzleFlash = some 22 := by
  obtain ⟨r, hr⟩ : ∃ r, riflePickup.OnWeaponCollisionBeginOverlap (some player1Overlapping)
      = some r := ⟨_, rfl⟩
  obtain ⟨h1, -, o1, c1, h3, -, h4, h5, -, -, -, -, h6, h7, -⟩ :=
    (pickup_transfer riflePickup player1Overlapping rfl).1 r hr
  exact ⟨r, hr, h1, o1, c1, h3, h4, h6, h7, h5⟩

/-- C12: when the overlapping actor is null, or does not implement
`IWeaponDetectionInterface`, or implements it and its
`GetWeaponHandlingComponent` returns null, `OnWeaponCollisionBeginOverlap`
returns with the pickup and the actor unchanged and without any call: no
destruction, no initialisation, no attachment, no notification, no sound. -/
theorem pickup_without_capability (wpn : AWeaponBase) :
    wpn.OnWeaponCollisionBeginOverlap none
      = some { state := (wpn, none), events := [], ret := () } ∧
    ∀ o : OverlappedBy, o.capable = false →
      wpn.OnWeaponCollisionBeginOverlap (some o)
        = some { state := (wpn, some o), events := [], ret := () } := by
  refine ⟨rfl, fun o hc => ?_⟩
  cases o with
  | PlayerCharacter id p ctl => simp [OverlappedBy.capable] at hc
  | Enemy id => rfl
  | Other id d w c ctl =>
    cases w
    · rfl
    · cases c with
      | none => rfl
      | some c0 => simp [OverlappedBy.capable] at hc

/-- Witness for C12: actor 5 implements the interface with the default
`GetWeaponHandlingComponent`, which returns null; the rifle stays. -/
theorem pickup_without_capability_witness :
    riflePickup.OnWeaponCollisionBeginOverlap (some (OverlappedBy.Other 5 false true none none))
      = some { state := (riflePickup, some (OverlappedBy.Other 5 false true none none)),
               events := [], ret := () } :=
  (pickup_without_capability riflePickup).2 (OverlappedBy.Other 5 false true none none) rfl

/-- C13: along every sequence of overlap events delivered to a pickup,
`InitializeWeaponProperties` is entered at most once, with the pickup's
configuration; once it has been entered the pickup is destroyed and further
overlap events add no call and change nothing. -/
theorem pickup_at_most_once (wpn : AWeaponBase) (os os2 : List (Option OverlappedBy)) :
    ((wpn.overlaps os).2.filter Event.isInitializeWeaponProperties).length ≤ 1 ∧
    (∀ x ∈ (wpn.overlaps os).2.filter Event.isInitializeWeaponProperties,
      x = Event.InitializeWeaponProperties
        (FInitWeaponProperties.make wpn.MuzzleFlash wpn.ImpactParticle wpn.BeamTraceParticle
          wpn.FireSound wpn.WeaponSocketName wpn.BaseDamage wpn.HeadshotMultiplier
          wpn.WeaponFIreMontage)) ∧
    ((wpn.overlaps os).2.filter Event.isInitializeWeaponProperties ≠ [] →
      (wpn.overlaps os).1.bActorIsBeingDestroyed = true ∧
      wpn.overlaps (os ++ os2) = wpn.overlaps os) := by
  obtain ⟨h1, h2⟩ := overlaps_inv os wpn
  refine ⟨?_, ?_, fun hne => ⟨(h2 hne).1, (h2 hne).2 os2⟩⟩
  · rcases h1 with h | h <;> rw [h] <;> simp
  · rcases h1 with h | h <;> rw [h] <;> simp

/-- Witness for C13: player 1 overlaps the rifle, then a player character and
an enemy overlap it again; one transfer happens, and the two later events add
nothing. -/
theorem pickup_at_most_once_witness :
    (riflePickup.overlaps [some player1Overlapping]).2.filter Event.isInitializeWeaponProperties
      ≠ [] ∧
    (riflePickup.overlaps [some player1Overlapping]).1.bActorIsBeingDestroyed = true ∧
    riflePickup.overlaps ([some player1Overlapping] ++
        [some player1Overlapping, some (OverlappedBy.Enemy 4)])
      = riflePickup.overlaps [some player1Overlapping] := by
  have hne : (riflePickup.overlaps [some player1Overlapping]).2.filter
      Event.isInitializeWeaponProperties ≠ [] := by
    simp [AWeaponBase.overlaps, AWeaponBase.deliverBeginOverlap, riflePickup, player1Overlapping,
      AWeaponBase.OnWeaponCollisionBeginOverlap, APlayerCharacter.GetWeaponHandlingComponent,
      APlayerCharacter.new, AWeaponBase.transfer,
      UWeaponHandlingComponent.AttachComponentMeshToActor, UWeaponHandlingComponent.new,
      CastPlayerCharacter, APlayerCharacterController.OnWeaponPicked, controllerOfPlayer1,
      CastEnhancedInputComponent, UWeaponHandlingComponent.InitializeWeaponProperties,
      Event.isInitializeWeaponProperties]
  exact ⟨hne, (pickup_at_most_once riflePickup [some player1Overlapping]
    [some player1Overlapping, some (OverlappedBy.Enemy 4)]).2.2 hne⟩

/-! ## Impact cue of the player (C22) -/

/-- C23: `AEnemy::Death` spawns exactly one actor, of class `ItemToSpawnOnDeath`
with the enemy's rotation and location and unit scale, when that class is
set, and spawns nothing when it is not; in every case it calls `Destroy()`
once and the enemy is then being destroyed. -/
theorem AEnemy_Death_spec (e : AEnemy) :
    (AEnemy.Death e).events.filter Event.isSpawnActor
      = (match e.ItemToSpawnOnDeath with
         | some cls => [Event.SpawnActor cls ⟨e.ActorRotation, e.ActorLocation, ⟨1, 1, 1⟩⟩]
         | none => []) ∧
    (((AEnemy.Death e).events.filter Event.isSpawnActor).length = 1
      ↔ e.ItemToSpawnOnDeath ≠ none) ∧
    (AEnemy.Death e).events.count Event.Destroy = 1 ∧
    (AEnemy.Death e).state.bActorIsBeingDestroyed = true := by
  unfold AEnemy.Death
  cases e.ItemToSpawnOnDeath <;> simp [Event.isSpawnActor]

/-! ## Non-player actors and the enemy's handlers (C24, C25) -/

/-- C24: for an actor that is null or not a player character,
`AgroSphereOnOverlapBegin`, `CombatRangeSphereOnOverlapBegin`,
`CombatRangeSphereOnOverlapEnd` and `DoDamage` return with the enemy's state
unchanged and make no call, so no damage is applied. -/
theorem non_player_is_ignored (e : AEnemy) (OtherActor : Option AActor)
    (h : OtherActor = none ∨ ∃ a, OtherActor = some a ∧ a.cls ≠ ActorClass.PlayerCharacter) :
    e.AgroSphereOnOverlapBegin OtherActor = some { state := e, events := [], ret := () } ∧
    e.CombatRangeSphereOnOverlapBegin OtherActor = some { state := e, events := [], ret := () } ∧
    e.CombatRangeSphereOnOverlapEnd OtherActor = some { state := e, events := [], ret := () } ∧
    e.DoDamage OtherActor = { state := e, events := [], ret := () } := by
  have hc : CastPlayerCharacter OtherActor = none := by
    rcases h with h | ⟨a, h, ha⟩
    · rw [h]; rfl
    · rw [h]; simp [CastPlayerCharacter, ha]
  simp [AEnemy.AgroSphereOnOverlapBegin, AEnemy.CombatRangeSphereOnOverlapBegin,
    AEnemy.CombatRangeSphereOnOverlapEnd, AEnemy.DoDamage, hc]

/-- Witness for C24: another enemy (actor 4) touches the damage collision of an
enemy; no damage is applied and nothing changes. -/
theorem non_player_is_ignored_witness :
    enemyWithController.DoDamage (some ⟨4, ActorClass.Enemy⟩)
      = { state := enemyWithController, events := [], ret := () } :=
  (non_player_is_ignored enemyWithController (some ⟨4, ActorClass.Enemy⟩)
    (Or.inr ⟨_, rfl, by decide⟩)).2.2.2

/-- C25: whenever they return, the agro handlers leave `bIsInAttackRange` and
the blackboard key `IsInCombatRange` unchanged and write no blackboard
boolean, and the combat-range handlers leave the blackboard key `Target`
unchanged and write no blackboard object. -/
theorem flags_independent (e : AEnemy) (OtherActor : Option AActor) :
    (∀ r, e.AgroSphereOnOverlapBegin OtherActor = some r →
      r.state.bIsInAttackRange = e.bIsInAttackRange ∧
      (r.state.EnemyController.map fun b => b.IsInCombatRange)
        = (e.EnemyController.map fun b => b.IsInCombatRange) ∧
      ∀ k v, Event.SetBlackboardBool k v ∉ r.events) ∧
    (∀ r, e.AgroSphereOnOverlapEnd OtherActor = some r →
      r.state.bIsInAttackRange = e.bIsInAttackRange ∧
      (r.state.EnemyController.map fun b => b.IsInCombatRange)
        = (e.EnemyController.map fun b => b.IsInCombatRange) ∧
      ∀ k v, Event.SetBlackboardBool k v ∉ r.events) ∧
    (∀ r, e.CombatRangeSphereOnOverlapBegin OtherActor = some r →
      (r.state.EnemyController.map fun b => b.Target) = (e.EnemyController.map fun b => b.Target) ∧
      ∀ k v, Event.SetBlackboardObject k v ∉ r.events) ∧
    (∀ r, e.CombatRangeSphereOnOverlapEnd OtherActor = some r →
      (r.state.EnemyController.map fun b => b.Target) = (e.EnemyController.map fun b => b.Target) ∧
      ∀ k v, Event.SetBlackboardObject k v ∉ r.events) := by
  refine ⟨?_, ?_, ?_, ?_⟩
  · intro r hr
    unfold AEnemy.AgroSphereOnOverlapBegin at hr
    cases hc : CastPlayerCharacter OtherActor with
    | none => rw [hc] at hr; cases hr; simp
    | some a =>
      rw [hc] at hr
      cases hb : e.EnemyController with
      | none => rw [hb] at hr; cases hr
      | some bb => rw [hb] at hr; cases hr; simp
  · intro r hr
    cases hr; simp
  · intro r hr
    unfold AEnemy.CombatRangeSphereOnOverlapBegin at hr
    cases hc : CastPlayerCharacter OtherActor with
    | none => rw [hc] at hr; cases hr; simp
    | some a =>
      rw [hc] at hr
      cases hb : e.EnemyController with
      | none => rw [hb] at hr; cases hr
      | some bb => rw [hb] at hr; cases hr; simp
  · intro r hr
    unfold AEnemy.CombatRangeSphereOnOverlapEnd at hr
    cases hc : CastPlayerCharacter OtherActor with
    | none => rw [hc] at hr; cases hr; simp
    | some a =>
      rw [hc] at hr
      cases hb : e.EnemyController with
      | none => rw [hb] at hr; cases hr
      | some bb => rw [hb] at hr; cases hr; simp

/-- Witness for C25: player 1 enters the combat range of an enemy whose target
is player 1; the flag is set and the target is still player 1. -/
theorem flags_independent_witness :
    ∃ r, ({ enemyWithController with
            EnemyController := some ⟨some ⟨1, ActorClass.PlayerCharacter⟩, false⟩ } :
          AEnemy).CombatRangeSphereOnOverlapBegin (some ⟨1, ActorClass.PlayerCharacter⟩)
        = some r ∧
      r.state.bIsInAttackRange = true ∧
      (r.state.EnemyController.map fun b => b.Target)
        = some (some ⟨1, ActorClass.PlayerCharacter⟩) :=
  ⟨_, rfl, rfl,
    ((flags_independent
      { enemyWithController with
        EnemyController := some ⟨some ⟨1, ActorClass.PlayerCharacter⟩, false⟩ }
      (some ⟨1, ActorClass.PlayerCharacter⟩)).2.2.1 _ rfl).1⟩


/-! ## Optional weapon effects (C26) -/

/-- C26: with no weapon mesh `PlayWeaponEffects` spawns nothing. With a weapon
mesh its spawns are, in order: the muzzle flash at the socket transform
exactly when `MuzzleFlash` is set; the impact effect at the impact point
exactly when `ImpactParticle` is set and the hit is a blocking hit; the beam
at the socket transform exactly when `BeamTraceParticle` is set. -/
theorem PlayWeaponEffects_spawns (c : UWeaponHandlingComponent) (w : UWorld)
    (HitResult : FHitResult) (EndEffectLocation : FVector) (SocketEffectName : FName) :
    (c.WeaponMeshComponent = none →
      (c.PlayWeaponEffects w HitResult EndEffectLocation SocketEffectName).filter
        Event.isSpawnEmitter = []) ∧
    (c.WeaponMeshComponent ≠ none →
      (c.PlayWeaponEffects w HitResult EndEffectLocation SocketEffectName).filter
          Event.isSpawnEmitter
        = (match c.MuzzleFlash with
           | some t => [Event.SpawnEmitterAtTransform t (w.SocketTransform SocketEffectName)]
           | none => []) ++
          (match c.ImpactParticle, HitResult.bBlockingHit with
           | some t, true =>
             [Event.SpawnEmitterAtLocation t HitResult.ImpactPoint HitResult.ImpactNormal]
           | _, _ => []) ++
          (match c.BeamTraceParticle with
           | some t => [Event.SpawnEmitterAtTransform t (w.SocketTransform SocketEffectName)]
           | none => [])) ∧
    ((∃ t l n, Event.SpawnEmitterAtLocation t l n
          ∈ c.PlayWeaponEffects w HitResult EndEffectLocation SocketEffectName) ↔
      (c.WeaponMeshComponent ≠ none ∧ c.ImpactParticle ≠ none ∧ HitResult.bBlockingHit = true)) ∧
    ((c.PlayWeaponEffects w HitResult EndEffectLocation SocketEffectName).filter
        Event.isSpawnEmitter).length
      = (if c.WeaponMeshComponent ≠ none ∧ c.MuzzleFlash ≠ none then 1 else 0) +
        (if c.WeaponMeshComponent ≠ none ∧ c.ImpactParticle ≠ none ∧
            HitResult.bBlockingHit = true then 1 else 0) +
        (if c.WeaponMeshComponent ≠ none ∧ c.BeamTraceParticle ≠ none then 1 else 0) := by
  unfold UWeaponHandlingComponent.PlayWeaponEffects
  cases c.WeaponMeshComponent <;> cases c.MuzzleFlash <;> cases c.ImpactParticle <;>
    cases c.BeamTraceParticle <;> cases HitResult.bBlockingHit <;> cases w.BeamSpawned <;>
    simp [Event.isSpawnEmitter]

/-- Witness for C26: a component with a mesh and only a muzzle flash (asset 22)
spawns exactly the muzzle flash. -/
theorem PlayWeaponEffects_spawns_witness :
    (({ equippedComponent with MuzzleFlash := some 22 } :
        UWeaponHandlingComponent).PlayWeaponEffects worldHittingNothing FHitResult.init
        ⟨10000, 0, 0⟩ "Barrel Socket").filter Event.isSpawnEmitter
      = [Event.SpawnEmitterAtTransform 22 ⟨⟨0, 0, 0⟩, ⟨0, 0, 0⟩, ⟨1, 1, 1⟩⟩] :=
  (PlayWeaponEffects_spawns { equippedComponent with MuzzleFlash := some 22 }
    worldHittingNothing FHitResult.init ⟨10000, 0, 0⟩ "Barrel Socket").2.1 (by simp [equippedComponent])

/-! ## Impacts of a dropped item (C27) -/

theorem NotifyHits_timers (hits : List FHitResult) :
    ∀ item : AItemBase,
      (item.NotifyHits hits).2.filter Event.isSetTimer
        = List.replicate hits.length (Event.SetTimer "DIsablePhysics" 4 false) ∧
      (item.NotifyHits hits).1 = item := by
  induction hits with
  | nil => intro item; exact ⟨rfl, rfl⟩
  | cons h hs ih =>
    intro item
    obtain ⟨i1, i2⟩ := ih item
    unfold AItemBase.NotifyHits
    refine ⟨?_, i2⟩
    simp only [AItemBase.NotifyHit, List.filter_append, List.length_cons, List.replicate_succ]
    rw [i1]
    simp [Event.isSetTimer]

/-- Counterexample to C27 as stated: two impacts on one item schedule two timers,
the second impact scheduling one as well. -/
theorem second_impact_schedules_again :
    ((droppedItem.NotifyHits [FHitResult.init, FHitResult.init]).2.filter
        Event.isSetTimer).length = 2 ∧
    ((droppedItem.NotifyHits [FHitResult.init]).1.NotifyHit FHitResult.init).events.filter
        Event.isSetTimer
      = [Event.SetTimer "DIsablePhysics" 4 false] := by
  constructor
  · rw [(NotifyHits_timers _ _).1]; rfl
  · rw [(NotifyHits_timers _ _).2]; simp [AItemBase.NotifyHit, Event.isSetTimer]

/-- C27 (amended): every `NotifyHit` call on an item schedules one non-looping
timer with delay 4.0 and callback `DIsablePhysics`; over a sequence of `n`
`NotifyHit` calls exactly `n` such timers are scheduled, and the item's
state is unchanged. -/
theorem every_impact_schedules_timer (item : AItemBase) (hits : List FHitResult)
    (Hit : FHitResult) :
    (item.NotifyHit Hit).events.filter Event.isSetTimer
      = [Event.SetTimer "DIsablePhysics" 4 false] ∧
    (item.NotifyHits hits).2.filter Event.isSetTimer
      = List.replicate hits.length (Event.SetTimer "DIsablePhysics" 4 false) ∧
    ((item.NotifyHits hits).2.filter Event.isSetTimer).length = hits.length ∧
    (item.NotifyHits hits).1 = item := by
  obtain ⟨h1, h2⟩ := NotifyHits_timers hits item
  refine ⟨by simp [AItemBase.NotifyHit, Event.isSetTimer], h1, ?_, h2⟩
  rw [h1, List.length_replicate]


/-! ## Several pickups by one player (C29) -/

theorem pickup_by_equipped (wpn : AWeaponBase) (id : Nat) (p : APlayerCharacter)
    (ctl : Option PossessingController) (c : UWeaponHandlingComponent)
    (msh : USkeletalMeshComponent) (hc : p.WeaponHandlingComponent = some c)
    (hm : c.WeaponMeshComponent = some msh) :
    ∃ r p1 c1, wpn.OnWeaponCollisionBeginOverlap (some (OverlappedBy.PlayerCharacter id p ctl))
        = some r ∧
      r.state.1 = { wpn with bActorIsBeingDestroyed := true } ∧
      r.state.2 = some (OverlappedBy.PlayerCharacter id p1 ctl) ∧
      p1.WeaponHandlingComponent = some c1 ∧ c1.WeaponMeshComponent = some msh ∧
      c1.Owner = c.Owner ∧ c1.Player = CastPlayerCharacter c.Owner ∧
      c1.hasConfigOf wpn ∧
      r.events.count (Event.NewObject "Weapon Mesh") = 0 ∧
      r.events.filter Event.isControllerOnWeaponPicked = [] ∧
      r.events.filter Event.isBindAction = [] ∧
      r.events.count Event.Destroy = 1 := by
  have hA : c.AttachComponentMeshToActor ctl wpn.PickupWeaponMesh
      = some { state := ({ c with Player := CastPlayerCharacter c.Owner }, ctl),
               events := [], ret := () } := by
    unfold UWeaponHandlingComponent.AttachComponentMeshToActor
    rw [hm]
  rw [OnWeaponCollisionBeginOverlap_player, hc]
  simp only [Option.getD_some, AWeaponBase.transfer, hA, Option.map_some']
  refine ⟨_, _, _, rfl, rfl, rfl, rfl, hm, rfl, rfl, ⟨rfl, rfl, rfl, rfl, rfl, rfl, rfl, rfl⟩, ?_, ?_,
    ?_, ?_⟩ <;>
  · simp only [APlayerCharacter.GetWeaponHandlingComponent, hc,
      UWeaponHandlingComponent.InitializeWeaponProperties]
    cases wpn.PickupSound <;>
      simp [Event.isControllerOnWeaponPicked, Event.isBindAction]


theorem pickup_by_unequipped (wpn : AWeaponBase) (id : Nat) (p : APlayerCharacter)
    (pc : APlayerCharacterController) (hc : p.WeaponHandlingComponent = none)
    (hf : pc.FPSCharacter = some ⟨id, ActorClass.PlayerCharacter⟩)
    (he : CastEnhancedInputComponent pc.InputComponent = true) :
    ∃ r p1 c1 pc1, wpn.OnWeaponCollisionBeginOverlap
        (some (OverlappedBy.PlayerCharacter id p
          (some (PossessingController.PlayerCharacterController pc)))) = some r ∧
      r.state.1 = { wpn with bActorIsBeingDestroyed := true } ∧
      r.state.2 = some (OverlappedBy.PlayerCharacter id p1
        (some (PossessingController.PlayerCharacterController pc1))) ∧
      pc1.Bindings = pc.Bindings ++
        [(pc.WeaponFireAction, ETriggerEvent.Triggered, "HandleWeapWeaponFireAction")] ∧
      pc1.FPSCharacter = pc.FPSCharacter ∧
      p1.WeaponHandlingComponent = some c1 ∧
      c1.WeaponMeshComponent = some ⟨wpn.PickupWeaponMesh, true⟩ ∧
      c1.Owner = some ⟨id, ActorClass.PlayerCharacter⟩ ∧
      c1.Player = some ⟨id, ActorClass.PlayerCharacter⟩ ∧
      c1.hasConfigOf wpn ∧
      r.events.count (Event.NewObject "Weapon Mesh") = 1 ∧
      r.events.filter Event.isControllerOnWeaponPicked
        = [Event.ControllerOnWeaponPicked ⟨id, ActorClass.PlayerCharacter⟩] ∧
      r.events.filter Event.isBindAction
        = [Event.BindAction pc.WeaponFireAction ETriggerEvent.Triggered
            "HandleWeapWeaponFireAction"] ∧
      r.events.count Event.Destroy = 1 := by
  have hW : pc.OnWeaponPicked (some ⟨id, ActorClass.PlayerCharacter⟩)
      = some { state := { pc with
                 MappingContexts := pc.MappingContexts ++
                   (if pc.InputSubsystem then [(pc.WeaponHandlingMappingContext, 0)] else []),
                 Bindings := pc.Bindings ++
                   [(pc.WeaponFireAction, ETriggerEvent.Triggered, "HandleWeapWeaponFireAction")] },
               events := (if pc.InputSubsystem then [(pc.WeaponHandlingMappingContext, 0)]
                   else []).map (fun x => Event.AddMappingContext x.1 x.2) ++
                 [Event.BindAction pc.WeaponFireAction ETriggerEvent.Triggered
                   "HandleWeapWeaponFireAction"],
               ret := () } := by
    unfold APlayerCharacterController.OnWeaponPicked
    simp [CastPlayerCharacter, hf, he]
  have hA : (UWeaponHandlingComponent.new ⟨id, ActorClass.PlayerCharacter⟩).AttachComponentMeshToActor
      (some (PossessingController.PlayerCharacterController pc)) wpn.PickupWeaponMesh
      = some { state := ({ UWeaponHandlingComponent.new ⟨id, ActorClass.PlayerCharacter⟩ with
                  Player := some ⟨id, ActorClass.PlayerCharacter⟩,
                  WeaponMeshComponent := some ⟨wpn.PickupWeaponMesh, true⟩ },
                some (PossessingController.PlayerCharacterController
                  { pc with
                    MappingContexts := pc.MappingContexts ++
                      (if pc.InputSubsystem then [(pc.WeaponHandlingMappingContext, 0)] else []),
                    Bindings := pc.Bindings ++
                      [(pc.WeaponFireAction, ETriggerEvent.Triggered,
                        "HandleWeapWeaponFireAction")] })),
               events := [Event.NewObject "Weapon Mesh", Event.RegisterComponent "Weapon Mesh",
                   Event.SetSkeletalMesh wpn.PickupWeaponMesh,
                   Event.AttachToComponent "GripPoint"] ++
                 Event.ControllerOnWeaponPicked ⟨id, ActorClass.PlayerCharacter⟩ ::
                   ((if pc.InputSubsystem then [(pc.WeaponHandlingMappingContext, 0)]
                       else []).map (fun x => Event.AddMappingContext x.1 x.2) ++
                     [Event.BindAction pc.WeaponFireAction ETriggerEvent.Triggered
                       "HandleWeapWeaponFireAction"]),
               ret := () } := by
    simp [UWeaponHandlingComponent.AttachComponentMeshToActor, UWeaponHandlingComponent.new,
      CastPlayerCharacter, hW]
  rw [OnWeaponCollisionBeginOverlap_player, hc]
  simp only [Option.getD_none, AWeaponBase.transfer, hA, Option.map_some']
  refine ⟨_, _, _, _, rfl, rfl, rfl, rfl, rfl, rfl, rfl, rfl, rfl,
    ⟨rfl, rfl, rfl, rfl, rfl, rfl, rfl, rfl⟩, ?_, ?_, ?_, ?_⟩ <;>
  · simp only [APlayerCharacter.GetWeaponHandlingComponent, hc,
      UWeaponHandlingComponent.InitializeWeaponProperties]
    cases wpn.PickupSound <;> cases pc.InputSubsystem <;>
      simp [Event.isControllerOnWeaponPicked, Event.isBindAction]

theorem pickUpAll_equipped (id : Nat) (ctl : Option PossessingController)
    (msh : USkeletalMeshComponent) (ws : List AWeaponBase) :
    ∀ (p : APlayerCharacter) (c : UWeaponHandlingComponent),
      p.WeaponHandlingComponent = some c → c.WeaponMeshComponent = some msh →
      ∃ p1 c1 ws1 evs, pickUpAll (some (OverlappedBy.PlayerCharacter id p ctl)) ws
          = some (some (OverlappedBy.PlayerCharacter id p1 ctl), ws1, evs) ∧
        p1.WeaponHandlingComponent = some c1 ∧ c1.WeaponMeshComponent = some msh ∧
        (ws = [] → c1 = c) ∧
        (∀ wl, ws.getLast? = some wl → c1.hasConfigOf wl) ∧
        ws1.length = ws.length ∧ (∀ x ∈ ws1, x.bActorIsBeingDestroyed = true) ∧
        evs.count (Event.NewObject "Weapon Mesh") = 0 ∧
        evs.filter Event.isControllerOnWeaponPicked = [] ∧
        evs.filter Event.isBindAction = [] ∧
        evs.count Event.Destroy = ws.length := by
  induction ws with
  | nil =>
    intro p c hc hm
    exact ⟨p, c, [], [], rfl, hc, hm, fun _ => rfl, fun wl h => by simp at h, rfl,
      fun x hx => by simp at hx, rfl, rfl, rfl, rfl⟩
  | cons w ws ih =>
    intro p c hc hm
    obtain ⟨r, p1, c1, h1, h2, h3, h4, h5, -, -, h6, h7, h8, h9, h10⟩ :=
      pickup_by_equipped w id p ctl c msh hc hm
    obtain ⟨p2, c2, ws2, evs2, i1, i2, i3, i4, i5, i6, i7, i8, i9, i10, i11⟩ := ih p1 c1 h4 h5
    refine ⟨p2, c2, r.state.1 :: ws2, r.events ++ evs2, ?_, i2, i3, fun h => by simp at h, ?_, ?_,
      ?_, ?_, ?_, ?_, ?_⟩
    · unfold pickUpAll
      rw [h1]
      simp only [h3, i1]
    · intro wl hwl
      cases ws with
      | nil =>
        simp only [List.getLast?_singleton, Option.some.injEq] at hwl
        subst hwl
        rw [i4 rfl]
        exact h6
      | cons y ys =>
        rw [List.getLast?_cons_cons] at hwl
        exact i5 wl hwl
    · simp [i6]
    · intro x hx
      rcases List.mem_cons.mp hx with hx | hx
      · rw [hx, h2]
      · exact i7 x hx
    · rw [List.count_append, h7, i8]
    · rw [List.filter_append, h8, i9]; rfl
    · rw [List.filter_append, h9, i10]; rfl
    · rw [List.count_append, h10, i11, List.length_cons, Nat.add_comm]

/-- C29: a player character without a weapon handling component, possessed by
an `APlayerCharacterController` that has cached it and has an enhanced input
component, overlaps `k ≥ 1` pickups in turn. All the handlers return; the
weapon mesh component is created once and holds the first pickup's mesh; the
controller's `OnWeaponPicked` is invoked once and binds the fire action once;
the component holds the configuration of the last pickup; all `k` pickups
are destroyed. -/
theorem several_pickups (id : Nat) (p : APlayerCharacter) (pc : APlayerCharacterController)
    (w : AWeaponBase) (ws : List AWeaponBase) (hc : p.WeaponHandlingComponent = none)
    (hf : pc.FPSCharacter = some ⟨id, ActorClass.PlayerCharacter⟩)
    (he : CastEnhancedInputComponent pc.InputComponent = true) :
    ∃ p1 c1 pc1 ws1 evs,
      pickUpAll (some (OverlappedBy.PlayerCharacter id p
          (some (PossessingController.PlayerCharacterController pc)))) (w :: ws)
        = some (some (OverlappedBy.PlayerCharacter id p1
            (some (PossessingController.PlayerCharacterController pc1))), ws1, evs) ∧
      p1.WeaponHandlingComponent = some c1 ∧
      c1.WeaponMeshComponent = some ⟨w.PickupWeaponMesh, true⟩ ∧
      evs.count (Event.NewObject "Weapon Mesh") = 1 ∧
      evs.filter Event.isControllerOnWeaponPicked
        = [Event.ControllerOnWeaponPicked ⟨id, ActorClass.PlayerCharacter⟩] ∧
      evs.filter Event.isBindAction
        = [Event.BindAction pc.WeaponFireAction ETriggerEvent.Triggered
            "HandleWeapWeaponFireAction"] ∧
      pc1.Bindings = pc.Bindings ++
        [(pc.WeaponFireAction, ETriggerEvent.Triggered, "HandleWeapWeaponFireAction")] ∧
      (∀ wl, (w :: ws).getLast? = some wl → c1.hasConfigOf wl) ∧
      ws1.length = (w :: ws).length ∧ (∀ x ∈ ws1, x.bActorIsBeingDestroyed = true) ∧
      evs.count Event.Destroy = (w :: ws).length := by
  obtain ⟨r, p1, c1, pc1, h1, h2, h3, h4, -, h5, h6, -, -, h7, h8, h9, h10, h11⟩ :=
    pickup_by_unequipped w id p pc hc hf he
  obtain ⟨p2, c2, ws2, evs2, i1, i2, i3, i4, i5, i6, i7, i8, i9, i10, i11⟩ :=
    pickUpAll_equipped id (some (PossessingController.PlayerCharacterController pc1))
      ⟨w.PickupWeaponMesh, true⟩ ws p1 c1 h5 h6
  refine ⟨p2, c2, pc1, r.state.1 :: ws2, r.events ++ evs2, ?_, i2, i3, ?_, ?_, ?_, h4, ?_, ?_, ?_,
    ?_⟩
  · unfold pickUpAll
    rw [h1]
    simp only [h3, i1]
  · rw [List.count_append, h8, i8]
  · rw [List.filter_append, h9, i9, List.append_nil]
  · rw [List.filter_append, h10, i10, List.append_nil]
  · intro wl hwl
    cases ws with
    | nil =>
      simp only [List.getLast?_singleton, Option.some.injEq] at hwl
      subst hwl
      rw [i4 rfl]
      exact h7
    | cons y ys =>
      rw [List.getLast?_cons_cons] at hwl
      exact i5 wl hwl
  · simp [i6]
  · intro x hx
    rcases List.mem_cons.mp hx with hx | hx
    · rw [hx, h2]
    · exact i7 x hx
  · rw [List.count_append, h11, i11, List.length_cons, Nat.add_comm]

/-- Witness for C29: the new player 1 picks up the rifle and then the pistol;
the mesh is the rifle's (asset 20) and the damage is the pistol's (15). -/
theorem several_pickups_witness :
    ∃ p1 c1 pc1 ws1 evs,
      pickUpAll (some player1Overlapping) [riflePickup, pistolPickup]
        = some (some (OverlappedBy.PlayerCharacter 1 p1
            (some (PossessingController.PlayerCharacterController pc1))), ws1, evs) ∧
      p1.WeaponHandlingComponent = some c1 ∧
      c1.WeaponMeshComponent = some ⟨some 20, true⟩ ∧
      c1.BaseDamage = 15 ∧
      evs.filter Event.isBindAction
        = [Event.BindAction (some 35) ETriggerEvent.Triggered "HandleWeapWeaponFireAction"] ∧
      evs.count Event.Destroy = 2 := by
  obtain ⟨p1, c1, pc1, ws1, evs, h1, h2, h3, -, -, h6, -, h8, -, -, h11⟩ :=
    several_pickups 1 (APlayerCharacter.new none none (some true) ⟨0, 0, 0⟩)
      (controllerOfPlayer1 (some UInputComponent.Enhanced)) riflePickup [pistolPickup] rfl rfl rfl
  exact ⟨p1, c1, pc1, ws1, evs, h1, h2, h3, (h8 pistolPickup rfl).2.2.2.2.2.1, h6, h11⟩


/-! ## Firing and possession (C30) -/

/-- C30 (the code at the failing input): the controller possesses player 1,
player 1 picks up the rifle (the fire action is bound), then the controller
possesses player 2, who has no weapon. The fire action is still bound, the
controlled character is player 2 without a weapon handling component, and the
fire handler dereferences the null `Player` of the component created on
demand: firing is reachable without an equipped weapon, against the note on
`HandleWeapWeaponFireAction` in `PlayerCharacterController.h` ("Only active
when WeaponHandlingMappingContext is enabled (i.e., player has a weapon)"). -/
theorem fire_bound_after_repossession :
    ∃ s, newGame.run [GameEvent.Possess (some ⟨1, ActorClass.PlayerCharacter⟩),
        GameEvent.Pickup riflePickup 1,
        GameEvent.Possess (some ⟨2, ActorClass.PlayerCharacter⟩)] = some s ∧
      s.Controller.fireBound = true ∧
      s.Controller.FPSCharacter = some ⟨2, ActorClass.PlayerCharacter⟩ ∧
      (s.Characters 2).WeaponHandlingComponent = none ∧
      ((s.Characters 2).GetWeaponHandlingComponent ⟨2, ActorClass.PlayerCharacter⟩).ret
        = some (UWeaponHandlingComponent.new ⟨2, ActorClass.PlayerCharacter⟩) ∧
      (UWeaponHandlingComponent.new ⟨2, ActorClass.PlayerCharacter⟩).Player = none ∧
      s.HandleWeapWeaponFireAction worldHittingNothing ⟨0, 0, 0⟩ = none := by
  refine ⟨_, rfl, ?_, ?_, ?_, ?_, rfl, ?_⟩
  · rfl
  · rfl
  · rfl
  · rfl
  · rfl


theorem fireBound_append (pc : APlayerCharacterController)
    (bs : List (Option Asset × ETriggerEvent × FName)) (ctx : List (Option Asset × Nat))
    (f : Option AActor) :
    ({ pc with FPSCharacter := f, MappingContexts := ctx,
               Bindings := pc.Bindings ++ bs } : APlayerCharacterController).fireBound
      = (pc.fireBound || bs.any (fun b => b.2.2 == "HandleWeapWeaponFireAction")) := by
  simp [APlayerCharacterController.fireBound, List.any_append]

theorem OnPossess_player (pc : APlayerCharacterController) (i : Nat)
    (r : Run APlayerCharacterController Unit)
    (h : pc.OnPossess (some ⟨i, ActorClass.PlayerCharacter⟩) = some r) :
    r.state.FPSCharacter = some ⟨i, ActorClass.PlayerCharacter⟩ ∧
    r.state.fireBound = pc.fireBound := by
  unfold APlayerCharacterController.OnPossess at h
  simp only [CastPlayerCharacter, if_true] at h
  split at h
  · cases h
    refine ⟨rfl, ?_⟩
    rw [fireBound_append]
    simp
  · cases h

theorem OnWeaponPicked_cases (pc : APlayerCharacterController) (a : AActor)
    (r : Run APlayerCharacterController Unit) (h : pc.OnWeaponPicked (some a) = some r) :
    r.state.FPSCharacter = pc.FPSCharacter ∧
    (r.state.fireBound = true → pc.fireBound = true ∨ pc.FPSCharacter = some a) := by
  unfold APlayerCharacterController.OnWeaponPicked at h
  split at h
  · rename_i heq
    split at h
    · cases h; exact ⟨rfl, fun hb => Or.inl hb⟩
    · rename_i x hx
      split at h
      · cases h
        refine ⟨rfl, fun _ => Or.inr ?_⟩
        rw [hx] at heq
        cases a with
        | mk id cls =>
          simp only [CastPlayerCharacter] at heq
          split at heq
          · rw [hx, heq]
          · cases heq
      · cases h
  · cases h; exact ⟨rfl, fun hb => Or.inl hb⟩

theorem Attach_general (c : UWeaponHandlingComponent) (ctl : Option PossessingController)
    (m : Option Asset) (j : Nat)
    (a : Run (UWeaponHandlingComponent × Option PossessingController) Unit)
    (hO : c.Owner = some ⟨j, ActorClass.PlayerCharacter⟩)
    (h : c.AttachComponentMeshToActor ctl m = some a) :
    a.state.1.WeaponMeshComponent ≠ none ∧
    a.state.1.Player = some ⟨j, ActorClass.PlayerCharacter⟩ ∧
    a.state.1.Owner = some ⟨j, ActorClass.PlayerCharacter⟩ ∧
    (a.state.2 = ctl ∨
      ∃ pc rr, ctl = some (PossessingController.PlayerCharacterController pc) ∧
        pc.OnWeaponPicked (some ⟨j, ActorClass.PlayerCharacter⟩) = some rr ∧
        a.state.2 = some (PossessingController.PlayerCharacterController rr.state)) := by
  have hC : CastPlayerCharacter c.Owner = some ⟨j, ActorClass.PlayerCharacter⟩ := by
    rw [hO]; simp [CastPlayerCharacter]
  unfold UWeaponHandlingComponent.AttachComponentMeshToActor at h
  rw [hC] at h
  cases hm : c.WeaponMeshComponent with
  | some msh =>
    rw [hm] at h
    cases h
    exact ⟨by simp [hm], rfl, hO, Or.inl rfl⟩
  | none =>
    rw [hm] at h
    simp only at h
    split at h
    · rename_i pc
      cases hw : pc.OnWeaponPicked (some ⟨j, ActorClass.PlayerCharacter⟩) with
      | none => rw [hw] at h; cases h
      | some rr =>
        rw [hw] at h
        cases h
        exact ⟨by simp, rfl, hO, Or.inr ⟨pc, rr, rfl, hw, rfl⟩⟩
    · cases h
      exact ⟨by simp, rfl, hO, Or.inl rfl⟩
    · cases h
      exact ⟨by simp, rfl, hO, Or.inl rfl⟩

theorem pickup_by_player_general (wpn : AWeaponBase) (j : Nat) (p : APlayerCharacter)
    (ctl : Option PossessingController) (r : Run (AWeaponBase × Option OverlappedBy) Unit)
    (hO : ∀ c, p.WeaponHandlingComponent = some c →
      c.Owner = some ⟨j, ActorClass.PlayerCharacter⟩)
    (h : wpn.OnWeaponCollisionBeginOverlap (some (OverlappedBy.PlayerCharacter j p ctl))
      = some r) :
    ∃ p1 c1 ctl1, r.state.2 = some (OverlappedBy.PlayerCharacter j p1 ctl1) ∧
      p1.WeaponHandlingComponent = some c1 ∧ c1.WeaponMeshComponent ≠ none ∧
      c1.Player = some ⟨j, ActorClass.PlayerCharacter⟩ ∧
      c1.Owner = some ⟨j, ActorClass.PlayerCharacter⟩ ∧
      (ctl1 = ctl ∨
        ∃ pc rr, ctl = some (PossessingController.PlayerCharacterController pc) ∧
          pc.OnWeaponPicked (some ⟨j, ActorClass.PlayerCharacter⟩) = some rr ∧
          ctl1 = some (PossessingController.PlayerCharacterController rr.state)) := by
  rw [OnWeaponCollisionBeginOverlap_player] at h
  have hO0 : (p.WeaponHandlingComponent.getD
      (UWeaponHandlingComponent.new ⟨j, ActorClass.PlayerCharacter⟩)).Owner
      = some ⟨j, ActorClass.PlayerCharacter⟩ := by
    cases hp : p.WeaponHandlingComponent with
    | none => rfl
    | some c => exact hO c hp
  unfold AWeaponBase.transfer at h
  cases hA : (p.WeaponHandlingComponent.getD
      (UWeaponHandlingComponent.new ⟨j, ActorClass.PlayerCharacter⟩)).AttachComponentMeshToActor
      ctl wpn.PickupWeaponMesh with
  | none => rw [hA] at h; cases h
  | some a =>
    rw [hA] at h
    cases h
    obtain ⟨a1, a2, a3, a4⟩ := Attach_general _ _ _ j a hO0 hA
    exact ⟨_, _, _, rfl, rfl, a1, a2, a3, a4⟩


theorem step_pickup_spec (s s1 : GameState) (wpn : AWeaponBase) (j : Nat)
    (hO : ∀ c, (s.Characters j).WeaponHandlingComponent = some c →
      c.Owner = some ⟨j, ActorClass.PlayerCharacter⟩)
    (h : s.step (GameEvent.Pickup wpn j) = some s1) :
    s1.Possessed = s.Possessed ∧
    (∀ k, k ≠ j → s1.Characters k = s.Characters k) ∧
    (∃ c1, (s1.Characters j).WeaponHandlingComponent = some c1 ∧
      c1.WeaponMeshComponent ≠ none ∧ c1.Player = some ⟨j, ActorClass.PlayerCharacter⟩ ∧
      c1.Owner = some ⟨j, ActorClass.PlayerCharacter⟩) ∧
    s1.Controller.FPSCharacter = s.Controller.FPSCharacter ∧
    (s1.Controller.fireBound = true →
      s.Controller.fireBound = true ∨
      (s.Possessed = some ⟨j, ActorClass.PlayerCharacter⟩ ∧
        s.Controller.FPSCharacter = some ⟨j, ActorClass.PlayerCharacter⟩)) := by
  unfold GameState.step at h
  simp only at h
  cases hr : wpn.OnWeaponCollisionBeginOverlap
      (some (OverlappedBy.PlayerCharacter j (s.Characters j)
        (if s.Possessed = some ⟨j, ActorClass.PlayerCharacter⟩ then
          some (PossessingController.PlayerCharacterController s.Controller)
        else none))) with
  | none => rw [hr] at h; cases h
  | some r =>
    rw [hr] at h
    obtain ⟨p1, c1, ctl1, g1, g2, g3, g4, g5, g6⟩ :=
      pickup_by_player_general wpn j (s.Characters j) _ r hO hr
    dsimp only at h
    rw [g1] at h
    have hchar : (∀ k, k ≠ j → Function.update s.Characters j p1 k = s.Characters k) ∧
        (∃ c1, (Function.update s.Characters j p1 j).WeaponHandlingComponent = some c1 ∧
          c1.WeaponMeshComponent ≠ none ∧ c1.Player = some ⟨j, ActorClass.PlayerCharacter⟩ ∧
          c1.Owner = some ⟨j, ActorClass.PlayerCharacter⟩) := by
      refine ⟨fun k hk => Function.update_noteq hk _ _, c1, ?_, g3, g4, g5⟩
      rw [Function.update_same]
      exact g2
    obtain ⟨k1, k2⟩ := hchar
    rcases g6 with g6 | ⟨pc, rr, e1, e2, e3⟩
    · subst g6
      by_cases hP : s.Possessed = some ⟨j, ActorClass.PlayerCharacter⟩
      · rw [if_pos hP] at h
        simp only [Option.some.injEq] at h
        subst h
        exact ⟨rfl, k1, k2, rfl, fun hb => Or.inl hb⟩
      · rw [if_neg hP] at h
        simp only [Option.some.injEq] at h
        subst h
        exact ⟨rfl, k1, k2, rfl, fun hb => Or.inl hb⟩
    · subst e3
      simp only [Option.some.injEq] at h
      subst h
      by_cases hP : s.Possessed = some ⟨j, ActorClass.PlayerCharacter⟩
      · rw [if_pos hP] at e1
        simp only [Option.some.injEq,
          PossessingController.PlayerCharacterController.injEq] at e1
        subst e1
        obtain ⟨q1, q2⟩ := OnWeaponPicked_cases _ _ _ e2
        refine ⟨rfl, k1, k2, q1, fun hb => ?_⟩
        rcases q2 hb with q | q
        · exact Or.inl q
        · exact Or.inr ⟨hP, q⟩
      · simp [hP] at e1

/-- The invariant of a game in which the controller only ever possesses the
player character `i`. -/
theorem game_invariant (i : Nat) (evs : List GameEvent) :
    ∀ s s1 : GameState,
      (∀ a, GameEvent.Possess a ∈ evs → a = some ⟨i, ActorClass.PlayerCharacter⟩) →
      ((s.Possessed = none ∧ s.Controller.FPSCharacter = none ∧ s.Controller.fireBound = false) ∨
        (s.Possessed = some ⟨i, ActorClass.PlayerCharacter⟩ ∧
          s.Controller.FPSCharacter = some ⟨i, ActorClass.PlayerCharacter⟩)) →
      (s.Controller.fireBound = true → (s.Characters i).WeaponHandlingComponent ≠ none) →
      (∀ j c, (s.Characters j).WeaponHandlingComponent = some c →
        c.WeaponMeshComponent ≠ none ∧ c.Player = some ⟨j, ActorClass.PlayerCharacter⟩ ∧
        c.Owner = some ⟨j, ActorClass.PlayerCharacter⟩) →
      s.run evs = some s1 →
      ((s1.Possessed = none ∧ s1.Controller.FPSCharacter = none ∧
          s1.Controller.fireBound = false) ∨
        (s1.Possessed = some ⟨i, ActorClass.PlayerCharacter⟩ ∧
          s1.Controller.FPSCharacter = some ⟨i, ActorClass.PlayerCharacter⟩)) ∧
      (s1.Controller.fireBound = true → (s1.Characters i).WeaponHandlingComponent ≠ none) ∧
      (∀ j c, (s1.Characters j).WeaponHandlingComponent = some c →
        c.WeaponMeshComponent ≠ none ∧ c.Player = some ⟨j, ActorClass.PlayerCharacter⟩ ∧
        c.Owner = some ⟨j, ActorClass.PlayerCharacter⟩) := by
  induction evs with
  | nil =>
    intro s s1 _ hA hB hC hrun
    cases hrun
    exact ⟨hA, hB, hC⟩
  | cons e es ih =>
    intro s s1 hev hA hB hC hrun
    unfold GameState.run at hrun
    cases hs : s.step e with
    | none => rw [hs] at hrun; cases hrun
    | some s2 =>
      rw [hs] at hrun
      dsimp only at hrun
      have hev2 : ∀ a, GameEvent.Possess a ∈ es → a = some ⟨i, ActorClass.PlayerCharacter⟩ :=
        fun a ha => hev a (List.mem_cons_of_mem _ ha)
      cases e with
      | Possess a =>
        have ha := hev a (List.mem_cons_self _ _)
        subst ha
        cases ho : s.Controller.OnPossess (some ⟨i, ActorClass.PlayerCharacter⟩) with
        | none => simp only [GameState.step, ho] at hs; cases hs
        | some r =>
          simp only [GameState.step, ho, Option.some.injEq] at hs
          subst hs
          obtain ⟨o1, o2⟩ := OnPossess_player _ _ _ ho
          exact ih { Controller := r.state, Characters := s.Characters,
                     Possessed := some ⟨i, ActorClass.PlayerCharacter⟩ } s1 hev2
            (Or.inr ⟨rfl, o1⟩) (fun hb => hB (by rw [← o2]; exact hb)) hC hrun
      | Pickup wpn j =>
        obtain ⟨t1, t2, ⟨c1, t3, t4, t5, t6⟩, t7, t8⟩ :=
          step_pickup_spec s s2 wpn j (fun c hc => (hC j c hc).2.2) hs
        have hA2 : (s2.Possessed = none ∧ s2.Controller.FPSCharacter = none ∧
              s2.Controller.fireBound = false) ∨
            (s2.Possessed = some ⟨i, ActorClass.PlayerCharacter⟩ ∧
              s2.Controller.FPSCharacter = some ⟨i, ActorClass.PlayerCharacter⟩) := by
          rcases hA with ⟨a1, a2, a3⟩ | ⟨a1, a2⟩
          · refine Or.inl ⟨by rw [t1, a1], by rw [t7, a2], ?_⟩
            cases hb : s2.Controller.fireBound with
            | false => rfl
            | true =>
              rcases t8 hb with q | ⟨q, -⟩
              · rw [a3] at q; cases q
              · rw [a1] at q; cases q
          · exact Or.inr ⟨by rw [t1, a1], by rw [t7, a2]⟩
        have hB2 : s2.Controller.fireBound = true →
            (s2.Characters i).WeaponHandlingComponent ≠ none := by
          intro hb
          by_cases hij : i = j
          · subst hij
            rw [t3]; simp
          · rw [t2 i hij]
            rcases t8 hb with q | ⟨q, -⟩
            · exact hB q
            · rcases hA with ⟨a1, -, -⟩ | ⟨a1, -⟩
              · rw [a1] at q; cases q
              · rw [a1] at q
                simp only [Option.some.injEq, AActor.mk.injEq, and_true] at q
                exact absurd q hij
        have hC2 : ∀ k c, (s2.Characters k).WeaponHandlingComponent = some c →
            c.WeaponMeshComponent ≠ none ∧ c.Player = some ⟨k, ActorClass.PlayerCharacter⟩ ∧
            c.Owner = some ⟨k, ActorClass.PlayerCharacter⟩ := by
          intro k c hk
          by_cases hkj : k = j
          · subst hkj
            rw [t3] at hk
            cases hk
            exact ⟨t4, t5, t6⟩
          · rw [t2 k hkj] at hk
            exact hC k c hk
        exact ih s2 s1 hev2 hA2 hB2 hC2 hrun

/-- Extent of the null dereference in the fire handler: it needs a possession
of a second character. In every state reached from construction through
possession events that all possess the one player character `i` and through
pickup-overlap events, if the controller has bound the weapon-fire action
then its cached character is `i`, whose weapon handling component exists and
has a non-null `Player` and a non-null `WeaponMeshComponent`, and the fire
handler dereferences no null reference. -/
theorem fire_bound_implies_equipped (ctl : APlayerCharacterController)
    (chars : Nat → APlayerCharacter) (i : Nat) (evs : List GameEvent) (s : GameState)
    (hev : ∀ a, GameEvent.Possess a ∈ evs → a = some ⟨i, ActorClass.PlayerCharacter⟩)
    (hrun : (GameState.init ctl chars).run evs = some s)
    (hb : s.Controller.fireBound = true) :
    s.Controller.FPSCharacter = some ⟨i, ActorClass.PlayerCharacter⟩ ∧
    (∃ c, (s.Characters i).WeaponHandlingComponent = some c ∧ c.Player ≠ none ∧
      c.WeaponMeshComponent ≠ none) ∧
    ∀ w t0, s.HandleWeapWeaponFireAction w t0 ≠ none := by
  obtain ⟨hA, hB, hC⟩ := game_invariant i evs (GameState.init ctl chars) s hev
    (Or.inl ⟨rfl, rfl, rfl⟩) (fun h => by simp [GameState.init,
      APlayerCharacterController.fireBound] at h)
    (fun j c h => by simp [GameState.init] at h) hrun
  have hF : s.Controller.FPSCharacter = some ⟨i, ActorClass.PlayerCharacter⟩ := by
    rcases hA with ⟨-, -, a3⟩ | ⟨-, a2⟩
    · rw [hb] at a3; cases a3
    · exact a2
  obtain ⟨c, hc⟩ := Option.ne_none_iff_exists'.mp (hB hb)
  obtain ⟨c1, c2, -⟩ := hC i c hc
  refine ⟨hF, ⟨c, hc, by rw [c2]; simp, c1⟩, fun w t0 => ?_⟩
  unfold GameState.HandleWeapWeaponFireAction
  simp only [hF, APlayerCharacter.GetWeaponHandlingComponent, hc,
    UWeaponHandlingComponent.FIreWeapon, c2]
  simp

/-- An instance of `fire_bound_implies_equipped`: the controller possesses
player 1, who then picks up the rifle and the pistol; the fire action is bound
and player 1's component has player 1 as `Player` and the rifle's mesh. -/
theorem fire_bound_implies_equipped_witness :
    ∃ s, newGame.run [GameEvent.Possess (some ⟨1, ActorClass.PlayerCharacter⟩),
        GameEvent.Pickup riflePickup 1, GameEvent.Pickup pistolPickup 1] = some s ∧
      s.Controller.fireBound = true ∧
      s.Controller.FPSCharacter = some ⟨1, ActorClass.PlayerCharacter⟩ ∧
      (∃ c, (s.Characters 1).WeaponHandlingComponent = some c ∧ c.Player ≠ none ∧
        c.WeaponMeshComponent ≠ none) ∧
      s.HandleWeapWeaponFireAction worldHittingNothing ⟨0, 0, 0⟩ ≠ none := by
  obtain ⟨s, hs, hb⟩ : ∃ s, newGame.run [GameEvent.Possess (some ⟨1, ActorClass.PlayerCharacter⟩),
      GameEvent.Pickup riflePickup 1, GameEvent.Pickup pistolPickup 1] = some s ∧
      s.Controller.fireBound = true := ⟨_, rfl, rfl⟩
  have h := fire_bound_implies_equipped (controllerOfPlayer1 (some UInputComponent.Enhanced))
    (fun _ => APlayerCharacter.new none none none ⟨0, 0, 0⟩) 1 _ s
    (by intro a ha; simpa using ha) hs hb
  exact ⟨s, hs, hb, h.1, h.2.1, h.2.2 _ _⟩


/-! ## Binary32 rounding -/

set_option maxRecDepth 4000

theorem excessBits_small (fuel k : Nat) (h : k < 2 ^ 24) : Binary32.excessBits fuel k = 0 := by
  cases fuel with
  | zero => rfl
  | succ f => rw [Binary32.excessBits, if_pos h]

theorem excessBits_bounds (fuel k : Nat) (hf : k ≤ fuel) (hk : 2 ^ 24 ≤ k) :
    2 ^ (Binary32.excessBits fuel k + 23) ≤ k ∧ k < 2 ^ (Binary32.excessBits fuel k + 24) := by
  induction fuel generalizing k with
  | zero =>
    have : 0 < 2 ^ 24 := by positivity
    omega
  | succ f ih =>
    have h1 : (1 : Nat) < 2 ^ 24 := by norm_num
    rw [Binary32.excessBits, if_neg (not_lt.mpr hk)]
    by_cases h2 : k / 2 < 2 ^ 24
    · rw [excessBits_small f _ h2]
      have e1 : (2 : Nat) ^ (0 + 1 + 23) = 2 ^ 24 := by norm_num
      have e2 : (2 : Nat) ^ (0 + 1 + 24) = 2 * 2 ^ 24 := by norm_num
      rw [e1, e2]
      omega
    · obtain ⟨a, b⟩ := ih (k / 2) (by omega) (not_lt.mp h2)
      have e1 : (2 : Nat) ^ (Binary32.excessBits f (k / 2) + 1 + 23)
          = 2 * 2 ^ (Binary32.excessBits f (k / 2) + 23) := by ring
      have e2 : (2 : Nat) ^ (Binary32.excessBits f (k / 2) + 1 + 24)
          = 2 * 2 ^ (Binary32.excessBits f (k / 2) + 24) := by ring
      rw [e1, e2]
      omega

theorem roundNat_cases (k : Nat) :
    Binary32.roundNat k = (k / 2 ^ Binary32.excessBits k k + 1) * 2 ^ Binary32.excessBits k k ∨
    Binary32.roundNat k = k / 2 ^ Binary32.excessBits k k * 2 ^ Binary32.excessBits k k := by
  unfold Binary32.roundNat
  dsimp only
  split
  · exact Or.inl rfl
  · exact Or.inr rfl

theorem roundNat_of_dvd (k : Nat) (h : 2 ^ Binary32.excessBits k k ∣ k) :
    Binary32.roundNat k = k := by
  unfold Binary32.roundNat
  dsimp only
  have hr : k % 2 ^ Binary32.excessBits k k = 0 := Nat.mod_eq_zero_of_dvd h
  have hp : 0 < 2 ^ Binary32.excessBits k k := by positivity
  rw [hr, if_neg (by omega)]
  exact Nat.div_mul_cancel h

theorem dvd_of_roundNat (k : Nat) (h : Binary32.roundNat k = k) :
    2 ^ Binary32.excessBits k k ∣ k := by
  rcases roundNat_cases k with h1 | h1
  · rw [h] at h1
    exact Dvd.intro_left _ h1.symm
  · rw [h] at h1
    exact Dvd.intro_left _ h1.symm

theorem roundNat_floor_le (k : Nat) :
    k / 2 ^ Binary32.excessBits k k * 2 ^ Binary32.excessBits k k ≤ Binary32.roundNat k := by
  rcases roundNat_cases k with h1 | h1
  · rw [h1]
    exact Nat.mul_le_mul_right _ (Nat.le_succ _)
  · rw [h1]

/-- Rounding is monotone against a binary32 magnitude below: a magnitude `n`
that rounding leaves unchanged and that is at most `k` is at most the rounded `k`. -/
theorem roundNat_ge (n k : Nat) (hn : Binary32.roundNat n = n) (hnk : n ≤ k) :
    n ≤ Binary32.roundNat k := by
  by_contra hlt
  have hfl := roundNat_floor_le k
  have hq : k / 2 ^ Binary32.excessBits k k * 2 ^ Binary32.excessBits k k < n := by omega
  have hdn := dvd_of_roundNat n hn
  by_cases hk : k < 2 ^ 24
  · rw [excessBits_small k k hk] at hq
    simp at hq
    omega
  · obtain ⟨kb1, kb2⟩ := excessBits_bounds k k (le_refl _) (not_lt.mp hk)
    have hp : 0 < 2 ^ Binary32.excessBits k k := by positivity
    -- the floor is at least 2^(s+23)
    have hq23 : 2 ^ (Binary32.excessBits k k + 23) ≤
        k / 2 ^ Binary32.excessBits k k * 2 ^ Binary32.excessBits k k := by
      have : 2 ^ 23 ≤ k / 2 ^ Binary32.excessBits k k := by
        rw [Nat.le_div_iff_mul_le hp, ← pow_add, Nat.add_comm]
        exact kb1
      calc 2 ^ (Binary32.excessBits k k + 23)
          = 2 ^ 23 * 2 ^ Binary32.excessBits k k := by rw [pow_add, Nat.mul_comm]
        _ ≤ _ := Nat.mul_le_mul_right _ this
    have hs1 : 1 ≤ Binary32.excessBits k k := by
      by_contra h0
      have h00 : Binary32.excessBits k k = 0 := by omega
      rw [h00] at kb2
      exact hk kb2
    have hn24 : 2 ^ 24 ≤ n := by
      have : (2 : Nat) ^ 24 ≤ 2 ^ (Binary32.excessBits k k + 23) :=
        Nat.pow_le_pow_right (by norm_num) (by omega)
      omega
    obtain ⟨nb1, nb2⟩ := excessBits_bounds n n (le_refl _) hn24
    have hs : Binary32.excessBits n n = Binary32.excessBits k k := by
      have a1 : (2 : Nat) ^ (Binary32.excessBits n n + 23) < 2 ^ (Binary32.excessBits k k + 24) := by
        omega
      have a2 : (2 : Nat) ^ (Binary32.excessBits k k + 23) < 2 ^ (Binary32.excessBits n n + 24) := by
        omega
      have b1 := (Nat.pow_lt_pow_iff_right (by norm_num : 1 < 2)).mp a1
      have b2 := (Nat.pow_lt_pow_iff_right (by norm_num : 1 < 2)).mp a2
      omega
    rw [hs] at hdn
    obtain ⟨m, hm⟩ := hdn
    rw [hm, Nat.mul_comm _ m] at hq
    have hqm : k / 2 ^ Binary32.excessBits k k < m := Nat.lt_of_mul_lt_mul_right hq
    have hmk : m ≤ k / 2 ^ Binary32.excessBits k k := by
      rw [Nat.le_div_iff_mul_le hp, Nat.mul_comm, ← hm]
      exact hnk
    omega

/-- A whole number of at most 24 bits scaled by a power of two is a binary32
magnitude: rounding leaves it unchanged. -/
theorem roundNat_mul_pow (v e : Nat) (hv : v ≤ 2 ^ 24) :
    Binary32.roundNat (v * 2 ^ e) = v * 2 ^ e := by
  apply roundNat_of_dvd
  by_cases hk : v * 2 ^ e < 2 ^ 24
  · rw [excessBits_small _ _ hk]
    simp
  · obtain ⟨kb1, kb2⟩ := excessBits_bounds _ _ (le_refl _) (not_lt.mp hk)
    have hpe : 0 < 2 ^ e := by positivity
    have hle : v * 2 ^ e ≤ 2 ^ (24 + e) := by
      rw [pow_add]
      exact Nat.mul_le_mul_right _ hv
    have hs : Binary32.excessBits (v * 2 ^ e) (v * 2 ^ e) + 23 ≤ 24 + e :=
      (Nat.pow_le_pow_iff_right (by norm_num : 1 < 2)).mp (le_trans kb1 hle)
    by_cases hse : Binary32.excessBits (v * 2 ^ e) (v * 2 ^ e) ≤ e
    · exact Dvd.dvd.mul_left (pow_dvd_pow 2 hse) v
    · have hs1 : Binary32.excessBits (v * 2 ^ e) (v * 2 ^ e) = e + 1 := by omega
      rw [hs1] at kb1 ⊢
      have hv24 : 2 ^ 24 ≤ v := by
        have : 2 ^ 24 * 2 ^ e ≤ v * 2 ^ e := by
          rw [← pow_add]
          have : e + 1 + 23 = 24 + e := by omega
          rw [this] at kb1
          exact kb1
        exact Nat.le_of_mul_le_mul_right this hpe
      have hveq : v = 2 ^ 24 := le_antisymm hv hv24
      rw [hveq, ← pow_add]
      exact pow_dvd_pow 2 (by omega)

/-! ## Binary32 subtraction and the health update -/

theorem round_of_exact (z : Int) (h1 : Binary32.roundNat z.natAbs = z.natAbs)
    (h2 : z.natAbs < 2 ^ 128 * 2 ^ 149) : Binary32.round z = Binary32.fin z := by
  unfold Binary32.round
  rw [h1, if_neg (not_le.mpr h2)]
  split
  · rw [Int.ofNat_natAbs_of_nonpos (by omega), neg_neg]
  · rw [Int.natAbs_of_nonneg (by omega)]

theorem scaled_lt_overflow (v e : Nat) (hv : v ≤ 2 ^ 24) (he : e ≤ 252) :
    v * 2 ^ e < 2 ^ 128 * 2 ^ 149 := by
  have h3 : (2 : Nat) ^ e ≤ 2 ^ 103 * 2 ^ 149 := by
    rw [← pow_add]
    exact Nat.pow_le_pow_right (by norm_num) he
  have h4 : (2 : Nat) ^ 24 * (2 ^ 103 * 2 ^ 149) < 2 ^ 128 * 2 ^ 149 := by
    rw [← Nat.mul_assoc]
    exact Nat.mul_lt_mul_of_pos_right (by norm_num) (by positivity)
  exact lt_of_le_of_lt (Nat.mul_le_mul hv h3) h4

theorem round_scaled (z : Int) (e : Nat) (hz : z.natAbs ≤ 2 ^ 24) (he : e ≤ 252) :
    Binary32.round (z * 2 ^ e) = Binary32.fin (z * 2 ^ e) := by
  have hn : (z * 2 ^ e).natAbs = z.natAbs * 2 ^ e := by
    rw [Int.natAbs_mul, Int.natAbs_pow]
    rfl
  apply round_of_exact
  · rw [hn]
    exact roundNat_mul_pow _ _ hz
  · rw [hn]
    exact scaled_lt_overflow _ e hz he

theorem ofNat_of_le (v : Nat) (hv : v ≤ 2 ^ 24) :
    Binary32.ofNat v = Binary32.fin ((v : Int) * 2 ^ 149) := by
  unfold Binary32.ofNat
  exact round_scaled _ 149 (by simpa using hv) (by norm_num)

/-- A whole number of at most 24 bits scaled by a power of two `2^e` with
`e ≤ 252`, that is by one of `2^-149, ..., 2^103`, is a binary32 value. -/
theorem isValue_scaled (v e : Nat) (hv : v ≤ 2 ^ 24) (he : e ≤ 252) :
    (Binary32.fin ((v : Int) * 2 ^ e)).isValue = true := by
  have hn : ((v : Int) * 2 ^ e).natAbs = v * 2 ^ e := by
    rw [Int.natAbs_mul, Int.natAbs_pow]
    rfl
  simp only [Binary32.isValue, Bool.and_eq_true, decide_eq_true_eq, hn]
  exact ⟨roundNat_mul_pow _ _ hv, scaled_lt_overflow v e hv he⟩

theorem APlayerCharacter_TakeDamage32_eq (h d : Binary32) :
    APlayerCharacter.TakeDamage32 h d = AEnemy.TakeDamage32 h d := rfl

theorem APlayerCharacter_TakeDamages32_eq (h : Binary32) (ds : List Binary32) :
    APlayerCharacter.TakeDamages32 h ds = AEnemy.TakeDamages32 h ds := rfl

theorem AEnemy_TakeDamages32_cons (h d : Binary32) (ds : List Binary32) :
    AEnemy.TakeDamages32 h (d :: ds) = AEnemy.TakeDamages32 (AEnemy.TakeDamage32 h d).1 ds := rfl

/-- One call leaves a health that is `≥ 0` as soon as the difference
`Health - DamageAmount` is not NaN. -/
theorem AEnemy_TakeDamage32_nonneg (h d : Binary32) (hs : h.sub d ≠ Binary32.nan) :
    (Binary32.fin 0).le (AEnemy.TakeDamage32 h d).1 = true := by
  unfold AEnemy.TakeDamage32
  split
  · rfl
  · rename_i hle
    cases hv : h.sub d with
    | nan => exact absurd hv hs
    | pinf => rfl
    | ninf => rw [hv] at hle; exact absurd rfl hle
    | fin x =>
      rw [hv] at hle
      simp only [Binary32.le, decide_eq_true_eq] at hle ⊢
      omega

theorem sub_ne_nan (h d : Binary32) (h0 : (Binary32.fin 0).le h = true)
    (hd1 : d ≠ Binary32.nan) (hd2 : d ≠ Binary32.pinf) : h.sub d ≠ Binary32.nan := by
  cases h with
  | nan => cases h0
  | ninf => cases h0
  | pinf =>
    cases d with
    | nan => exact absurd rfl hd1
    | pinf => exact absurd rfl hd2
    | ninf => simp [Binary32.sub]
    | fin b => simp [Binary32.sub]
  | fin a =>
    cases d with
    | nan => exact absurd rfl hd1
    | pinf => exact absurd rfl hd2
    | ninf => simp [Binary32.sub]
    | fin b =>
      simp only [Binary32.sub, Binary32.round]
      split
      · split <;> simp
      · split <;> simp

theorem AEnemy_TakeDamages32_nonneg (ds : List Binary32) :
    ∀ h : Binary32, (Binary32.fin 0).le h = true →
      (∀ d ∈ ds, d ≠ Binary32.nan ∧ d ≠ Binary32.pinf) →
      (Binary32.fin 0).le (AEnemy.TakeDamages32 h ds) = true := by
  induction ds with
  | nil => intro h h0 _; exact h0
  | cons d ds ih =>
    intro h h0 hd
    rw [AEnemy_TakeDamages32_cons]
    have hd0 := hd d (List.mem_cons_self d ds)
    exact ih _ (AEnemy_TakeDamage32_nonneg h d (sub_ne_nan h d h0 hd0.1 hd0.2))
      (fun x hx => hd x (List.mem_cons_of_mem d hx))

/-- The difference of a positive binary32 health and a negative amount is at
least the health and is positive. -/
theorem sub_negative_ge (h d : Binary32) (hv : h.isValue = true)
    (h0 : (Binary32.fin 0).lt h = true) (hd : d.lt (Binary32.fin 0) = true) :
    h.le (h.sub d) = true ∧ (h.sub d).le (Binary32.fin 0) = false := by
  cases h with
  | nan => cases h0
  | ninf => cases h0
  | pinf =>
    cases d with
    | nan => cases hd
    | pinf => cases hd
    | ninf => exact ⟨rfl, rfl⟩
    | fin b => exact ⟨rfl, rfl⟩
  | fin a =>
    cases d with
    | nan => cases hd
    | pinf => cases hd
    | ninf => exact ⟨rfl, rfl⟩
    | fin b =>
      simp only [Binary32.lt, decide_eq_true_eq] at h0 hd
      simp only [Binary32.isValue, Bool.and_eq_true, decide_eq_true_eq] at hv
      have hge : a.natAbs ≤ Binary32.roundNat (a - b).natAbs :=
        roundNat_ge _ _ hv.1 (by omega)
      have hpos : ¬ (a - b < 0) := by omega
      simp only [Binary32.sub, Binary32.round, if_neg hpos]
      split
      · exact ⟨rfl, rfl⟩
      · simp only [Binary32.le, decide_eq_true_eq, decide_eq_false_iff_not]
        omega

/-! ## Health and damage on a common binary scale -/

theorem AEnemy_TakeDamage32_scaled (a D e : Nat) (ha : a ≤ 2 ^ 24) (hD : D ≤ 2 ^ 24)
    (he : e ≤ 252) :
    AEnemy.TakeDamage32 (Binary32.fin ((a : Int) * 2 ^ e)) (Binary32.fin ((D : Int) * 2 ^ e))
      = if a ≤ D then (Binary32.fin 0, true)
        else (Binary32.fin (((a - D : Nat) : Int) * 2 ^ e), false) := by
  have hs : (Binary32.fin ((a : Int) * 2 ^ e)).sub (Binary32.fin ((D : Int) * 2 ^ e))
      = Binary32.fin (((a : Int) - D) * 2 ^ e) := by
    simp only [Binary32.sub]
    rw [← sub_mul]
    exact round_scaled _ e (by omega) he
  unfold AEnemy.TakeDamage32
  rw [hs]
  have hp : (0 : Int) < 2 ^ e := by positivity
  by_cases h : a ≤ D
  · rw [if_pos h, if_pos]
    simp only [Binary32.le, decide_eq_true_eq]
    exact mul_nonpos_of_nonpos_of_nonneg (by omega) (le_of_lt hp)
  · rw [if_neg h, if_neg]
    · rw [Nat.cast_sub (by omega)]
    · simp only [Binary32.le, decide_eq_true_eq, not_le]
      exact mul_pos (by omega) hp

theorem AEnemy_TakeDamages32_replicate (D e : Nat) (hD : D ≤ 2 ^ 24) (he : e ≤ 252) (n : Nat) :
    ∀ a : Nat, a ≤ 2 ^ 24 →
      AEnemy.TakeDamages32 (Binary32.fin ((a : Int) * 2 ^ e))
          (List.replicate n (Binary32.fin ((D : Int) * 2 ^ e)))
        = Binary32.fin (((a - n * D : Nat) : Int) * 2 ^ e) := by
  induction n with
  | zero => intro a _; simp [AEnemy.TakeDamages32]
  | succ n ih =>
    intro a ha
    rw [List.replicate_succ, AEnemy_TakeDamages32_cons, AEnemy_TakeDamage32_scaled a D e ha hD he]
    by_cases h : a ≤ D
    · rw [if_pos h]
      have h0 : Binary32.fin 0 = Binary32.fin (((0 : Nat) : Int) * 2 ^ e) := by simp
      have h1 : a - (n + 1) * D = 0 := by
        rw [Nat.succ_mul]
        omega
      rw [h0, ih 0 (Nat.zero_le _), h1, Nat.zero_sub]
    · rw [if_neg h]
      have h1 : a - D - n * D = a - (n + 1) * D := by
        rw [Nat.succ_mul]
        omega
      rw [ih (a - D) (by omega), h1]

theorem whole_sub_eq_max (H n D : Nat) :
    (((H - n * D : Nat) : Int)) = max 0 ((H : Int) - n * D) := by
  rcases le_total (n * D) H with h | h
  · rw [Nat.cast_sub h, max_eq_right]
    · push_cast; rfl
    · have : ((n * D : Nat) : Int) ≤ H := by exact_mod_cast h
      push_cast at this
      omega
  · rw [Nat.sub_eq_zero_of_le h, max_eq_left]
    · rfl
    · have : ((H : Nat) : Int) ≤ ((n * D : Nat) : Int) := by exact_mod_cast h
      push_cast at this
      omega

theorem death_call_whole (H D : Nat) (hH : 0 < H) (hD : 0 < D) :
    (∀ k : Nat, k + 1 < ⌈(H : ℚ) / D⌉₊ → ¬ (H - k * D ≤ D)) ∧
    H - (⌈(H : ℚ) / D⌉₊ - 1) * D ≤ D := by
  have hDq : (0 : ℚ) < D := by exact_mod_cast hD
  have hHq : (0 : ℚ) < H := by exact_mod_cast hH
  constructor
  · intro k hk
    have h1 : ((k + 1 : ℕ) : ℚ) < (H : ℚ) / D := Nat.lt_ceil.mp hk
    rw [lt_div_iff₀ hDq] at h1
    have h2 : (k + 1) * D < H := by exact_mod_cast h1
    rw [Nat.succ_mul] at h2
    omega
  · have hpos : 0 < ⌈(H : ℚ) / D⌉₊ := Nat.ceil_pos.mpr (div_pos hHq hDq)
    have h1 : (H : ℚ) / D ≤ (⌈(H : ℚ) / D⌉₊ : ℚ) := Nat.le_ceil _
    rw [div_le_iff₀ hDq] at h1
    have h2 : H ≤ ⌈(H : ℚ) / D⌉₊ * D := by exact_mod_cast h1
    obtain ⟨c, hc⟩ : ∃ c, ⌈(H : ℚ) / D⌉₊ = c + 1 := ⟨_, (Nat.succ_pred_eq_of_pos hpos).symm⟩
    rw [hc] at h2 ⊢
    rw [Nat.succ_mul] at h2
    rw [Nat.add_sub_cancel]
    omega

theorem AEnemy_repeated_hits_scaled (H D e : Nat) (hH : 0 < H) (hH24 : H ≤ 2 ^ 24) (hD : 0 < D)
    (hD24 : D ≤ 2 ^ 24) (he : e ≤ 252) :
    (∀ n : Nat,
      AEnemy.TakeDamages32 (Binary32.fin ((H : Int) * 2 ^ e))
          (List.replicate n (Binary32.fin ((D : Int) * 2 ^ e)))
        = Binary32.fin (max 0 ((H : Int) - n * D) * 2 ^ e)) ∧
    (∀ k : Nat, k + 1 < ⌈(H : ℚ) / D⌉₊ →
      (AEnemy.TakeDamage32
        (AEnemy.TakeDamages32 (Binary32.fin ((H : Int) * 2 ^ e))
          (List.replicate k (Binary32.fin ((D : Int) * 2 ^ e))))
        (Binary32.fin ((D : Int) * 2 ^ e))).2 = false) ∧
    (AEnemy.TakeDamage32
      (AEnemy.TakeDamages32 (Binary32.fin ((H : Int) * 2 ^ e))
        (List.replicate (⌈(H : ℚ) / D⌉₊ - 1) (Binary32.fin ((D : Int) * 2 ^ e))))
      (Binary32.fin ((D : Int) * 2 ^ e))).2 = true := by
  obtain ⟨a1, a2⟩ := death_call_whole H D hH hD
  refine ⟨fun n => ?_, fun k hk => ?_, ?_⟩
  · rw [AEnemy_TakeDamages32_replicate D e hD24 he n H hH24, whole_sub_eq_max]
  · rw [AEnemy_TakeDamages32_replicate D e hD24 he k H hH24,
      AEnemy_TakeDamage32_scaled _ D e (le_trans (Nat.sub_le _ _) hH24) hD24 he,
      if_neg (a1 k hk)]
  · rw [AEnemy_TakeDamages32_replicate D e hD24 he _ H hH24,
      AEnemy_TakeDamage32_scaled _ D e (le_trans (Nat.sub_le _ _) hH24) hD24 he, if_pos a2]

/-! ## Health under binary32 arithmetic (C3, C21, C28) -/

/-- Counterexample to C3 as stated: on the constructed enemy (health 500) and
the constructed player (health 25000) one `TakeDamage` call with a NaN amount,
and likewise a call with the amount `-infinity` followed by a call with the
amount `+infinity`, leave `Health` NaN, for which `Health >= 0` is false. -/
theorem Health_nan_after_TakeDamage :
    (Binary32.fin 0).le (Binary32.ofNat 500) = true ∧
    (Binary32.fin 0).le (Binary32.ofNat 25000) = true ∧
    AEnemy.TakeDamages32 (Binary32.ofNat 500) [Binary32.nan] = Binary32.nan ∧
    APlayerCharacter.TakeDamages32 (Binary32.ofNat 25000) [Binary32.nan] = Binary32.nan ∧
    AEnemy.TakeDamages32 (Binary32.ofNat 500) [Binary32.ninf, Binary32.pinf] = Binary32.nan ∧
    APlayerCharacter.TakeDamages32 (Binary32.ofNat 25000) [Binary32.ninf, Binary32.pinf]
      = Binary32.nan ∧
    (Binary32.fin 0).le Binary32.nan = false := by
  decide

/-- C3 (amended): from a health `≥ 0`, after every finite sequence of
`TakeDamage` calls whose amounts are neither NaN nor `+infinity` (positive,
zero, negative or `-infinity`), `Health ≥ 0`, for the enemy and for the
player. -/
theorem Health_nonneg_binary32 (he hp : Binary32) (ds : List Binary32)
    (he0 : (Binary32.fin 0).le he = true) (hp0 : (Binary32.fin 0).le hp = true)
    (hd : ∀ d ∈ ds, d ≠ Binary32.nan ∧ d ≠ Binary32.pinf) :
    (Binary32.fin 0).le (AEnemy.TakeDamages32 he ds) = true ∧
    (Binary32.fin 0).le (APlayerCharacter.TakeDamages32 hp ds) = true :=
  ⟨AEnemy_TakeDamages32_nonneg ds he he0 hd,
    (APlayerCharacter_TakeDamages32_eq hp ds) ▸ AEnemy_TakeDamages32_nonneg ds hp hp0 hd⟩

/-- Witness for C3 (amended): the constructed enemy (500) and player (25000)
under the amounts 100, -50, 0, `-infinity`, 999999. -/
theorem Health_nonneg_binary32_witness :
    (Binary32.fin 0).le (AEnemy.TakeDamages32 (Binary32.ofNat 500)
      [Binary32.ofNat 100, Binary32.fin (-(50 * 2 ^ 149)), Binary32.fin 0, Binary32.ninf,
        Binary32.ofNat 999999]) = true ∧
    (Binary32.fin 0).le (APlayerCharacter.TakeDamages32 (Binary32.ofNat 25000)
      [Binary32.ofNat 100, Binary32.fin (-(50 * 2 ^ 149)), Binary32.fin 0, Binary32.ninf,
        Binary32.ofNat 999999]) = true :=
  Health_nonneg_binary32 (Binary32.ofNat 500) (Binary32.ofNat 25000)
    [Binary32.ofNat 100, Binary32.fin (-(50 * 2 ^ 149)), Binary32.fin 0, Binary32.ninf,
      Binary32.ofNat 999999]
    (by decide) (by decide) (by decide)

/-- Counterexample to C21 as stated: the negative binary32 amount nearest to
`-0.00001` (`-10995116 * 2^-40`) leaves the constructed enemy at exactly 500,
and the one nearest to `-0.0001` (`-13743895 * 2^-37`) leaves the constructed
player at exactly 25000: `Health` is not strictly greater than before. -/
theorem TakeDamage_negative_absorbed :
    (Binary32.fin (-(10995116 * 2 ^ 109))).isValue = true ∧
    (Binary32.fin (-(10995116 * 2 ^ 109))).lt (Binary32.fin 0) = true ∧
    (Binary32.fin 0).lt (Binary32.ofNat 500) = true ∧
    AEnemy.TakeDamage32 (Binary32.ofNat 500) (Binary32.fin (-(10995116 * 2 ^ 109)))
      = (Binary32.ofNat 500, false) ∧
    (Binary32.ofNat 500).lt
      (AEnemy.TakeDamage32 (Binary32.ofNat 500) (Binary32.fin (-(10995116 * 2 ^ 109)))).1
      = false ∧
    (Binary32.fin (-(13743895 * 2 ^ 112))).isValue = true ∧
    (Binary32.fin (-(13743895 * 2 ^ 112))).lt (Binary32.fin 0) = true ∧
    (Binary32.fin 0).lt (Binary32.ofNat 25000) = true ∧
    APlayerCharacter.TakeDamage32 (Binary32.ofNat 25000) (Binary32.fin (-(13743895 * 2 ^ 112)))
      = (Binary32.ofNat 25000, false) ∧
    (Binary32.ofNat 25000).lt
      (APlayerCharacter.TakeDamage32 (Binary32.ofNat 25000)
        (Binary32.fin (-(13743895 * 2 ^ 112)))).1 = false := by
  decide

/-- C21 (amended): for a binary32 health `h > 0` and an amount `d < 0`,
`TakeDamage(d)` of the enemy and of the player does not enter `Death()` and
leaves `Health` equal to the binary32 difference `h - d`, which is at least
`h`; when the exact difference is itself a binary32 value, `Health` is that
exact difference and is strictly greater than `h`. -/
theorem TakeDamage_negative_binary32 (h d : Binary32) (hv : h.isValue = true)
    (h0 : (Binary32.fin 0).lt h = true) (hd : d.lt (Binary32.fin 0) = true) :
    ((AEnemy.TakeDamage32 h d).2 = false ∧
      (AEnemy.TakeDamage32 h d).1 = h.sub d ∧
      h.le (AEnemy.TakeDamage32 h d).1 = true ∧
      (∀ a b, h = Binary32.fin a → d = Binary32.fin b →
        (Binary32.fin (a - b)).isValue = true →
        (AEnemy.TakeDamage32 h d).1 = Binary32.fin (a - b) ∧
        h.lt (AEnemy.TakeDamage32 h d).1 = true)) ∧
    ((APlayerCharacter.TakeDamage32 h d).2 = false ∧
      (APlayerCharacter.TakeDamage32 h d).1 = h.sub d ∧
      h.le (APlayerCharacter.TakeDamage32 h d).1 = true ∧
      (∀ a b, h = Binary32.fin a → d = Binary32.fin b →
        (Binary32.fin (a - b)).isValue = true →
        (APlayerCharacter.TakeDamage32 h d).1 = Binary32.fin (a - b) ∧
        h.lt (APlayerCharacter.TakeDamage32 h d).1 = true)) := by
  obtain ⟨g1, g2⟩ := sub_negative_ge h d hv h0 hd
  have key : (AEnemy.TakeDamage32 h d).2 = false ∧
      (AEnemy.TakeDamage32 h d).1 = h.sub d ∧
      h.le (AEnemy.TakeDamage32 h d).1 = true ∧
      (∀ a b, h = Binary32.fin a → d = Binary32.fin b →
        (Binary32.fin (a - b)).isValue = true →
        (AEnemy.TakeDamage32 h d).1 = Binary32.fin (a - b) ∧
        h.lt (AEnemy.TakeDamage32 h d).1 = true) := by
    have hT : AEnemy.TakeDamage32 h d = (h.sub d, false) := by
      unfold AEnemy.TakeDamage32
      rw [g2]
      rfl
    rw [hT]
    refine ⟨rfl, rfl, g1, ?_⟩
    intro a b ha hb hab
    subst ha
    subst hb
    simp only [Binary32.isValue, Bool.and_eq_true, decide_eq_true_eq] at hab
    simp only [Binary32.lt, decide_eq_true_eq] at h0 hd
    have hr : (Binary32.fin a).sub (Binary32.fin b) = Binary32.fin (a - b) := by
      simp only [Binary32.sub]
      exact round_of_exact _ hab.1 hab.2
    rw [hr]
    refine ⟨rfl, ?_⟩
    simp only [Binary32.lt, decide_eq_true_eq]
    omega
  exact ⟨key, key⟩

/-- Witness for C21 (amended): the constructed enemy (500) and player (25000)
under the amount -100 end at 600 and 25100. -/
theorem TakeDamage_negative_binary32_witness :
    AEnemy.TakeDamage32 (Binary32.ofNat 500) (Binary32.fin (-(100 * 2 ^ 149)))
      = (Binary32.ofNat 600, false) ∧
    APlayerCharacter.TakeDamage32 (Binary32.ofNat 25000) (Binary32.fin (-(100 * 2 ^ 149)))
      = (Binary32.ofNat 25100, false) := by
  have h1 := TakeDamage_negative_binary32 (Binary32.ofNat 500)
    (Binary32.fin (-(100 * 2 ^ 149))) (by decide) (by decide) (by decide)
  have h2 := TakeDamage_negative_binary32 (Binary32.ofNat 25000)
    (Binary32.fin (-(100 * 2 ^ 149))) (by decide) (by decide) (by decide)
  refine ⟨Prod.ext ?_ h1.1.1, Prod.ext ?_ h2.2.1⟩
  · rw [(h1.1.2.2.2 (500 * 2 ^ 149) (-(100 * 2 ^ 149)) (by decide) rfl (by decide)).1]
    decide
  · rw [(h2.2.2.2.2 (25000 * 2 ^ 149) (-(100 * 2 ^ 149)) (by decide) rfl (by decide)).1]
    decide

/-- Counterexample to C28 as stated: at health `2^25 = 33554432` a hit of 1
leaves `Health` at `2^25` (not `2^25 - 1`) without `Death()`, and so do three
such hits. At health `33554436` with damage `8388609` (a quarter of it, so
`h - 4 * d = 0` and `⌈h / d⌉ = 4`) the health after the four hits is
`25165828, 16777220, 8388611, 2` instead of `25165827, 16777218, 8388609, 0`;
hit 4 does not enter `Death()` and hit 5 does. -/
theorem repeated_hits_rounding :
    AEnemy.TakeDamage32 (Binary32.ofNat (2 ^ 25)) (Binary32.ofNat 1)
      = (Binary32.ofNat (2 ^ 25), false) ∧
    AEnemy.TakeDamages32 (Binary32.ofNat (2 ^ 25)) (List.replicate 3 (Binary32.ofNat 1))
      = Binary32.ofNat (2 ^ 25) ∧
    APlayerCharacter.TakeDamages32 (Binary32.ofNat (2 ^ 25)) (List.replicate 3 (Binary32.ofNat 1))
      = Binary32.ofNat (2 ^ 25) ∧
    Binary32.ofNat (2 ^ 25) = Binary32.fin (2 ^ 25 * 2 ^ 149) ∧
    Binary32.ofNat 33554436 = Binary32.fin (33554436 * 2 ^ 149) ∧
    Binary32.ofNat 8388609 = Binary32.fin (8388609 * 2 ^ 149) ∧
    ⌈(33554436 : ℚ) / 8388609⌉₊ = 4 ∧
    AEnemy.TakeDamages32 (Binary32.ofNat 33554436) (List.replicate 1 (Binary32.ofNat 8388609))
      = Binary32.fin (25165828 * 2 ^ 149) ∧
    AEnemy.TakeDamages32 (Binary32.ofNat 33554436) (List.replicate 2 (Binary32.ofNat 8388609))
      = Binary32.fin (16777220 * 2 ^ 149) ∧
    AEnemy.TakeDamages32 (Binary32.ofNat 33554436) (List.replicate 3 (Binary32.ofNat 8388609))
      = Binary32.fin (8388611 * 2 ^ 149) ∧
    AEnemy.TakeDamages32 (Binary32.ofNat 33554436) (List.replicate 4 (Binary32.ofNat 8388609))
      = Binary32.fin (2 * 2 ^ 149) ∧
    (AEnemy.TakeDamage32
      (AEnemy.TakeDamages32 (Binary32.ofNat 33554436)
        (List.replicate 3 (Binary32.ofNat 8388609)))
      (Binary32.ofNat 8388609)).2 = false ∧
    (AEnemy.TakeDamage32
      (AEnemy.TakeDamages32 (Binary32.ofNat 33554436)
        (List.replicate 4 (Binary32.ofNat 8388609)))
      (Binary32.ofNat 8388609)).2 = true ∧
    (APlayerCharacter.TakeDamage32
      (APlayerCharacter.TakeDamages32 (Binary32.ofNat 33554436)
        (List.replicate 3 (Binary32.ofNat 8388609)))
      (Binary32.ofNat 8388609)).2 = false ∧
    (APlayerCharacter.TakeDamage32
      (APlayerCharacter.TakeDamages32 (Binary32.ofNat 33554436)
        (List.replicate 4 (Binary32.ofNat 8388609)))
      (Binary32.ofNat 8388609)).2 = true := by
  have hc : ⌈(33554436 : ℚ) / 8388609⌉₊ = 4 := by
    rw [Nat.ceil_eq_iff (by norm_num)]
    constructor <;> norm_num
  refine ⟨by decide, by decide, by decide, by decide, by decide, by decide, hc, by decide,
    by decide, by decide, by decide, by decide, by decide, by decide, by decide⟩

/-- C28 (amended): for a health `h = H * u` and a damage `d = D * u` that are
whole multiples, with `0 < H ≤ 2^24` and `0 < D ≤ 2^24`, of one power of two
`u = 2^(e - 149)` between `2^-149` and `2^103` (whole numbers up to `2^24` are
the case `e = 149`), every difference is exact in binary32: after `n`
successive `TakeDamage(d)` calls `Health` is `max 0 (h - n * d)`; `Death()` is
entered by call number `⌈h / d⌉` and by no earlier call; for the enemy and
for the player. The values `h` and `d` are binary32 values, and for whole
numbers `v ≤ 2^24` the `float` of `v` is `fin (v * 2^149)`. -/
theorem repeated_hits_exact (H D e : Nat) (hH : 0 < H) (hH24 : H ≤ 2 ^ 24) (hD : 0 < D)
    (hD24 : D ≤ 2 ^ 24) (he : e ≤ 252) :
    ((∀ n : Nat,
        AEnemy.TakeDamages32 (Binary32.fin ((H : Int) * 2 ^ e))
            (List.replicate n (Binary32.fin ((D : Int) * 2 ^ e)))
          = Binary32.fin (max 0 ((H : Int) - n * D) * 2 ^ e)) ∧
      (∀ k : Nat, k + 1 < ⌈(H : ℚ) / D⌉₊ →
        (AEnemy.TakeDamage32
          (AEnemy.TakeDamages32 (Binary32.fin ((H : Int) * 2 ^ e))
            (List.replicate k (Binary32.fin ((D : Int) * 2 ^ e))))
          (Binary32.fin ((D : Int) * 2 ^ e))).2 = false) ∧
      (AEnemy.TakeDamage32
        (AEnemy.TakeDamages32 (Binary32.fin ((H : Int) * 2 ^ e))
          (List.replicate (⌈(H : ℚ) / D⌉₊ - 1) (Binary32.fin ((D : Int) * 2 ^ e))))
        (Binary32.fin ((D : Int) * 2 ^ e))).2 = true) ∧
    ((∀ n : Nat,
        APlayerCharacter.TakeDamages32 (Binary32.fin ((H : Int) * 2 ^ e))
            (List.replicate n (Binary32.fin ((D : Int) * 2 ^ e)))
          = Binary32.fin (max 0 ((H : Int) - n * D) * 2 ^ e)) ∧
      (∀ k : Nat, k + 1 < ⌈(H : ℚ) / D⌉₊ →
        (APlayerCharacter.TakeDamage32
          (APlayerCharacter.TakeDamages32 (Binary32.fin ((H : Int) * 2 ^ e))
            (List.replicate k (Binary32.fin ((D : Int) * 2 ^ e))))
          (Binary32.fin ((D : Int) * 2 ^ e))).2 = false) ∧
      (APlayerCharacter.TakeDamage32
        (APlayerCharacter.TakeDamages32 (Binary32.fin ((H : Int) * 2 ^ e))
          (List.replicate (⌈(H : ℚ) / D⌉₊ - 1) (Binary32.fin ((D : Int) * 2 ^ e))))
        (Binary32.fin ((D : Int) * 2 ^ e))).2 = true) ∧
    ((Binary32.fin ((H : Int) * 2 ^ e)).isValue = true ∧
      (Binary32.fin ((D : Int) * 2 ^ e)).isValue = true ∧
      Binary32.ofNat H = Binary32.fin ((H : Int) * 2 ^ 149) ∧
      Binary32.ofNat D = Binary32.fin ((D : Int) * 2 ^ 149)) :=
  ⟨AEnemy_repeated_hits_scaled H D e hH hH24 hD hD24 he,
    AEnemy_repeated_hits_scaled H D e hH hH24 hD hD24 he,
    isValue_scaled H e hH24 he, isValue_scaled D e hD24 he, ofNat_of_le H hH24,
    ofNat_of_le D hD24⟩

/-- Witness for C28 (amended): the constructed player (25000) hit for 1500 each
time has health 1000 after the 16th hit, does not die on the 16th hit and dies
on the 17th, and `⌈25000 / 1500⌉ = 17`. -/
theorem repeated_hits_exact_witness :
    ⌈(25000 : ℚ) / 1500⌉₊ = 17 ∧
    APlayerCharacter.TakeDamages32 (Binary32.ofNat 25000)
        (List.replicate 16 (Binary32.ofNat 1500)) = Binary32.ofNat 1000 ∧
    (APlayerCharacter.TakeDamage32
      (APlayerCharacter.TakeDamages32 (Binary32.ofNat 25000)
        (List.replicate 15 (Binary32.ofNat 1500)))
      (Binary32.ofNat 1500)).2 = false ∧
    (APlayerCharacter.TakeDamage32
      (APlayerCharacter.TakeDamages32 (Binary32.ofNat 25000)
        (List.replicate 16 (Binary32.ofNat 1500)))
      (Binary32.ofNat 1500)).2 = true := by
  have hc : ⌈((25000 : ℕ) : ℚ) / (1500 : ℕ)⌉₊ = 17 := by
    rw [Nat.ceil_eq_iff (by norm_num)]
    constructor <;> norm_num
  obtain ⟨-, ⟨w1, w2, w3⟩, -, -, v1, v2⟩ := repeated_hits_exact 25000 1500 149 (by norm_num)
    (by norm_num) (by norm_num) (by norm_num) (by norm_num)
  rw [hc] at w2 w3
  rw [← v1, ← v2] at w1 w2 w3
  refine ⟨by exact_mod_cast hc, ?_, w2 15 (by norm_num), w3⟩
  rw [w1 16]
  decide

/-! ## Agreement of the exact and the binary32 health update -/

/-- When the health and the amount are finite and their exact difference is a
binary32 value, the binary32 health update gives the `Health` and the entry
into `Death()` of the exact-arithmetic models of `AEnemy::TakeDamage` and
`APlayerCharacter::TakeDamage`. -/
theorem TakeDamage32_agrees_when_exact (e : AEnemy) (p : APlayerCharacter) (a b : Int)
    (he : e.Health = (a : ℚ) / 2 ^ 149) (hp : p.Health = (a : ℚ) / 2 ^ 149)
    (hex : (Binary32.fin (a - b)).isValue = true) :
    ((AEnemy.TakeDamage32 (Binary32.fin a) (Binary32.fin b)).1.toRat
        = some (AEnemy.TakeDamage e ((b : ℚ) / 2 ^ 149)).state.Health ∧
      ((AEnemy.TakeDamage32 (Binary32.fin a) (Binary32.fin b)).2 = true ↔
        (AEnemy.TakeDamage e ((b : ℚ) / 2 ^ 149)).events.count Event.Death = 1)) ∧
    ((APlayerCharacter.TakeDamage32 (Binary32.fin a) (Binary32.fin b)).1.toRat
        = some (APlayerCharacter.TakeDamage p ((b : ℚ) / 2 ^ 149)).state.Health ∧
      ((APlayerCharacter.TakeDamage32 (Binary32.fin a) (Binary32.fin b)).2 = true ↔
        (APlayerCharacter.TakeDamage p ((b : ℚ) / 2 ^ 149)).events.count Event.Death = 1)) := by
  simp only [Binary32.isValue, Bool.and_eq_true, decide_eq_true_eq] at hex
  have hr : (Binary32.fin a).sub (Binary32.fin b) = Binary32.fin (a - b) := by
    simp only [Binary32.sub]
    exact round_of_exact _ hex.1 hex.2
  have hq : ∀ h : ℚ, h = (a : ℚ) / 2 ^ 149 →
      (h - (b : ℚ) / 2 ^ 149 ≤ 0 ↔ a - b ≤ 0) := by
    intro h hh
    have hpos : (0 : ℚ) < 2 ^ 149 := by positivity
    rw [hh, ← sub_div, div_le_iff₀ hpos, zero_mul]
    exact_mod_cast Iff.rfl
  have hT : AEnemy.TakeDamage32 (Binary32.fin a) (Binary32.fin b)
      = if a - b ≤ 0 then (Binary32.fin 0, true) else (Binary32.fin (a - b), false) := by
    unfold AEnemy.TakeDamage32
    rw [hr]
    by_cases h : a - b ≤ 0
    · rw [if_pos h, if_pos (by simpa [Binary32.le] using h)]
    · rw [if_neg h, if_neg (by simpa [Binary32.le] using h)]
  rw [APlayerCharacter_TakeDamage32_eq, hT, AEnemy_TakeDamage_Health,
    APlayerCharacter_TakeDamage_Health]
  have cE : (AEnemy.TakeDamage e ((b : ℚ) / 2 ^ 149)).events.count Event.Death
      = if e.Health - (b : ℚ) / 2 ^ 149 ≤ 0 then 1 else 0 := by
    unfold AEnemy.TakeDamage
    split
    · simp [AEnemy_Death_count]
    · simp
  have cP : (APlayerCharacter.TakeDamage p ((b : ℚ) / 2 ^ 149)).events.count Event.Death
      = if p.Health - (b : ℚ) / 2 ^ 149 ≤ 0 then 1 else 0 := by
    unfold APlayerCharacter.TakeDamage
    split
    · simp [APlayerCharacter_Death_count]
    · cases p.ImpactSound <;> simp
  rw [cE, cP]
  by_cases h : a - b ≤ 0
  · have hE := (hq _ he).mpr h
    have hP := (hq _ hp).mpr h
    simp only [if_pos h, if_pos hE, if_pos hP, Binary32.toRat]
    simp
  · have hE : ¬ (e.Health - (b : ℚ) / 2 ^ 149 ≤ 0) := fun x => h ((hq _ he).mp x)
    have hP : ¬ (p.Health - (b : ℚ) / 2 ^ 149 ≤ 0) := fun x => h ((hq _ hp).mp x)
    simp only [if_neg h, if_neg hE, if_neg hP, Binary32.toRat]
    rw [he, hp]
    refine ⟨⟨?_, by simp⟩, ⟨?_, by simp⟩⟩ <;>
    · congr 1
      push_cast
      ring

/-- An instance of the agreement: the constructed enemy and a player at health
500 hit by 120 are at health 380 in both models, without `Death()`. -/
theorem TakeDamage32_agrees_when_exact_witness :
    (AEnemy.TakeDamage32 (Binary32.fin (500 * 2 ^ 149)) (Binary32.fin (120 * 2 ^ 149))).1.toRat
      = some (AEnemy.TakeDamage (AEnemy.new none none none none ⟨0, 0, 0⟩ ⟨0, 0, 0⟩)
          (((120 * 2 ^ 149 : Int) : ℚ) / 2 ^ 149)).state.Health :=
  (TakeDamage32_agrees_when_exact (AEnemy.new none none none none ⟨0, 0, 0⟩ ⟨0, 0, 0⟩)
    { APlayerCharacter.new none none none ⟨0, 0, 0⟩ with Health := 500 }
    (500 * 2 ^ 149) (120 * 2 ^ 149)
    (by norm_num [AEnemy.new]) (by norm_num) (by decide)).1.1

end RiotWave
